import Mathlib

/-!
# Equipment lending tracker: request admission and status transitions

A shallow embedding of `Backend/controllers/requestController.js`
(`createRequest`, `updateRequestStatus`) over the Sequelize models
`Equipment` and `BorrowRequest`, followed by theorems about it.

Conventions of the embedding

* The relational store is a pair of row lists (catalog and ledger); every
  handler runs to completion on it, one at a time, and storage itself never
  fails.
* `equipmentId` is kept as the raw JSON value of the request body, because
  `createRequest` inspects its type and parses it.  The other fields are taken
  at the type the handler expects: ids as the integers they denote (on those
  `parseInt(x, 10)` is the identity), calendar dates as day numbers.
* A JSON number is a finite value, represented exactly as a rational; `NaN`
  only arises as a result of `parseInt`.
-/

namespace Lending

/-! ## JavaScript values -/

/-- Value of a JSON body field, as seen by the handler. -/
inductive JsValue where
  | undefined
  | null
  | bool (b : Bool)
  | number (q : Rat)
  | string (s : String)
  | object
  deriving DecidableEq

/-- Result of a numeric conversion: `NaN` or a finite number. -/
inductive JsNumber where
  | nan
  | num (q : Rat)
  deriving DecidableEq

/-- Characters removed by `String.prototype.trim` and skipped by `parseInt`
(ECMAScript WhiteSpace and LineTerminator). -/
def isStrWhiteSpaceChar (c : Char) : Bool :=
  let n := c.toNat
  n = 0x09 || n = 0x0A || n = 0x0B || n = 0x0C || n = 0x0D || n = 0x20 ||
  n = 0xA0 || n = 0x1680 || (0x2000 ≤ n && n ≤ 0x200A) || n = 0x2028 ||
  n = 0x2029 || n = 0x202F || n = 0x205F || n = 0x3000 || n = 0xFEFF

/-- The method `String.prototype.trim`. -/
def jsTrim (cs : List Char) : List Char :=
  ((cs.dropWhile isStrWhiteSpaceChar).reverse.dropWhile isStrWhiteSpaceChar).reverse

/-- Decimal digit test used by `parseInt` with radix 10. -/
def isDecDigit (c : Char) : Bool := 0x30 ≤ c.toNat && c.toNat ≤ 0x39

/-- Value of a run of decimal digits. -/
def digitsValue (ds : List Char) : Nat :=
  ds.foldl (fun acc c => 10 * acc + (c.toNat - 0x30)) 0

/-- The call `parseInt(s, 10)` on a string: skip leading white space, read an
optional sign, then the longest run of decimal digits; `NaN` when that run is
empty, otherwise the signed value of the run (what follows is ignored). -/
def parseInt (input : List Char) : JsNumber :=
  let s := input.dropWhile isStrWhiteSpaceChar
  let neg : Bool := s.head? = some '-'
  let body : List Char :=
    if s.head? = some '-' ∨ s.head? = some '+' then s.tail else s
  let z := body.takeWhile isDecDigit
  if z.isEmpty then JsNumber.nan
  else JsNumber.num
    (if neg then -((digitsValue z : Nat) : Int) else ((digitsValue z : Nat) : Int))

/-! ## Data model (`Backend/models`) -/

/-- The enumeration `BorrowRequest.Status`. -/
inductive Status where
  | PENDING
  | APPROVED
  | REJECTED
  | RETURNED
  deriving DecidableEq, Repr

/-- A calendar date (`DATEONLY`), as a day number. -/
abbrev Date := Nat

/-- A row of the `Equipment` table. -/
structure Equipment where
  Id : Int
  Name : String
  Category : String
  Condition : String
  Quantity : Int
  Availability : Bool
  deriving DecidableEq

/-- A row of the `BorrowRequests` table. -/
structure BorrowRequest where
  Id : Int
  UserId : Int
  EquipmentId : Int
  Purpose : Option String
  Status : Status
  RequestedDate : Date
  DueDate : Date
  ReturnedDate : Option Date
  ApprovedBy : Option Int
  Notes : Option String
  deriving DecidableEq

/-- The store: equipment catalog and borrow-request ledger. -/
structure DB where
  equipment : List Equipment
  requests : List BorrowRequest
  deriving DecidableEq

/-- The query `Equipment.findByPk(id)` for a numeric key. -/
def Equipment.findByPk (catalog : List Equipment) (id : Rat) : Option Equipment :=
  catalog.find? (fun e => decide ((e.Id : Rat) = id))

/-- The query `BorrowRequest.findByPk(id)`. -/
def BorrowRequest.findByPk (ledger : List BorrowRequest) (id : Int) : Option BorrowRequest :=
  ledger.find? (fun r => decide (r.Id = id))

/-- The query `BorrowRequest.count({ where })`. -/
def BorrowRequest.count (ledger : List BorrowRequest) (wh : BorrowRequest → Bool) : Nat :=
  (ledger.filter wh).length

/-- Key given to an inserted row by the auto-increment column: larger than
every key in the table. -/
def BorrowRequest.nextId (ledger : List BorrowRequest) : Int :=
  (ledger.map (fun r => r.Id)).foldr max 0 + 1

/-! ## `createRequest` -/

/-- Fields of the body of `POST /requests`, after either casing of the field
names has been resolved. -/
structure CreateBody where
  userId : Int
  equipmentId : JsValue
  purpose : Option String
  requestedDate : Date
  dueDate : Date

/-- Responses of `createRequest`. -/
inductive CreateResponse where
  /-- 400 'Invalid equipment ID' -/
  | invalidEquipmentId
  /-- 400 'Invalid equipment ID format' -/
  | invalidEquipmentIdFormat
  /-- 400 'Equipment not found' -/
  | equipmentNotFound
  /-- 400 'Equipment not available' -/
  | equipmentNotAvailable
  /-- 400 'Equipment not available - all units are booked for the selected dates' -/
  | allUnitsBooked
  /-- 201 'Borrowing request created successfully' with the new row -/
  | created (request : BorrowRequest)
  deriving DecidableEq

/-- Lines 17 to 25: conversion of the `equipmentId` field; `none` is the early
return 'Invalid equipment ID'. -/
def equipmentIdInt : JsValue → Option JsNumber
  | JsValue.string s => some (parseInt (jsTrim s.toList))
  | JsValue.number q => some (JsNumber.num q)
  | _ => none

/-- The `where` clause of the count of lines 43 to 54. -/
def overlapWhere (equipmentIdInt : Rat) (requestedDate dueDate : Date)
    (r : BorrowRequest) : Bool :=
  decide ((r.EquipmentId : Rat) = equipmentIdInt) &&
  (r.Status == Status.PENDING || r.Status == Status.APPROVED) &&
  [decide (r.RequestedDate ≤ dueDate) && decide (r.DueDate ≥ requestedDate)].any id

/-- The row built by lines 60 to 66 for the converted key `equipmentId`
(stored in an INTEGER column); `parseInt(userId, 10)` is `userId` on an
integer. The columns left out take their defaults. -/
def newRow (ledger : List BorrowRequest) (b : CreateBody) (equipmentId : Int) : BorrowRequest :=
  { Id := BorrowRequest.nextId ledger
    UserId := b.userId
    EquipmentId := equipmentId
    Purpose := b.purpose
    Status := Status.PENDING
    RequestedDate := b.requestedDate
    DueDate := b.dueDate
    ReturnedDate := none
    ApprovedBy := none
    Notes := none }

/-- The handler `createRequest`. -/
def createRequest (db : DB) (b : CreateBody) : DB × CreateResponse :=
  match equipmentIdInt b.equipmentId with
  | none => (db, CreateResponse.invalidEquipmentId)
  | some JsNumber.nan => (db, CreateResponse.invalidEquipmentIdFormat)  -- isNaN
  | some (JsNumber.num idq) =>
    match Equipment.findByPk db.equipment idq with
    | none => (db, CreateResponse.equipmentNotFound)
    | some equipment =>
      if !equipment.Availability then (db, CreateResponse.equipmentNotAvailable)
      else
        let currentlyBorrowed :=
          BorrowRequest.count db.requests (overlapWhere idq b.requestedDate b.dueDate)
        if (currentlyBorrowed : Int) ≥ equipment.Quantity then
          (db, CreateResponse.allUnitsBooked)
        else
          let request := newRow db.requests b idq.floor
          ({ db with requests := db.requests ++ [request] }, CreateResponse.created request)

/-- The admission count in the words of the specification: ledger rows of the
equipment with status PENDING or APPROVED and
`existing.requestedDate ≤ newDueDate AND existing.dueDate ≥ newRequestedDate`. -/
def specOverlapCount (ledger : List BorrowRequest) (equipmentId : Int)
    (newRequestedDate newDueDate : Date) : Nat :=
  (ledger.filter (fun existing =>
    decide (existing.EquipmentId = equipmentId ∧
      (existing.Status = Status.PENDING ∨ existing.Status = Status.APPROVED) ∧
      existing.RequestedDate ≤ newDueDate ∧ existing.DueDate ≥ newRequestedDate))).length

/-- The failure taxonomy of the specification for `createRequest`. -/
inductive CreateOutcome where
  | InvalidInput
  | NotFound
  | Unavailable
  | CapacityExceeded
  | Success
  deriving DecidableEq

/-- The outcome class of a response. -/
def CreateResponse.outcome : CreateResponse → CreateOutcome
  | CreateResponse.invalidEquipmentId => CreateOutcome.InvalidInput
  | CreateResponse.invalidEquipmentIdFormat => CreateOutcome.InvalidInput
  | CreateResponse.equipmentNotFound => CreateOutcome.NotFound
  | CreateResponse.equipmentNotAvailable => CreateOutcome.Unavailable
  | CreateResponse.allUnitsBooked => CreateOutcome.CapacityExceeded
  | CreateResponse.created _ => CreateOutcome.Success

/-- An optional sign followed by decimal digits only, at least one. -/
def isSignedDigits (cs : List Char) : Bool :=
  let ds := if cs.head? = some '-' ∨ cs.head? = some '+' then cs.tail else cs
  !ds.isEmpty && ds.all isDecDigit

/-- Validity of `equipmentId` in the words of the claim: an integer number, or
a string that is the decimal representation of an integer, surrounding white
space allowed. -/
def specIntegerId : JsValue → Bool
  | JsValue.number q => q.isInt
  | JsValue.string s => isSignedDigits (jsTrim s.toList)
  | _ => false

/-- An optional sign followed by a decimal digit, whatever comes after. -/
def startsWithSignedDigit (cs : List Char) : Bool :=
  let ds := if cs.head? = some '-' ∨ cs.head? = some '+' then cs.tail else cs
  match ds.head? with
  | some c => isDecDigit c
  | none => false

/-- What lines 17 to 29 let through: any number, and any string that after
trimming starts with an optional sign and a decimal digit. -/
def passesIdCheck : JsValue → Bool
  | JsValue.number _ => true
  | JsValue.string s => startsWithSignedDigit (jsTrim s.toList)
  | _ => false


/-- A row that holds a unit: status PENDING or APPROVED. -/
def BorrowRequest.isActive (r : BorrowRequest) : Bool :=
  r.Status == Status.PENDING || r.Status == Status.APPROVED

/-- The rows that can count against a request with body `b`: PENDING or
APPROVED rows of the equipment that `b.equipmentId` converts to. -/
def countsTowards (b : CreateBody) (r : BorrowRequest) : Bool :=
  decide (equipmentIdInt b.equipmentId = some (JsNumber.num (r.EquipmentId : Rat))) &&
    r.isActive

/-! ## `updateRequestStatus` -/

/-- The two routes served by `updateRequestStatus`. -/
inductive RequestRoute where
  /-- `PUT /:id/status` -/
  | status
  /-- `PUT /:id/return` -/
  | returnEquipment
  deriving DecidableEq

/-- Fields of the body of the two status routes, after either casing of the
field names has been resolved; `none` is an absent (falsy) field. -/
structure StatusBody where
  status : Option Status
  notes : Option String
  approvedBy : Option Int

/-- Responses of `updateRequestStatus`. -/
inductive UpdateResponse where
  /-- 404 'Request not found' -/
  | requestNotFound
  /-- 404 'Request not found or not updated' -/
  | notUpdated
  /-- 200 'Request status updated successfully' with the row read back -/
  | updated (updatedRequest : Option BorrowRequest)
  deriving DecidableEq

/-- Lines 90 to 94: the status written. -/
def finalStatus (route : RequestRoute) (status : Option Status) : Option Status :=
  if route = RequestRoute.returnEquipment ∧ status = none then some Status.RETURNED
  else status

/-- The object `updateData` of lines 96 to 99: fields written by the update;
`none` is a field left out. -/
structure UpdateData where
  Status : Option Status
  Notes : Option String
  ApprovedBy : Option Int
  ReturnedDate : Option Date

/-- Lines 96 to 99. -/
def mkUpdateData (route : RequestRoute) (b : StatusBody) (now : Date) : UpdateData :=
  let fs := finalStatus route b.status
  { Status := fs
    Notes := match b.notes with
      | some n => if n ≠ "" then some n else none
      | none => none
    ApprovedBy := match b.approvedBy with
      | some a => if a ≠ 0 then some a else none
      | none => none
    ReturnedDate := if fs = some Status.RETURNED then some now else none }

/-- Effect of the update on one row: the fields present in `updateData`
are overwritten, the others kept (an `undefined` value is skipped). -/
def applyUpdate (u : UpdateData) (r : BorrowRequest) : BorrowRequest :=
  { r with
    Status := u.Status.getD r.Status
    Notes := match u.Notes with
      | some n => some n
      | none => r.Notes
    ApprovedBy := match u.ApprovedBy with
      | some a => some a
      | none => r.ApprovedBy
    ReturnedDate := match u.ReturnedDate with
      | some d => some d
      | none => r.ReturnedDate }

/-- Whether `updateData` carries no value: every field is `undefined`. -/
def UpdateData.isEmpty (u : UpdateData) : Bool :=
  u.Status.isNone && u.Notes.isNone && u.ApprovedBy.isNone && u.ReturnedDate.isNone

/-- The statement `BorrowRequest.update(updateData, { where: { Id } })`: the new
table and the number of rows affected. When `updateData` carries no value
there is nothing to write: no row is affected and the number is 0. -/
def BorrowRequest.update (ledger : List BorrowRequest) (u : UpdateData) (id : Int) :
    List BorrowRequest × Nat :=
  if u.isEmpty then (ledger, 0)
  else
    (ledger.map (fun r => if r.Id = id then applyUpdate u r else r),
     (ledger.filter (fun r => decide (r.Id = id))).length)

/-- The handler `updateRequestStatus`, for the route it is mounted on, the
path parameter `id`, the body and the current date. -/
def updateRequestStatus (db : DB) (route : RequestRoute) (id : Int) (b : StatusBody)
    (now : Date) : DB × UpdateResponse :=
  match BorrowRequest.findByPk db.requests id with
  | none => (db, UpdateResponse.requestNotFound)
  | some _ =>
    let upd := BorrowRequest.update db.requests (mkUpdateData route b now) id
    if upd.2 = 0 then ({ db with requests := upd.1 }, UpdateResponse.notUpdated)
    else
      ({ db with requests := upd.1 },
       UpdateResponse.updated (BorrowRequest.findByPk upd.1 id))

/-- The operation `setStatus(requestId, newStatus, notes?, approverId?)`:
`PUT /:id/status` with a status in the body. -/
def setStatus (db : DB) (requestId : Int) (newStatus : Status) (notes : Option String)
    (approverId : Option Int) (now : Date) : DB × UpdateResponse :=
  updateRequestStatus db RequestRoute.status requestId
    { status := some newStatus, notes := notes, approvedBy := approverId } now

/-- The operation `returnEquipment(requestId)`: `PUT /:id/return` with no
status in the body. -/
def returnEquipment (db : DB) (requestId : Int) (now : Date) : DB × UpdateResponse :=
  updateRequestStatus db RequestRoute.returnEquipment requestId
    { status := none, notes := none, approvedBy := none } now

/-! ## Sequences of ledger operations and the admission invariant -/

/-- The inclusive overlap test between the date ranges of two rows. -/
def BorrowRequest.overlaps (r₁ r₂ : BorrowRequest) : Bool :=
  decide (r₁.RequestedDate ≤ r₂.DueDate) && decide (r₂.RequestedDate ≤ r₁.DueDate)

/-- A ledger operation. -/
inductive LedgerOp where
  | createRequest (b : CreateBody)
  | setStatus (requestId : Int) (newStatus : Status) (notes : Option String)
      (approverId : Option Int) (now : Date)
  | returnEquipment (requestId : Int) (now : Date)

/-- The store after one operation. -/
def LedgerOp.run (db : DB) : LedgerOp → DB
  | LedgerOp.createRequest b => (Lending.createRequest db b).1
  | LedgerOp.setStatus requestId newStatus notes approverId now =>
    (Lending.setStatus db requestId newStatus notes approverId now).1
  | LedgerOp.returnEquipment requestId now => (Lending.returnEquipment db requestId now).1

/-- The store after a sequence of operations executed one at a time. -/
def runOps (db : DB) (ops : List LedgerOp) : DB :=
  ops.foldl LedgerOp.run db

/-- The store with the given catalog and an empty ledger. -/
def emptyLedger (catalog : List Equipment) : DB :=
  { equipment := catalog, requests := [] }

/-- The admission bound for one catalog item: every set of PENDING or APPROVED
rows of the item with pairwise overlapping date ranges has at most `Quantity`
members. A set of rows is a sublist of the ledger. -/
def AdmissionBound (db : DB) (e : Equipment) : Prop :=
  ∀ rows : List BorrowRequest, rows.Sublist db.requests →
    (∀ r ∈ rows, r.EquipmentId = e.Id ∧ r.isActive = true) →
    rows.Pairwise (fun r₁ r₂ => r₁.overlaps r₂ = true) →
    (rows.length : Int) ≤ e.Quantity

/-- The admission invariant of a store: the admission bound holds for every
catalog item (addressed by its key). -/
def AdmissionInvariant (db : DB) : Prop :=
  ∀ e : Equipment, Equipment.findByPk db.equipment (e.Id : Rat) = some e → AdmissionBound db e

/-- The operation does not move a REJECTED or RETURNED row back to PENDING or
APPROVED: a `setStatus` either writes REJECTED or RETURNED, or targets rows
that are PENDING or APPROVED. -/
def LedgerOp.noReactivation (db : DB) : LedgerOp → Bool
  | LedgerOp.createRequest _ => true
  | LedgerOp.setStatus requestId newStatus _ _ _ =>
    newStatus == Status.REJECTED || newStatus == Status.RETURNED ||
      db.requests.all (fun r => decide (r.Id ≠ requestId) || r.isActive)
  | LedgerOp.returnEquipment _ _ => true

/-- No operation of the sequence, run from `db`, re-activates a row. -/
def noReactivations (db : DB) : List LedgerOp → Bool
  | [] => true
  | op :: ops => op.noReactivation db && noReactivations (op.run db) ops

/-! ## `deleteEquipment` (`equipmentController.js`) -/

/-- Responses of `deleteEquipment`. -/
inductive DeleteResponse where
  /-- 400 'Cannot Delete Equipment ... currently has active borrow requests' -/
  | activeBorrows
  /-- 400 'Cannot Delete Equipment ... has borrowing history' -/
  | borrowingHistory
  /-- 404 'Equipment not found' -/
  | equipmentNotFound
  /-- 200 'Equipment deleted successfully!' -/
  | deleted
  deriving DecidableEq

/-- The query `BorrowRequest.findOne({ where })`. -/
def BorrowRequest.findOne (ledger : List BorrowRequest) (wh : BorrowRequest → Bool) :
    Option BorrowRequest :=
  ledger.find? wh

/-- The statement `Equipment.destroy({ where: { Id: id } })`: the new table and
the number of rows deleted. -/
def Equipment.destroy (catalog : List Equipment) (id : Int) : List Equipment × Nat :=
  (catalog.filter (fun e => !decide (e.Id = id)),
   (catalog.filter (fun e => decide (e.Id = id))).length)

/-- The handler `deleteEquipment` for the path parameter `id`. -/
def deleteEquipment (db : DB) (id : Int) : DB × DeleteResponse :=
  match BorrowRequest.findOne db.requests (fun r => decide (r.EquipmentId = id)) with
  | some _ =>
    match BorrowRequest.findOne db.requests (fun r =>
        decide (r.EquipmentId = id) &&
          (r.Status == Status.PENDING || r.Status == Status.APPROVED)) with
    | some _ => (db, DeleteResponse.activeBorrows)
    | none => (db, DeleteResponse.borrowingHistory)
  | none =>
    let del := Equipment.destroy db.equipment id
    if del.2 = 0 then ({ db with equipment := del.1 }, DeleteResponse.equipmentNotFound)
    else ({ db with equipment := del.1 }, DeleteResponse.deleted)

/-- An operation of the system on the store. -/
inductive SystemOp where
  | ledger (op : LedgerOp)
  | deleteEquipment (id : Int)

/-- The store after one operation of the system. -/
def SystemOp.run (db : DB) : SystemOp → DB
  | SystemOp.ledger op => op.run db
  | SystemOp.deleteEquipment id => (Lending.deleteEquipment db id).1

/-- The store after a sequence of operations of the system, one at a time. -/
def runSystem (db : DB) (ops : List SystemOp) : DB :=
  ops.foldl SystemOp.run db

/-- Referential integrity of the ledger: the equipment key of every row is the
key of a catalog item. -/
def ReferentialIntegrity (db : DB) : Prop :=
  ∀ r ∈ db.requests, ∃ e ∈ db.equipment, e.Id = r.EquipmentId

/-! ## Roles and the request router (`routes/requestRoutes.js`) -/

/-- The enumeration `User.Role`. -/
inductive Role where
  | student
  | staff
  | admin
  deriving DecidableEq

/-- Modelled from the spec: the middleware `authorizeRoles(...roles)` of
`middleware/authMiddleware`, whose source is not available. The interface
table gives each route the roles that may call it; the middleware lets a call
through exactly when the role carried by the caller's token is one of them. -/
def authorizeRoles (roles : List Role) (caller : Role) : Bool :=
  roles.contains caller

/-- A call to a route of the request API by an authenticated caller. -/
inductive RequestCall where
  /-- `GET /` -/
  | getRequests
  /-- `GET /overdue` -/
  | getOverdueRequests
  /-- `GET /analytics` -/
  | getRequestAnalytics
  /-- `POST /` -/
  | createRequest (b : CreateBody)
  /-- `PUT /:id/status` -/
  | putStatus (id : Int) (b : StatusBody)
  /-- `PUT /:id/return` -/
  | putReturn (id : Int) (b : StatusBody)

/-- The store after a call is routed: the three `GET` handlers only read; the
status route is behind `authorizeRoles('admin', 'staff')`, the creation and
return routes are open to every authenticated caller. -/
def requestRouter (caller : Role) (db : DB) (now : Date) : RequestCall → DB
  | RequestCall.getRequests => db
  | RequestCall.getOverdueRequests => db
  | RequestCall.getRequestAnalytics => db
  | RequestCall.createRequest b => (Lending.createRequest db b).1
  | RequestCall.putStatus id b =>
    if authorizeRoles [Role.admin, Role.staff] caller then
      (updateRequestStatus db RequestRoute.status id b now).1
    else db
  | RequestCall.putReturn id b =>
    (updateRequestStatus db RequestRoute.returnEquipment id b now).1

/-! ## Users and the rows read back with their associations -/

/-- A row of the `Users` table; `Password` holds the stored credential hash. -/
structure User where
  Id : Int
  Name : String
  Email : String
  Password : String
  Role : Role
  deriving DecidableEq

/-- A ledger row read with `include: [Equipment, { model: User, as: 'User' }]`:
the row with every column of its equipment and of its requester. -/
structure RequestWithUser where
  request : BorrowRequest
  Equipment : Option Equipment
  User : Option User
  deriving DecidableEq

/-- The read `include: [Equipment, { model: User, as: 'User' }]` of lines 105
to 107 and of line 157. -/
def includeEquipmentAndUser (users : List User) (catalog : List Equipment)
    (r : BorrowRequest) : RequestWithUser :=
  { request := r
    Equipment := catalog.find? (fun e => decide (e.Id = r.EquipmentId))
    User := users.find? (fun u => decide (u.Id = r.UserId)) }

/-- The requester as read by `getRequests`, line 130:
`attributes: ['Id', 'Name', 'Email']`. -/
structure UserSummary where
  Id : Int
  Name : String
  Email : String
  deriving DecidableEq

/-- The requester read with `attributes: ['Id', 'Name', 'Email']`. -/
def includeUserSummary (users : List User) (r : BorrowRequest) : Option UserSummary :=
  (users.find? (fun u => decide (u.Id = r.UserId))).map
    (fun u => { Id := u.Id, Name := u.Name, Email := u.Email })

/-- The field `updatedRequest` of the 200 body of `updateRequestStatus`: the
row read back with its associations; `none` when the answer is not 200 or the
row is not found. -/
def updatedRequestBody (users : List User) (db : DB) (route : RequestRoute) (id : Int)
    (b : StatusBody) (now : Date) : Option RequestWithUser :=
  match updateRequestStatus db route id b now with
  | (db', UpdateResponse.updated (some r)) =>
    some (includeEquipmentAndUser users db'.equipment r)
  | _ => none

/-- The users table with every stored hash replaced by `hash`. -/
def replaceHashes (hash : String) (users : List User) : List User :=
  users.map (fun u => { u with Password := hash })

/-! ## List queries (`getRequests`, `getEquipment`, `getOverdueRequests`) -/

/-- Result of `Model.findAndCountAll`. -/
structure CountAndRows (α : Type) where
  count : Nat
  rows : List α

/-- The query `Model.findAndCountAll({ where, order, limit, offset })`: the
number of rows matching `where`, and the rows of the window cut out of the
matching rows put in order. -/
def findAndCountAll {α : Type} (table : List α) (wh : α → Bool) (order : α → α → Bool)
    (limit offset : Nat) : CountAndRows α :=
  let matching := table.filter wh
  { count := matching.length
    rows := ((matching.insertionSort (fun a b => order a b = true)).drop offset).take limit }

/-- The value `Math.ceil(count / limit)` for a positive `limit`. -/
def ceilDiv (count limit : Nat) : Nat := (count + limit - 1) / limit

/-- Body of the answer of a list endpoint. -/
structure ListResponse (α : Type) where
  items : List α
  totalCount : Nat
  currentPage : Nat
  totalPages : Nat

/-- Query string of `GET /requests`; `none` is an absent parameter. `page` and
`limit` are positive integers, the page being 1-based. -/
structure RequestsQuery where
  status : Option Status
  userId : Option Int
  equipmentId : Option Int
  page : Option Nat
  limit : Option Nat

/-- The object `where` of `getRequests`, lines 121 to 124. -/
def requestsWhere (q : RequestsQuery) (r : BorrowRequest) : Bool :=
  (match q.status with
    | some s => r.Status == s
    | none => true) &&
  (match q.userId with
    | some u => r.UserId == u
    | none => true) &&
  (match q.equipmentId with
    | some e => r.EquipmentId == e
    | none => true)

/-- The clause `order: [['Id', 'DESC']]`. -/
def byIdDesc (a b : BorrowRequest) : Bool := decide (a.Id ≥ b.Id)

/-- A ledger row as listed by `getRequests`: with its equipment and the
`Id`, `Name` and `Email` of its requester. -/
structure RequestWithSummary where
  request : BorrowRequest
  Equipment : Option Equipment
  User : Option UserSummary
  deriving DecidableEq

/-- The read `include` of lines 128 to 131. -/
def includeEquipmentAndSummary (users : List User) (catalog : List Equipment)
    (r : BorrowRequest) : RequestWithSummary :=
  { request := r
    Equipment := catalog.find? (fun e => decide (e.Id = r.EquipmentId))
    User := includeUserSummary users r }

/-- The handler `getRequests`. -/
def getRequests (users : List User) (db : DB) (q : RequestsQuery) :
    ListResponse RequestWithSummary :=
  let page := q.page.getD 1
  let limit := q.limit.getD 10
  let offset := (page - 1) * limit
  let requests := findAndCountAll db.requests (requestsWhere q) byIdDesc limit offset
  { items := requests.rows.map (includeEquipmentAndSummary users db.equipment)
    totalCount := requests.count
    currentPage := page
    totalPages := ceilDiv requests.count limit }

/-- Text comparison as done by the database (its collation), which the sources
do not fix: equality, the test `text LIKE '%pattern%'` and the order used by
`ORDER BY`, taken as parameters. -/
structure Collation where
  eq : String → String → Bool
  containsPattern : String → String → Bool
  le : String → String → Bool

/-- Query string of `GET /equipment`; `none` is an absent parameter. -/
structure EquipmentQuery where
  category : Option String
  availability : Option String
  search : Option String
  page : Option Nat
  limit : Option Nat

/-- The object `filter` of `getEquipment`, lines 20 to 30. -/
def equipmentFilter (c : Collation) (q : EquipmentQuery) (e : Equipment) : Bool :=
  (match q.category with
    | some cat => if cat ≠ "" then c.eq e.Category cat else true
    | none => true) &&
  (match q.availability with
    | some a => if a ≠ "" then e.Availability == decide (a = "true") else true
    | none => true) &&
  (match q.search with
    | some s =>
      if s ≠ "" then [c.containsPattern e.Name s, c.containsPattern e.Category s].any id
      else true
    | none => true)

/-- The handler `getEquipment`. -/
def getEquipment (c : Collation) (db : DB) (q : EquipmentQuery) : ListResponse Equipment :=
  let page := q.page.getD 1
  let limit := q.limit.getD 10
  let offset := (page - 1) * limit
  let equipment := findAndCountAll db.equipment (equipmentFilter c q)
    (fun a b => c.le a.Name b.Name) limit offset
  { items := equipment.rows
    totalCount := equipment.count
    currentPage := page
    totalPages := ceilDiv equipment.count limit }

/-- An instant: a day and the milliseconds elapsed since its start. -/
structure Timestamp where
  day : Date
  msOfDay : Nat
  deriving DecidableEq

/-- The comparison `DueDate < new Date()` of line 154 on the `DATEONLY` column:
the instant is bound as the date `YYYY-MM-DD` of its day, so the two are
compared as dates and the time of day plays no part. -/
def dateBefore (d : Date) (now : Timestamp) : Bool :=
  decide (d < now.day)

/-- The handler `getOverdueRequests` at the instant `now`. -/
def getOverdueRequests (users : List User) (db : DB) (now : Timestamp) :
    List RequestWithUser :=
  (db.requests.filter (fun r => r.Status == Status.APPROVED && dateBefore r.DueDate now)).map
    (includeEquipmentAndUser users db.equipment)

/-! ## The request list of the user interface (`BorrowingRequests.js`) -/

/-- The actions of a request card. -/
inductive UiAction where
  /-- the button Approve, `handleApprove` -/
  | approve
  /-- the button Reject, `handleReject`, with the answer to the prompt -/
  | reject (reason : Option String)
  /-- the button Mark as Returned, `handleReturn` -/
  | markReturned

/-- Lines 278 and 295: the condition under which the button is rendered for a
displayed request and the role of the signed-in user. -/
def UiAction.offered (role : Role) (request : BorrowRequest) : UiAction → Bool
  | UiAction.approve =>
    (role == Role.admin || role == Role.staff) && request.Status == Status.PENDING
  | UiAction.reject _ =>
    (role == Role.admin || role == Role.staff) && request.Status == Status.PENDING
  | UiAction.markReturned => request.Status == Status.APPROVED

/-- The status sent by the action. -/
def UiAction.sends : UiAction → Status
  | UiAction.approve => Status.APPROVED
  | UiAction.reject _ => Status.REJECTED
  | UiAction.markReturned => Status.RETURNED

/-- Lines 77 to 116: the call issued by the action for the signed-in user
`userId` and a displayed request. -/
def UiAction.call (userId : Int) (request : BorrowRequest) : UiAction → RequestCall
  | UiAction.approve =>
    RequestCall.putStatus request.Id
      { status := some Status.APPROVED, notes := none, approvedBy := some userId }
  | UiAction.reject reason =>
    RequestCall.putStatus request.Id
      { status := some Status.REJECTED, notes := reason, approvedBy := some userId }
  | UiAction.markReturned =>
    RequestCall.putReturn request.Id
      { status := some Status.RETURNED, notes := none, approvedBy := none }

/-! ## `addEquipment` and `updateEquipment` (`equipmentController.js`) -/

/-- Body of `POST /equipment`, each field at the type of its column; `none` is
an absent field. `Name` and `Category` are required by the model. -/
structure AddEquipmentBody where
  Name : String
  Category : String
  Condition : Option String
  Quantity : Option Int
  Availability : Option Bool

/-- Key given to an inserted catalog row by the auto-increment column. -/
def Equipment.nextId (catalog : List Equipment) : Int :=
  (catalog.map (fun e => e.Id)).foldr max 0 + 1

/-- The handler `addEquipment`: `Equipment.create(req.body)` with the defaults
of the model for the absent fields; the answer carries the new row. -/
def addEquipment (db : DB) (b : AddEquipmentBody) : DB × Equipment :=
  let equipment : Equipment :=
    { Id := Equipment.nextId db.equipment
      Name := b.Name
      Category := b.Category
      Condition := b.Condition.getD "Good"
      Quantity := b.Quantity.getD 1
      Availability := b.Availability.getD true }
  ({ db with equipment := db.equipment ++ [equipment] }, equipment)

/-- A value of a field of a JSON body: `null`, a boolean, an integer number or
a string. An integer stands for a number of magnitude below 10^21, whose
string form is its decimal digits. `nan` is the number NaN, which only
`parseInt` produces. -/
inductive BodyValue where
  | null
  | bool (b : Bool)
  | int (n : Int)
  | text (s : String)
  | nan
  deriving DecidableEq

/-- A JSON object with scalar fields, as the list of its keys and values; a key
that is not listed is `undefined`. -/
abbrev JsonBody := List (String × BodyValue)

/-- The read `body[key]`; `none` is `undefined`. -/
def JsonBody.get (body : JsonBody) (key : String) : Option BodyValue :=
  (body.find? (fun kv => kv.1 == key)).map (fun kv => kv.2)

/-- The statement `delete body[key]`. -/
def JsonBody.delete (body : JsonBody) (key : String) : JsonBody :=
  body.filter (fun kv => kv.1 != key)

/-- The assignment `body[key] = v` to a key that is present. -/
def JsonBody.set (body : JsonBody) (key : String) (v : BodyValue) : JsonBody :=
  body.map (fun kv => if kv.1 = key then (kv.1, v) else kv)

/-- Value of a hexadecimal digit. -/
def hexDigitValue (c : Char) : Option Nat :=
  let n := c.toNat
  if 0x30 ≤ n ∧ n ≤ 0x39 then some (n - 0x30)
  else if 0x61 ≤ n ∧ n ≤ 0x66 then some (n - 0x61 + 10)
  else if 0x41 ≤ n ∧ n ≤ 0x46 then some (n - 0x41 + 10)
  else none

/-- Value of a run of hexadecimal digits. -/
def hexDigitsValue (ds : List Char) : Nat :=
  ds.foldl (fun acc c => 16 * acc + (hexDigitValue c).getD 0) 0

/-- The call `parseInt(s)` with no radix on a string: as with radix 10, except
that `0x` or `0X` after the sign selects radix 16; `none` is NaN. -/
def parseIntNoRadix (input : List Char) : Option Int :=
  let s := input.dropWhile isStrWhiteSpaceChar
  let neg : Bool := s.head? = some '-'
  let body : List Char :=
    if s.head? = some '-' ∨ s.head? = some '+' then s.tail else s
  let hex : Bool := match body with
    | c :: x :: _ => c = '0' && (x = 'x' || x = 'X')
    | _ => false
  let z := if hex then (body.drop 2).takeWhile (fun c => (hexDigitValue c).isSome)
    else body.takeWhile isDecDigit
  let m : Nat := if hex then hexDigitsValue z else digitsValue z
  if z.isEmpty then none
  else some (if neg then -(m : Int) else (m : Int))

/-- The call `parseInt(v)` on a field value: the value is first turned into
a string. -/
def parseIntValue : BodyValue → BodyValue
  | BodyValue.int n => BodyValue.int n
  | BodyValue.text s =>
    match parseIntNoRadix s.toList with
    | some n => BodyValue.int n
    | none => BodyValue.nan
  | _ => BodyValue.nan

/-- Lines 71 to 75: the four timestamp keys are deleted. -/
def stripTimestamps (body : JsonBody) : JsonBody :=
  (((body.delete "CreatedAt").delete "UpdatedAt").delete "createdAt").delete "updatedAt"

/-- Lines 77 to 80: `Availability`, when not `undefined`, becomes a boolean. -/
def coerceAvailability (d : JsonBody) : JsonBody :=
  match d.get "Availability" with
  | some v =>
    d.set "Availability"
      (BodyValue.bool (decide (v = BodyValue.bool true ∨ v = BodyValue.text "true" ∨
        v = BodyValue.int 1)))
  | none => d

/-- Lines 82 to 85: `Quantity`, when not `undefined`, goes through `parseInt`. -/
def coerceQuantity (d : JsonBody) : JsonBody :=
  match d.get "Quantity" with
  | some v => d.set "Quantity" (parseIntValue v)
  | none => d

/-- Lines 87 to 92: the fields equal to `''`, `null` or `'undefined'` are
deleted. -/
def removeEmpty (d : JsonBody) : JsonBody :=
  d.filter (fun kv => !decide (kv.2 = BodyValue.text "" ∨ kv.2 = BodyValue.null ∨
    kv.2 = BodyValue.text "undefined"))

/-- The object `updateData` once lines 69 to 92 have run: the keys and values
of the `SET` list built from the body. -/
def equipmentUpdateData (body : JsonBody) : JsonBody :=
  removeEmpty (coerceQuantity (coerceAvailability (stripTimestamps body)))

/-- Whether `key` is, letter for letter, the name of a column of `Equipment`
other than the identity `Id`. -/
def isColumnName (key : String) : Bool :=
  decide (key = "Name" ∨ key = "Category" ∨ key = "Condition" ∨ key = "Quantity" ∨
    key = "Availability")

/-- Whether the database accepts `[key] = value` when `key` is the name of a
column: the value converts to the type of the column. After lines 77 to 85 a
quantity is a number and an availability a boolean; NaN is written `NaN` in
the statement and is no value. The other three columns hold text. -/
def columnAccepts (key : String) (v : BodyValue) : Bool :=
  if key = "Quantity" then
    match v with
    | BodyValue.int _ => true
    | _ => false
  else if key = "Availability" then
    match v with
    | BodyValue.bool _ => true
    | _ => false
  else
    match v with
    | BodyValue.text _ => true
    | BodyValue.int _ => true
    | BodyValue.bool _ => true
    | _ => false

/-- A value converted to a text column. -/
def sqlText (v : BodyValue) (old : String) : String :=
  match v with
  | BodyValue.text s => s
  | BodyValue.int n => toString n
  | BodyValue.bool b => if b then "1" else "0"
  | _ => old

/-- Effect of `[key] = value` on a row. -/
def setColumn (e : Equipment) (key : String) (v : BodyValue) : Equipment :=
  if key = "Name" then { e with Name := sqlText v e.Name }
  else if key = "Category" then { e with Category := sqlText v e.Category }
  else if key = "Condition" then { e with Condition := sqlText v e.Condition }
  else if key = "Quantity" then
    match v with
    | BodyValue.int n => { e with Quantity := n }
    | _ => e
  else if key = "Availability" then
    match v with
    | BodyValue.bool b => { e with Availability := b }
    | _ => e
  else e

/-- Effect of the `SET` list on a row, left to right. -/
def applySet (e : Equipment) (d : JsonBody) : Equipment :=
  d.foldl (fun acc kv => setColumn acc kv.1 kv.2) e

/-- Responses of `updateEquipment`. -/
inductive UpdateEquipmentResponse where
  /-- 404 'Equipment not found', behind the test `results === 0` of line 115 -/
  | equipmentNotFound
  /-- 200 'Equipment updated successfully' with the row read back -/
  | updated (updatedEquipment : Option Equipment)
  /-- 500: the statement was refused by the database -/
  | serverError
  deriving DecidableEq

/-- What the database does with a statement one of whose `SET` keys is not the
name of a column. Line 100 splices every key of `updateData` between brackets
into the text of the statement, and how the database reads such a text (a key
in another case, the key `Id`, a key holding a bracket) is not fixed by the
sources. It is taken as a parameter: from the `SET` list, the id and the store
it gives the store after the statement, or `none` when the statement is
refused. -/
structure SqlEngine where
  execute : JsonBody → Int → DB → Option DB

/-- The handler `updateEquipment` for the path parameter `id` and the body.
When every key of `updateData` is the name of a column, the statement assigns
these columns in the rows with the key, provided each value is accepted.
The value `results` that line 115 compares with 0 is the list of rows returned
by the statement, never the number 0: when no row has the key the answer is
still 200, with the `updatedEquipment` read back being null. -/
def updateEquipment (engine : SqlEngine) (db : DB) (id : Int) (body : JsonBody) :
    DB × UpdateEquipmentResponse :=
  let updateData := equipmentUpdateData body
  if updateData.all (fun kv => isColumnName kv.1) then
    if updateData.all (fun kv => columnAccepts kv.1 kv.2) then
      let catalog := db.equipment.map (fun e => if e.Id = id then applySet e updateData else e)
      ({ db with equipment := catalog },
        UpdateEquipmentResponse.updated (Equipment.findByPk catalog (id : Rat)))
    else (db, UpdateEquipmentResponse.serverError)
  else
    match engine.execute updateData id db with
    | some after =>
      (after, UpdateEquipmentResponse.updated (Equipment.findByPk after.equipment (id : Rat)))
    | none => (db, UpdateEquipmentResponse.serverError)

/-- A call that changes the catalog. -/
inductive CatalogOp where
  | addEquipment (b : AddEquipmentBody)
  | updateEquipment (id : Int) (body : JsonBody)

/-- The store after one catalog call. -/
def CatalogOp.run (engine : SqlEngine) (db : DB) : CatalogOp → DB
  | CatalogOp.addEquipment b => (Lending.addEquipment db b).1
  | CatalogOp.updateEquipment id body => (Lending.updateEquipment engine db id body).1

/-- The store after a sequence of catalog calls, one at a time. -/
def runCatalog (engine : SqlEngine) (db : DB) (ops : List CatalogOp) : DB :=
  ops.foldl (CatalogOp.run engine) db

/-- Every field of the body is named as a column of `Equipment` or as one of
the four timestamp keys. -/
def JsonBody.columnsOnly (body : JsonBody) : Bool :=
  body.all (fun kv => isColumnName kv.1 ||
    decide (kv.1 = "CreatedAt" ∨ kv.1 = "UpdatedAt" ∨ kv.1 = "createdAt" ∨ kv.1 = "updatedAt"))

/-- The fields of the body of an `updateEquipment` call are named as columns or
timestamps; an `addEquipment` body has the fields of the model. -/
def CatalogOp.columnsOnly : CatalogOp → Bool
  | CatalogOp.addEquipment _ => true
  | CatalogOp.updateEquipment _ body => body.columnsOnly

/-- The quantity supplied by the call, if any, is an integer that is at least
1: an `addEquipment` body has no `Quantity` or one that is at least 1, and in
an `updateEquipment` body every `Quantity` goes through `parseInt` to an
integer that is at least 1. -/
def CatalogOp.quantityAtLeastOne : CatalogOp → Bool
  | CatalogOp.addEquipment b =>
    match b.Quantity with
    | some q => decide (1 ≤ q)
    | none => true
  | CatalogOp.updateEquipment _ body =>
    body.all (fun kv => decide (kv.1 ≠ "Quantity") ||
      (match parseIntValue kv.2 with
        | BodyValue.int n => decide (1 ≤ n)
        | _ => false))

/-- The column of a catalog row named by `key`, as a field value. -/
def Equipment.column (e : Equipment) (key : String) : Option BodyValue :=
  if key = "Name" then some (BodyValue.text e.Name)
  else if key = "Category" then some (BodyValue.text e.Category)
  else if key = "Condition" then some (BodyValue.text e.Condition)
  else if key = "Quantity" then some (BodyValue.int e.Quantity)
  else if key = "Availability" then some (BodyValue.bool e.Availability)
  else none

/-! ## Example data -/

/-- A projector owned once, on loan. -/
def projector : Equipment :=
  { Id := 1, Name := "Projector", Category := "AV", Condition := "Good",
    Quantity := 1, Availability := true }

/-- A microscope withdrawn from lending. -/
def microscope : Equipment :=
  { Id := 2, Name := "Microscope", Category := "Lab", Condition := "Fair",
    Quantity := 3, Availability := false }

/-- Request A of the end-to-end scenario: the projector for days 1 to 5. -/
def requestA : BorrowRequest :=
  { Id := 1, UserId := 7, EquipmentId := 1, Purpose := some "class", Status := Status.PENDING,
    RequestedDate := 1, DueDate := 5, ReturnedDate := none, ApprovedBy := none, Notes := none }

/-- A store with both items and request A. -/
def sampleDB : DB := { equipment := [projector, microscope], requests := [requestA] }

/-- A store with both items and an empty ledger. -/
def emptyLedgerDB : DB := { equipment := [projector, microscope], requests := [] }

/-- Body of request B of the end-to-end scenario: the projector for days 3 to 4. -/
def bodyB : CreateBody :=
  { userId := 8, equipmentId := JsValue.string "1", purpose := some "club",
    requestedDate := 3, dueDate := 4 }

/-- A body for the projector on days 6 to 9, free of request A. -/
def bodyFree : CreateBody :=
  { userId := 8, equipmentId := JsValue.number 1, purpose := none,
    requestedDate := 6, dueDate := 9 }

/-- A body for the microscope. -/
def bodyMicroscope : CreateBody :=
  { userId := 8, equipmentId := JsValue.string " 2 ", purpose := none,
    requestedDate := 3, dueDate := 4 }

/-- A body naming no catalog item. -/
def bodyUnknown : CreateBody :=
  { userId := 8, equipmentId := JsValue.string "99", purpose := none,
    requestedDate := 3, dueDate := 4 }

/-- An approved loan of the projector from January 5 to January 10 (day numbers). -/
def loanJan5to10 : BorrowRequest :=
  { Id := 1, UserId := 7, EquipmentId := 1, Purpose := none, Status := Status.APPROVED,
    RequestedDate := 5, DueDate := 10, ReturnedDate := none, ApprovedBy := some 2, Notes := none }

/-- An approved loan of the projector from January 5 to January 9. -/
def loanJan5to9 : BorrowRequest :=
  { Id := 1, UserId := 7, EquipmentId := 1, Purpose := none, Status := Status.APPROVED,
    RequestedDate := 5, DueDate := 9, ReturnedDate := none, ApprovedBy := some 2, Notes := none }

/-- The number one and a half. -/
def oneAndHalf : Rat := Rat.mk' 3 2 (by decide) (by decide)

/-- A body whose `equipmentId` has trailing letters. -/
def bodyTrailing : CreateBody :=
  { userId := 8, equipmentId := JsValue.string "1abc", purpose := none,
    requestedDate := 6, dueDate := 9 }

/-- A body whose `equipmentId` is the number 1.5. -/
def bodyFraction : CreateBody :=
  { userId := 8, equipmentId := JsValue.number oneAndHalf, purpose := none,
    requestedDate := 6, dueDate := 9 }

/-- A body whose `equipmentId` holds no digit. -/
def bodyLetters : CreateBody :=
  { userId := 8, equipmentId := JsValue.string "abc", purpose := none,
    requestedDate := 6, dueDate := 9 }

/-- A catalog with the projector only. -/
def projectorOnly : List Equipment := [projector]

/-- Body of request A of the end-to-end scenario: the projector for days 1 to 5. -/
def bodyA : CreateBody :=
  { userId := 7, equipmentId := JsValue.number 1, purpose := some "class",
    requestedDate := 1, dueDate := 5 }

/-- A is created and rejected, B is created in its place, then A is set back
to PENDING. -/
def reactivationTrace : List LedgerOp :=
  [LedgerOp.createRequest bodyA,
   LedgerOp.setStatus 1 Status.REJECTED none (some 2) 2,
   LedgerOp.createRequest bodyB,
   LedgerOp.setStatus 1 Status.PENDING none (some 2) 3]

/-- The projector for days 1 to 2. -/
def bodyEarly : CreateBody :=
  { userId := 7, equipmentId := JsValue.number 1, purpose := none,
    requestedDate := 1, dueDate := 2 }

/-- The projector for days 4 to 5. -/
def bodyLate : CreateBody :=
  { userId := 8, equipmentId := JsValue.number 1, purpose := none,
    requestedDate := 4, dueDate := 5 }

/-- A is created and approved, then B is asked for and refused. -/
def approvalTrace : List LedgerOp :=
  [LedgerOp.createRequest bodyA,
   LedgerOp.setStatus 1 Status.APPROVED none (some 2) 2,
   LedgerOp.createRequest bodyB]

/-- A returned loan of the projector, with notes. -/
def returnedLoan : BorrowRequest :=
  { Id := 3, UserId := 7, EquipmentId := 1, Purpose := some "class", Status := Status.RETURNED,
    RequestedDate := 1, DueDate := 5, ReturnedDate := some 6, ApprovedBy := some 2,
    Notes := some "late" }

/-- A store whose ledger holds the returned loan only. -/
def historyDB : DB := { equipment := [projector, microscope], requests := [returnedLoan] }

/-- A is created and returned, then set back to PENDING. -/
def reopenTrace : List SystemOp :=
  [SystemOp.ledger (LedgerOp.createRequest bodyA),
   SystemOp.ledger (LedgerOp.returnEquipment 1 6),
   SystemOp.ledger (LedgerOp.setStatus 1 Status.PENDING none none 7)]

/-- A store where the projector has an active request and a returned one, and
the microscope a returned one only. -/
def mixedDB : DB :=
  { equipment := [projector, microscope]
    requests := [requestA, returnedLoan, { returnedLoan with Id := 4, EquipmentId := 2 }] }

/-- A sequence with a refused deletion, a return and a new request. -/
def auditTrace : List SystemOp :=
  [SystemOp.deleteEquipment 1,
   SystemOp.ledger (LedgerOp.returnEquipment 1 6),
   SystemOp.deleteEquipment 2,
   SystemOp.ledger (LedgerOp.createRequest bodyB)]

/-- The student who made request A. -/
def student7 : User :=
  { Id := 7, Name := "Asha", Email := "asha@school.example", Password := "$2a$10$storedhash",
    Role := Role.student }

/-- A users table. -/
def sampleUsers : List User := [student7]

/-- A return call that carries a status. -/
def approveViaReturn : RequestCall :=
  RequestCall.putReturn 1 { status := some Status.APPROVED, notes := none, approvedBy := none }

/-- The body of the return call with nothing in it. -/
def emptyStatusBody : StatusBody := { status := none, notes := none, approvedBy := none }

/-- A body with the due date before the requested date. -/
def bodyInverted : CreateBody :=
  { userId := 8, equipmentId := JsValue.string "1", purpose := none,
    requestedDate := 9, dueDate := 3 }

/-- The projector for days 2 to 4, inside the days of request A. -/
def bodyInside : CreateBody :=
  { userId := 9, equipmentId := JsValue.number 1, purpose := none,
    requestedDate := 2, dueDate := 4 }

/-- The projector for days 6 to 7, inside the days of `bodyFree`. -/
def bodyFreeInside : CreateBody :=
  { userId := 9, equipmentId := JsValue.number 1, purpose := none,
    requestedDate := 6, dueDate := 7 }

/-- An item withdrawn from lending that owns no unit. -/
def brokenLens : Equipment :=
  { Id := 5, Name := "Lens", Category := "Lab", Condition := "Broken",
    Quantity := 0, Availability := false }

/-- A store whose catalog holds the broken lens. -/
def lensDB : DB := { equipment := [projector, brokenLens], requests := [requestA] }

/-- A body for the broken lens. -/
def bodyLens : CreateBody :=
  { userId := 8, equipmentId := JsValue.number 5, purpose := none,
    requestedDate := 3, dueDate := 4 }

/-- Fifteen requests for the projector, with keys 1 to 15. -/
def fifteenRequests : List BorrowRequest :=
  (List.range 15).map (fun (i : Nat) =>
    { Id := Int.ofNat i + 1, UserId := 7, EquipmentId := 1, Purpose := none,
      Status := Status.RETURNED, RequestedDate := 2 * i, DueDate := 2 * i + 1,
      ReturnedDate := some (2 * i + 1), ApprovedBy := some 2, Notes := none })

/-- A store with fifteen ledger rows. -/
def fifteenDB : DB := { equipment := [projector], requests := fifteenRequests }

/-- The second page of ten. -/
def pageTwoOfTen : RequestsQuery :=
  { status := none, userId := none, equipmentId := none, page := some 2, limit := some 10 }

/-- A store with no catalog row and no ledger row. -/
def emptyStore : DB := { equipment := [], requests := [] }

/-- A tripod entered with quantity 0. -/
def tripodZero : AddEquipmentBody :=
  { Name := "Tripod", Category := "AV", Condition := none, Quantity := some 0,
    Availability := none }

/-- A tripod entered with no quantity. -/
def tripodDefault : AddEquipmentBody :=
  { Name := "Tripod", Category := "AV", Condition := none, Quantity := none,
    Availability := none }

/-- An update body whose availability is `null`. -/
def availabilityNull : JsonBody := [("Availability", BodyValue.null)]

/-- The body sent by the equipment form, with timestamps added. -/
def formBody : JsonBody :=
  [("Name", BodyValue.text "Projector X"), ("Category", BodyValue.text ""),
   ("Condition", BodyValue.null), ("Quantity", BodyValue.text "4"),
   ("Availability", BodyValue.text "true"), ("UpdatedAt", BodyValue.text "2020-01-01")]

/-- A database that refuses every statement whose `SET` list names something
other than a column. -/
def refusingEngine : SqlEngine := { execute := fun _ _ _ => none }

/-! ## Auxiliary lemmas -/

theorem floor_intCast_eq (n : Int) : (n : Rat).floor = n := by
  simp [Rat.floor]

theorem overlapWhere_iff (idq : Rat) (rd dd : Date) (r : BorrowRequest) :
    overlapWhere idq rd dd r = true ↔
      ((r.EquipmentId : Rat) = idq ∧ (r.Status = Status.PENDING ∨ r.Status = Status.APPROVED) ∧
        r.RequestedDate ≤ dd ∧ rd ≤ r.DueDate) := by
  simp [overlapWhere, and_assoc]

theorem findByPk_id {catalog : List Equipment} {idq : Rat} {e : Equipment}
    (h : Equipment.findByPk catalog idq = some e) : (e.Id : Rat) = idq := by
  have := List.find?_some h
  simpa using this

theorem findByPk_mem {catalog : List Equipment} {idq : Rat} {e : Equipment}
    (h : Equipment.findByPk catalog idq = some e) : e ∈ catalog :=
  List.mem_of_find?_eq_some h

theorem count_overlapWhere (ledger : List BorrowRequest) (n : Int) (rd dd : Date) :
    BorrowRequest.count ledger (overlapWhere (n : Rat) rd dd) =
      specOverlapCount ledger n rd dd := by
  unfold BorrowRequest.count specOverlapCount
  congr 1
  apply List.filter_congr
  intro r _
  rw [Bool.eq_iff_iff, overlapWhere_iff]
  simp

/-- The two outcomes of `createRequest` once an available item is found. -/
theorem createRequest_found (db : DB) (b : CreateBody) (idq : Rat) (e : Equipment)
    (hid : equipmentIdInt b.equipmentId = some (JsNumber.num idq))
    (hfind : Equipment.findByPk db.equipment idq = some e)
    (hav : e.Availability = true) :
    createRequest db b =
      if e.Quantity ≤ (specOverlapCount db.requests e.Id b.requestedDate b.dueDate : Int) then
        (db, CreateResponse.allUnitsBooked)
      else
        ({ db with requests := db.requests ++ [newRow db.requests b e.Id] },
          CreateResponse.created (newRow db.requests b e.Id)) := by
  have hq := findByPk_id hfind
  subst hq
  simp only [createRequest, hid, hfind, hav, count_overlapWhere, floor_intCast_eq]
  rfl

theorem lt_nextId (ledger : List BorrowRequest) :
    ∀ r ∈ ledger, r.Id < BorrowRequest.nextId ledger := by
  induction ledger with
  | nil => intro r hr; cases hr
  | cons x xs ih =>
    intro r hr
    simp only [BorrowRequest.nextId, List.map_cons, List.foldr_cons] at ih ⊢
    rcases List.mem_cons.mp hr with h | h
    · subst h
      have := le_max_left r.Id (List.foldr max 0 (List.map (fun r => r.Id) xs))
      omega
    · have h1 := ih r h
      have := le_max_right x.Id (List.foldr max 0 (List.map (fun r => r.Id) xs))
      omega

/-- Every branch of `createRequest` leaves the store alone or appends `newRow`. -/
theorem createRequest_cases (db : DB) (b : CreateBody) :
    (createRequest db b).1 = db ∧
      (∀ row, (createRequest db b).2 ≠ CreateResponse.created row) ∨
    ∃ e, Equipment.findByPk db.equipment (e.Id : Rat) = some e ∧ e.Availability = true ∧
      equipmentIdInt b.equipmentId = some (JsNumber.num (e.Id : Rat)) ∧
      (specOverlapCount db.requests e.Id b.requestedDate b.dueDate : Int) < e.Quantity ∧
      createRequest db b =
        ({ db with requests := db.requests ++ [newRow db.requests b e.Id] },
          CreateResponse.created (newRow db.requests b e.Id)) := by
  cases hid : equipmentIdInt b.equipmentId with
  | none => left; simp [createRequest, hid]
  | some v =>
    cases v with
    | nan => left; simp [createRequest, hid]
    | num idq =>
      cases hfind : Equipment.findByPk db.equipment idq with
      | none => left; simp [createRequest, hid, hfind]
      | some e =>
        cases hav : e.Availability with
        | false => left; simp [createRequest, hid, hfind, hav]
        | true =>
          have hfound := createRequest_found db b idq e hid hfind hav
          by_cases hc : e.Quantity ≤
              (specOverlapCount db.requests e.Id b.requestedDate b.dueDate : Int)
          · left
            rw [hfound, if_pos hc]
            simp
          · right
            refine ⟨e, ?_, hav, ?_, lt_of_not_le hc, ?_⟩
            · rw [findByPk_id hfind]; exact hfind
            · rw [findByPk_id hfind]
            · rw [hfound, if_neg hc]

theorem dropWhile_jsTrim (cs : List Char) :
    (jsTrim cs).dropWhile isStrWhiteSpaceChar = jsTrim cs := by
  have hpre : jsTrim cs <+: cs.dropWhile isStrWhiteSpaceChar := by
    have := List.rdropWhile_prefix isStrWhiteSpaceChar (cs.dropWhile isStrWhiteSpaceChar)
    simpa [jsTrim, List.rdropWhile] using this
  cases ht : jsTrim cs with
  | nil => rfl
  | cons a t =>
    rw [ht] at hpre
    obtain ⟨u, hu⟩ := hpre
    have hlen : 0 < (cs.dropWhile isStrWhiteSpaceChar).length := by
      rw [← hu]; simp
    have hnot := List.dropWhile_get_zero_not isStrWhiteSpaceChar cs hlen
    have ha : (cs.dropWhile isStrWhiteSpaceChar).get ⟨0, hlen⟩ = a := by
      simp [← hu]
    rw [ha] at hnot
    simp [List.dropWhile_cons, hnot]

theorem parseInt_nan_iff (cs : List Char) :
    parseInt (jsTrim cs) = JsNumber.nan ↔ startsWithSignedDigit (jsTrim cs) = false := by
  unfold parseInt startsWithSignedDigit
  rw [dropWhile_jsTrim]
  generalize jsTrim cs = t
  simp only []
  split_ifs with h1 h2 h2
  · rcases ht : t.tail with _ | ⟨d, ds⟩
    · simp [ht] at h2 ⊢
    · by_cases hd : isDecDigit d = true
      · simp [ht, List.takeWhile_cons, hd] at h2
      · simp [ht, hd]
  · rcases ht : t.tail with _ | ⟨d, ds⟩
    · simp [ht] at h2
    · by_cases hd : isDecDigit d = true
      · simp [ht, hd]
      · simp [ht, List.takeWhile_cons, hd] at h2
  · rcases ht : t with _ | ⟨d, ds⟩
    · simp
    · by_cases hd : isDecDigit d = true
      · simp [ht, List.takeWhile_cons, hd] at h2
      · simp [hd]
  · rcases ht : t with _ | ⟨d, ds⟩
    · simp [ht] at h2
    · by_cases hd : isDecDigit d = true
      · simp [hd]
      · simp [ht, List.takeWhile_cons, hd] at h2

theorem isSignedDigits_startsWith (t : List Char) (h : isSignedDigits t = true) :
    startsWithSignedDigit t = true := by
  unfold isSignedDigits at h
  unfold startsWithSignedDigit
  simp only [] at h ⊢
  generalize (if t.head? = some '-' ∨ t.head? = some '+' then t.tail else t) = ds at h ⊢
  cases ds with
  | nil => simp at h
  | cons d ds => simp at h ⊢; exact h.1

theorem createRequest_of_none (db : DB) (b : CreateBody)
    (h : equipmentIdInt b.equipmentId = none) :
    createRequest db b = (db, CreateResponse.invalidEquipmentId) := by
  simp only [createRequest, h]

theorem createRequest_of_nan (db : DB) (b : CreateBody)
    (h : equipmentIdInt b.equipmentId = some JsNumber.nan) :
    createRequest db b = (db, CreateResponse.invalidEquipmentIdFormat) := by
  simp only [createRequest, h]

theorem createRequest_of_num (db : DB) (b : CreateBody) (idq : Rat)
    (hid : equipmentIdInt b.equipmentId = some (JsNumber.num idq)) :
    (createRequest db b).2.outcome ≠ CreateOutcome.InvalidInput := by
  rcases createRequest_cases db b with ⟨_, _⟩ | ⟨e, _, _, _, _, heq⟩
  · unfold createRequest
    rw [hid]
    simp only []
    split
    · simp [CreateResponse.outcome]
    · split <;> [simp [CreateResponse.outcome]; split] <;> simp [CreateResponse.outcome]
  · rw [heq]; simp [CreateResponse.outcome]

theorem passesIdCheck_iff (v : JsValue) :
    passesIdCheck v = true ↔ ∃ idq : Rat, equipmentIdInt v = some (JsNumber.num idq) := by
  cases v with
  | number q => exact ⟨fun _ => ⟨q, rfl⟩, fun _ => rfl⟩
  | string s =>
    show startsWithSignedDigit (jsTrim s.toList) = true ↔
      ∃ idq : Rat, some (parseInt (jsTrim s.toList)) = some (JsNumber.num idq)
    have key := parseInt_nan_iff s.toList
    cases hp : parseInt (jsTrim s.toList) with
    | nan =>
      rw [key.mp hp]
      simp
    | num idq =>
      have : startsWithSignedDigit (jsTrim s.toList) ≠ false := by
        intro hc
        rw [key.mpr hc] at hp
        cases hp
      have ht : startsWithSignedDigit (jsTrim s.toList) = true := by
        cases hb : startsWithSignedDigit (jsTrim s.toList) with
        | true => rfl
        | false => exact absurd hb this
      rw [ht]
      exact ⟨fun _ => ⟨idq, rfl⟩, fun _ => rfl⟩
  | undefined => simp [passesIdCheck, equipmentIdInt]
  | null => simp [passesIdCheck, equipmentIdInt]
  | bool _ => simp [passesIdCheck, equipmentIdInt]
  | object => simp [passesIdCheck, equipmentIdInt]

theorem equipmentIdInt_of_not_passes (v : JsValue) (h : passesIdCheck v = false) :
    equipmentIdInt v = none ∨ equipmentIdInt v = some JsNumber.nan := by
  cases hq : equipmentIdInt v with
  | none => left; rfl
  | some n =>
    cases n with
    | nan => right; rfl
    | num idq =>
      have := (passesIdCheck_iff v).mpr ⟨idq, hq⟩
      rw [h] at this
      cases this


theorem isActive_iff (r : BorrowRequest) :
    r.isActive = true ↔ (r.Status = Status.PENDING ∨ r.Status = Status.APPROVED) := by
  simp [BorrowRequest.isActive]

theorem findByPk_request_isSome {ledger : List BorrowRequest} {id : Int}
    (h : ∃ r ∈ ledger, r.Id = id) : ∃ r, BorrowRequest.findByPk ledger id = some r := by
  obtain ⟨r, hr, hid⟩ := h
  have : (BorrowRequest.findByPk ledger id).isSome = true := by
    unfold BorrowRequest.findByPk
    rw [List.find?_isSome]
    exact ⟨r, hr, by simpa using hid⟩
  exact Option.isSome_iff_exists.mp this

theorem applyUpdate_of_isEmpty (u : UpdateData) (h : u.isEmpty = true) (r : BorrowRequest) :
    applyUpdate u r = r := by
  simp only [UpdateData.isEmpty, Bool.and_eq_true, Option.isNone_iff_eq_none] at h
  obtain ⟨⟨⟨h1, h2⟩, h3⟩, h4⟩ := h
  simp only [applyUpdate, h1, h2, h3, h4, Option.getD_none]

/-- The store after `updateRequestStatus` on an existing request: the rows with
the key are rewritten by `applyUpdate`, nothing else changes. -/
theorem updateRequestStatus_store (db : DB) (route : RequestRoute) (id : Int) (b : StatusBody)
    (now : Date) (h : ∃ r ∈ db.requests, r.Id = id) :
    (updateRequestStatus db route id b now).1 =
      { equipment := db.equipment
        requests := db.requests.map
          (fun r => if r.Id = id then applyUpdate (mkUpdateData route b now) r else r) } := by
  obtain ⟨r, hr⟩ := findByPk_request_isSome h
  by_cases he : (mkUpdateData route b now).isEmpty = true
  · have hmap : db.requests.map
        (fun r => if r.Id = id then applyUpdate (mkUpdateData route b now) r else r) =
        db.requests := by
      conv_rhs => rw [← List.map_id db.requests]
      apply List.map_congr_left
      intro x _
      split
      · exact applyUpdate_of_isEmpty _ he x
      · rfl
    rw [hmap]
    simp only [updateRequestStatus, hr, BorrowRequest.update, he, if_true]
  · have he' : (mkUpdateData route b now).isEmpty = false := by
      simpa using he
    simp only [updateRequestStatus, hr, BorrowRequest.update, he', Bool.false_eq_true, if_false]
    split <;> rfl

theorem specOverlapCount_eq_zero (ledger : List BorrowRequest) (n : Int) (rd dd : Date)
    (h : ∀ r ∈ ledger, r.EquipmentId = n → r.isActive = false) :
    specOverlapCount ledger n rd dd = 0 := by
  unfold specOverlapCount
  rw [List.length_eq_zero, List.filter_eq_nil_iff]
  intro r hr hc
  simp only [decide_eq_true_eq] at hc
  have := h r hr hc.1
  rw [← Bool.not_eq_true, isActive_iff] at this
  exact this hc.2.1

theorem specOverlapCount_pos (ledger : List BorrowRequest) (n : Int) (rd dd : Date)
    (A : BorrowRequest) (hA : A ∈ ledger) (he : A.EquipmentId = n) (hact : A.isActive = true)
    (h1 : A.RequestedDate ≤ dd) (h2 : rd ≤ A.DueDate) :
    0 < specOverlapCount ledger n rd dd := by
  unfold specOverlapCount
  rw [List.length_pos]
  intro hnil
  have hmem : A ∈ ledger.filter (fun existing =>
      decide (existing.EquipmentId = n ∧
        (existing.Status = Status.PENDING ∨ existing.Status = Status.APPROVED) ∧
        existing.RequestedDate ≤ dd ∧ existing.DueDate ≥ rd)) := by
    rw [List.mem_filter]
    exact ⟨hA, by simpa using ⟨he, (isActive_iff A).mp hact, h1, h2⟩⟩
  rw [hnil] at hmem
  cases hmem

theorem specOverlapCount_filter (ledger : List BorrowRequest) (b : CreateBody) (n : Int)
    (hid : equipmentIdInt b.equipmentId = some (JsNumber.num (n : Rat))) (rd dd : Date) :
    specOverlapCount (ledger.filter (countsTowards b)) n rd dd =
      specOverlapCount ledger n rd dd := by
  unfold specOverlapCount
  rw [List.filter_filter]
  congr 1
  apply List.filter_congr
  intro r _
  rw [Bool.eq_iff_iff]
  simp only [Bool.and_eq_true, decide_eq_true_eq, countsTowards, isActive_iff, hid]
  constructor
  · exact fun h => h.1
  · intro h
    refine ⟨h, ?_, h.2.1⟩
    rw [h.1]

theorem createRequest_outcome_congr (db1 db2 : DB) (b : CreateBody)
    (hcat : db1.equipment = db2.equipment)
    (hrows : db1.requests.filter (countsTowards b) = db2.requests.filter (countsTowards b)) :
    (createRequest db1 b).2.outcome = (createRequest db2 b).2.outcome := by
  cases hid : equipmentIdInt b.equipmentId with
  | none => rw [createRequest_of_none db1 b hid, createRequest_of_none db2 b hid]
  | some v =>
    cases v with
    | nan => rw [createRequest_of_nan db1 b hid, createRequest_of_nan db2 b hid]
    | num idq =>
      cases hfind : Equipment.findByPk db1.equipment idq with
      | none =>
        have h2 := hfind
        rw [hcat] at h2
        simp [createRequest, hid, hfind, h2]
      | some e =>
        have h2 := hfind
        rw [hcat] at h2
        cases hav : e.Availability with
        | false => simp [createRequest, hid, hfind, h2, hav]
        | true =>
          have hq := findByPk_id hfind
          subst hq
          rw [createRequest_found db1 b _ e hid hfind hav,
            createRequest_found db2 b _ e hid h2 hav,
            ← specOverlapCount_filter db1.requests b e.Id hid,
            ← specOverlapCount_filter db2.requests b e.Id hid, hrows]
          split <;> rfl

theorem sublist_singleton_cases {α : Type} {c : List α} {x : α} (h : c.Sublist [x]) :
    c = [] ∨ c = [x] := by
  rcases List.sublist_cons_iff.mp h with h1 | ⟨r, rfl, h2⟩
  · left; exact List.eq_nil_of_sublist_nil h1
  · right; rw [List.eq_nil_of_sublist_nil h2]

theorem length_le_specOverlapCount (ledger a : List BorrowRequest) (n : Int) (rd dd : Date)
    (hsub : a.Sublist ledger)
    (hall : ∀ r ∈ a, r.EquipmentId = n ∧ r.isActive = true ∧
      r.RequestedDate ≤ dd ∧ rd ≤ r.DueDate) :
    a.length ≤ specOverlapCount ledger n rd dd := by
  unfold specOverlapCount
  have hfil : a.filter (fun existing =>
      decide (existing.EquipmentId = n ∧
        (existing.Status = Status.PENDING ∨ existing.Status = Status.APPROVED) ∧
        existing.RequestedDate ≤ dd ∧ existing.DueDate ≥ rd)) = a := by
    rw [List.filter_eq_self]
    intro r hr
    obtain ⟨h1, h2, h3, h4⟩ := hall r hr
    simpa using ⟨h1, (isActive_iff r).mp h2, h3, h4⟩
  have := (List.Sublist.filter (fun existing =>
      decide (existing.EquipmentId = n ∧
        (existing.Status = Status.PENDING ∨ existing.Status = Status.APPROVED) ∧
        existing.RequestedDate ≤ dd ∧ existing.DueDate ≥ rd)) hsub).length_le
  rw [hfil] at this
  exact this

theorem createRequest_equipment (db : DB) (b : CreateBody) :
    (createRequest db b).1.equipment = db.equipment := by
  rcases createRequest_cases db b with ⟨h, _⟩ | ⟨e, _, _, _, _, heq⟩
  · rw [h]
  · rw [heq]

/-- The handler `createRequest` keeps the admission bound of every item. -/
theorem admissionBound_createRequest (db : DB) (b : CreateBody) (e : Equipment)
    (hkey : Equipment.findByPk db.equipment (e.Id : Rat) = some e)
    (hinv : AdmissionBound db e) : AdmissionBound (createRequest db b).1 e := by
  rcases createRequest_cases db b with ⟨h, _⟩ | ⟨e', hkey', _, _, hlt, heq⟩
  · rw [h]; exact hinv
  · rw [heq]
    intro rows hsub hrows hpair
    obtain ⟨a, c, rfl, ha, hc⟩ := List.sublist_append_iff.mp hsub
    rcases sublist_singleton_cases hc with rfl | rfl
    · rw [List.append_nil] at hrows hpair ⊢
      exact hinv a ha hrows hpair
    · have hnew := (hrows (newRow db.requests b e'.Id) (by simp)).1
      have hee : e' = e := by
        have h1 : e'.Id = e.Id := hnew
        rw [h1, hkey] at hkey'
        exact (Option.some.inj hkey').symm
      subst hee
      have hov : ∀ r ∈ a, r.overlaps (newRow db.requests b e'.Id) = true := by
        intro r hr
        exact (List.pairwise_append.mp hpair).2.2 r hr _ (by simp)
      have hle := length_le_specOverlapCount db.requests a e'.Id b.requestedDate b.dueDate ha
        (by
          intro r hr
          have h1 := hrows r (by simp [hr])
          have h2 := hov r hr
          simp only [BorrowRequest.overlaps, newRow, Bool.and_eq_true, decide_eq_true_eq] at h2
          exact ⟨h1.1, h1.2, h2.1, h2.2⟩)
      simp only [List.length_append, List.length_singleton]
      push_cast
      omega

/-- An update that re-activates no row keeps the admission bound. -/
theorem admissionBound_map (ledger : List BorrowRequest) (catalog : List Equipment)
    (e : Equipment) (f : BorrowRequest → BorrowRequest)
    (hEq : ∀ r, (f r).EquipmentId = r.EquipmentId)
    (hRd : ∀ r, (f r).RequestedDate = r.RequestedDate)
    (hDd : ∀ r, (f r).DueDate = r.DueDate)
    (hAct : ∀ r ∈ ledger, (f r).isActive = true → r.isActive = true)
    (hinv : AdmissionBound { equipment := catalog, requests := ledger } e) :
    AdmissionBound { equipment := catalog, requests := ledger.map f } e := by
  intro rows hsub hrows hpair
  obtain ⟨rows0, h0, rfl⟩ := List.sublist_map_iff.mp hsub
  have := hinv rows0 h0
    (by
      intro r hr
      have h1 := hrows (f r) (List.mem_map_of_mem f hr)
      exact ⟨(hEq r).symm.trans h1.1, hAct r (h0.subset hr) h1.2⟩)
    (by
      rw [List.pairwise_map] at hpair
      refine hpair.imp ?_
      intro r₁ r₂ h
      simpa [BorrowRequest.overlaps, hRd, hDd] using h)
  simpa using this

theorem updateRequestStatus_of_missing (db : DB) (route : RequestRoute) (id : Int)
    (b : StatusBody) (now : Date) (h : ¬ ∃ r ∈ db.requests, r.Id = id) :
    updateRequestStatus db route id b now = (db, UpdateResponse.requestNotFound) := by
  have hfind : BorrowRequest.findByPk db.requests id = none := by
    unfold BorrowRequest.findByPk
    rw [List.find?_eq_none]
    intro r hr hid
    exact h ⟨r, hr, by simpa using hid⟩
  simp only [updateRequestStatus, hfind]

theorem updateRequestStatus_equipment (db : DB) (route : RequestRoute) (id : Int)
    (b : StatusBody) (now : Date) :
    (updateRequestStatus db route id b now).1.equipment = db.equipment := by
  by_cases h : ∃ r ∈ db.requests, r.Id = id
  · rw [updateRequestStatus_store db route id b now h]
  · rw [updateRequestStatus_of_missing db route id b now h]

/-- The handler `updateRequestStatus` keeps the admission bound when it
writes a status that is not active or targets rows that are active. -/
theorem admissionBound_updateRequestStatus (db : DB) (route : RequestRoute) (id : Int)
    (b : StatusBody) (now : Date) (e : Equipment)
    (hcond : (∃ s, finalStatus route b.status = some s ∧
        (s = Status.REJECTED ∨ s = Status.RETURNED)) ∨
      ∀ r ∈ db.requests, r.Id = id → r.isActive = true)
    (hinv : AdmissionBound db e) :
    AdmissionBound (updateRequestStatus db route id b now).1 e := by
  by_cases h : ∃ r ∈ db.requests, r.Id = id
  · rw [updateRequestStatus_store db route id b now h]
    apply admissionBound_map db.requests db.equipment e
    · intro r; split <;> rfl
    · intro r; split <;> rfl
    · intro r; split <;> rfl
    · intro r hr hact
      by_cases hid : r.Id = id
      · rcases hcond with ⟨s, hs, hs'⟩ | hall
        · rw [if_pos hid] at hact
          simp only [applyUpdate, mkUpdateData, hs, Option.getD_some,
            BorrowRequest.isActive] at hact
          rcases hs' with rfl | rfl <;> simp at hact
        · exact hall r hr hid
      · rw [if_neg hid] at hact
        exact hact
    · exact hinv
  · rw [updateRequestStatus_of_missing db route id b now h]
    exact hinv

theorem run_equipment (db : DB) (op : LedgerOp) : (op.run db).equipment = db.equipment := by
  cases op with
  | createRequest b => exact createRequest_equipment db b
  | setStatus requestId newStatus notes approverId now =>
    exact updateRequestStatus_equipment db _ _ _ _
  | returnEquipment requestId now => exact updateRequestStatus_equipment db _ _ _ _

theorem admissionBound_run (db : DB) (op : LedgerOp) (e : Equipment)
    (hkey : Equipment.findByPk db.equipment (e.Id : Rat) = some e)
    (hop : op.noReactivation db = true)
    (hinv : AdmissionBound db e) : AdmissionBound (op.run db) e := by
  cases op with
  | createRequest b => exact admissionBound_createRequest db b e hkey hinv
  | setStatus requestId newStatus notes approverId now =>
    apply admissionBound_updateRequestStatus db _ _ _ _ e _ hinv
    simp only [LedgerOp.noReactivation, Bool.or_eq_true, beq_iff_eq, List.all_eq_true,
      decide_eq_true_eq] at hop
    rcases hop with (h | h) | h
    · left; exact ⟨newStatus, rfl, Or.inl h⟩
    · left; exact ⟨newStatus, rfl, Or.inr h⟩
    · right
      intro r hr hid
      rcases h r hr with h' | h'
      · exact absurd hid h'
      · exact h'
  | returnEquipment requestId now =>
    apply admissionBound_updateRequestStatus db _ _ _ _ e _ hinv
    left
    exact ⟨Status.RETURNED, rfl, Or.inr rfl⟩

theorem admissionBound_runOps (ops : List LedgerOp) : ∀ (db : DB) (e : Equipment),
    Equipment.findByPk db.equipment (e.Id : Rat) = some e →
    noReactivations db ops = true →
    AdmissionBound db e → AdmissionBound (runOps db ops) e := by
  induction ops with
  | nil => intro db e _ _ h; exact h
  | cons op ops ih =>
    intro db e hkey hops hinv
    simp only [noReactivations, Bool.and_eq_true] at hops
    show AdmissionBound (runOps (op.run db) ops) e
    apply ih (op.run db) e
    · rw [run_equipment]; exact hkey
    · exact hops.2
    · exact admissionBound_run db op e hkey hops.1 hinv

theorem admissionBound_emptyLedger (catalog : List Equipment) (e : Equipment)
    (hq : 0 ≤ e.Quantity) : AdmissionBound (emptyLedger catalog) e := by
  intro rows hsub _ _
  rw [List.eq_nil_of_sublist_nil hsub]
  exact hq

theorem noReactivations_creates (bodies : List CreateBody) : ∀ db : DB,
    noReactivations db (bodies.map LedgerOp.createRequest) = true := by
  induction bodies with
  | nil => intro db; rfl
  | cons b bs ih =>
    intro db
    simp only [List.map_cons, noReactivations, LedgerOp.noReactivation, Bool.true_and]
    exact ih _

/-! ## Admission (`createRequest`) -/

/-- C1: for a valid `equipmentId` naming an existing, available item,
`createRequest` answers "all units booked" exactly when the number of PENDING
or APPROVED rows of that item overlapping the requested dates reaches the
item's quantity; otherwise it succeeds and inserts one PENDING row. -/
theorem createRequest_capacity (db : DB) (b : CreateBody) (idq : Rat) (e : Equipment)
    (hid : equipmentIdInt b.equipmentId = some (JsNumber.num idq))
    (hfind : Equipment.findByPk db.equipment idq = some e)
    (hav : e.Availability = true) :
    ((createRequest db b).2 = CreateResponse.allUnitsBooked ↔
      e.Quantity ≤ (specOverlapCount db.requests e.Id b.requestedDate b.dueDate : Int)) ∧
    (¬ e.Quantity ≤ (specOverlapCount db.requests e.Id b.requestedDate b.dueDate : Int) →
      ∃ row : BorrowRequest, row.Status = Status.PENDING ∧ row.EquipmentId = e.Id ∧
        createRequest db b =
          ({ db with requests := db.requests ++ [row] }, CreateResponse.created row)) := by
  rw [createRequest_found db b idq e hid hfind hav]
  constructor
  · split <;> simp [*]
  · intro hc
    exact ⟨newRow db.requests b e.Id, rfl, rfl, by rw [if_neg hc]⟩

/-- Witness of C1: request B against the booked projector. -/
theorem createRequest_capacity_witness :
    equipmentIdInt bodyB.equipmentId = some (JsNumber.num 1) ∧
    Equipment.findByPk sampleDB.equipment 1 = some projector ∧
    projector.Availability = true ∧
    ((createRequest sampleDB bodyB).2 = CreateResponse.allUnitsBooked ↔
      projector.Quantity ≤
        (specOverlapCount sampleDB.requests projector.Id bodyB.requestedDate bodyB.dueDate : Int)) ∧
    (¬ projector.Quantity ≤
        (specOverlapCount sampleDB.requests projector.Id bodyB.requestedDate bodyB.dueDate : Int) →
      ∃ row : BorrowRequest, row.Status = Status.PENDING ∧ row.EquipmentId = projector.Id ∧
        createRequest sampleDB bodyB =
          ({ sampleDB with requests := sampleDB.requests ++ [row] },
            CreateResponse.created row)) :=
  ⟨by decide, by decide, by decide,
    createRequest_capacity sampleDB bodyB 1 projector (by decide) (by decide) (by decide)⟩

/-- C2: the overlap test of `createRequest` is boundary-inclusive. A PENDING or
APPROVED row for [a, b] with a ≤ b is counted for a new request [b, c] of the
same equipment, b ≤ c; a row for [a, b] is not counted for a new request
[c, d] with b < c ≤ d. -/
theorem overlap_boundary_inclusive (before after : List BorrowRequest) (r : BorrowRequest) :
    (∀ c : Date, r.RequestedDate ≤ r.DueDate → r.DueDate ≤ c →
        (r.Status = Status.PENDING ∨ r.Status = Status.APPROVED) →
        BorrowRequest.count (before ++ r :: after)
            (overlapWhere (r.EquipmentId : Rat) r.DueDate c) =
          BorrowRequest.count (before ++ after)
            (overlapWhere (r.EquipmentId : Rat) r.DueDate c) + 1) ∧
    (∀ (idq : Rat) (c d : Date), r.RequestedDate ≤ r.DueDate → r.DueDate < c → c ≤ d →
        BorrowRequest.count (before ++ r :: after) (overlapWhere idq c d) =
          BorrowRequest.count (before ++ after) (overlapWhere idq c d)) := by
  constructor
  · intro c _ hbc hst
    have h : overlapWhere (r.EquipmentId : Rat) r.DueDate c r = true := by
      rw [overlapWhere_iff]
      exact ⟨rfl, hst, le_trans ‹_› hbc, le_refl _⟩
    simp [BorrowRequest.count, List.filter_cons, h]
    omega
  · intro idq c d _ hbc _
    have h : overlapWhere idq c d r = false := by
      rw [Bool.eq_false_iff]
      intro ht
      rw [overlapWhere_iff] at ht
      obtain ⟨_, _, _, h2⟩ := ht
      exact absurd (lt_of_lt_of_le hbc h2) (lt_irrefl _)
    simp [BorrowRequest.count, List.filter_cons, h]


/-- Witness of C2: January 5 to 10 against January 10 to 15 is counted,
January 5 to 9 against January 10 to 15 is not. -/
theorem overlap_boundary_inclusive_witness :
    BorrowRequest.count ([] ++ loanJan5to10 :: []) (overlapWhere 1 10 15) =
        BorrowRequest.count ([] ++ []) (overlapWhere 1 10 15) + 1 ∧
    BorrowRequest.count ([] ++ loanJan5to9 :: []) (overlapWhere 1 10 15) =
        BorrowRequest.count ([] ++ []) (overlapWhere 1 10 15) :=
  ⟨(overlap_boundary_inclusive [] [] loanJan5to10).1 15 (by decide) (by decide) (by decide),
   (overlap_boundary_inclusive [] [] loanJan5to9).2 1 10 15 (by decide) (by decide) (by decide)⟩

/-- C5: a `createRequest` naming an existing item whose availability flag is
false answers "not available" and leaves the store unchanged, whatever the
item's quantity and the ledger. -/
theorem createRequest_unavailable (db : DB) (b : CreateBody) (idq : Rat) (e : Equipment)
    (hid : equipmentIdInt b.equipmentId = some (JsNumber.num idq))
    (hfind : Equipment.findByPk db.equipment idq = some e)
    (hav : e.Availability = false) :
    createRequest db b = (db, CreateResponse.equipmentNotAvailable) := by
  simp [createRequest, hid, hfind, hav]

/-- Witness of C5: the microscope is withdrawn; the ledger is empty. -/
theorem createRequest_unavailable_witness :
    equipmentIdInt bodyMicroscope.equipmentId = some (JsNumber.num 2) ∧
    Equipment.findByPk emptyLedgerDB.equipment 2 = some microscope ∧
    microscope.Availability = false ∧
    createRequest emptyLedgerDB bodyMicroscope =
      (emptyLedgerDB, CreateResponse.equipmentNotAvailable) :=
  ⟨by decide, by decide, by decide,
    createRequest_unavailable emptyLedgerDB bodyMicroscope 2 microscope
      (by decide) (by decide) (by decide)⟩

/-- C7: a `createRequest` whose `equipmentId` converts to an integer that is
the key of no catalog item answers "not found" and leaves the store
unchanged. -/
theorem createRequest_notFound (db : DB) (b : CreateBody) (n : Int)
    (hid : equipmentIdInt b.equipmentId = some (JsNumber.num (n : Rat)))
    (hno : ∀ e ∈ db.equipment, e.Id ≠ n) :
    createRequest db b = (db, CreateResponse.equipmentNotFound) := by
  have hfind : Equipment.findByPk db.equipment (n : Rat) = none := by
    unfold Equipment.findByPk
    rw [List.find?_eq_none]
    intro e he
    simpa using hno e he
  simp [createRequest, hid, hfind]

/-- Witness of C7: no item has key 99. -/
theorem createRequest_notFound_witness :
    equipmentIdInt bodyUnknown.equipmentId = some (JsNumber.num ((99 : Int) : Rat)) ∧
    (∀ e ∈ sampleDB.equipment, e.Id ≠ 99) ∧
    createRequest sampleDB bodyUnknown = (sampleDB, CreateResponse.equipmentNotFound) :=
  ⟨by decide, by decide,
    createRequest_notFound sampleDB bodyUnknown 99 (by decide) (by decide)⟩

/-- C8: a successful `createRequest` appends exactly one row to the ledger,
with a fresh key, the supplied requester, equipment, purpose and dates, status
PENDING and empty returned-date, approver and notes, and leaves the catalog
and the earlier rows as they were; a failed one leaves the store unchanged. -/
theorem createRequest_frame (db : DB) (b : CreateBody) :
    (∀ row : BorrowRequest, (createRequest db b).2 = CreateResponse.created row →
      (createRequest db b).1.requests = db.requests ++ [row] ∧
      (createRequest db b).1.equipment = db.equipment ∧
      (∀ r ∈ db.requests, r.Id ≠ row.Id) ∧
      row.UserId = b.userId ∧
      equipmentIdInt b.equipmentId = some (JsNumber.num (row.EquipmentId : Rat)) ∧
      row.Purpose = b.purpose ∧
      row.RequestedDate = b.requestedDate ∧
      row.DueDate = b.dueDate ∧
      row.Status = Status.PENDING ∧
      row.ReturnedDate = none ∧ row.ApprovedBy = none ∧ row.Notes = none) ∧
    ((∀ row : BorrowRequest, (createRequest db b).2 ≠ CreateResponse.created row) →
      (createRequest db b).1 = db) := by
  rcases createRequest_cases db b with ⟨hdb, hne⟩ | ⟨e, _, _, hid, _, heq⟩
  · exact ⟨fun row h => absurd h (hne row), fun _ => hdb⟩
  · constructor
    · intro row h
      rw [heq] at h ⊢
      simp only [CreateResponse.created.injEq] at h
      subst h
      refine ⟨rfl, rfl, ?_, rfl, hid, rfl, rfl, rfl, rfl, rfl, rfl, rfl⟩
      intro r hr
      exact ne_of_lt (lt_nextId db.requests r hr)
    · intro h
      rw [heq] at h
      exact absurd rfl (h _)

/-- Witness of C8: the projector is free on days 6 to 9. -/
theorem createRequest_frame_witness :
    (createRequest sampleDB bodyFree).2 =
        CreateResponse.created (newRow sampleDB.requests bodyFree 1) ∧
    (createRequest sampleDB bodyFree).1.requests =
        sampleDB.requests ++ [newRow sampleDB.requests bodyFree 1] ∧
    (createRequest sampleDB bodyFree).1.equipment = sampleDB.equipment ∧
    (newRow sampleDB.requests bodyFree 1).Status = Status.PENDING :=
  have h := (createRequest_frame sampleDB bodyFree).1
    (newRow sampleDB.requests bodyFree 1) (by decide)
  ⟨by decide, h.1, h.2.1, h.2.2.2.2.2.2.2.2.1⟩

/-- C9: REJECTED and RETURNED rows never count toward capacity. For an
available item of quantity 1 whose only PENDING or APPROVED row A overlaps the
requested dates, `createRequest` answers "all units booked", and after
`setStatus(A, REJECTED)` the same request is created with status PENDING.
In general the outcome of `createRequest` depends on the ledger only through
its PENDING or APPROVED rows of the equipment named: two ledgers that agree on
those rows give the same outcome. -/
theorem inactive_rows_do_not_count :
    (∀ (db : DB) (b : CreateBody) (idq : Rat) (e : Equipment) (A : BorrowRequest)
        (notes : Option String) (approverId : Option Int) (now : Date),
      equipmentIdInt b.equipmentId = some (JsNumber.num idq) →
      Equipment.findByPk db.equipment idq = some e →
      e.Availability = true → e.Quantity = 1 →
      A ∈ db.requests → A.EquipmentId = e.Id → A.isActive = true →
      A.RequestedDate ≤ b.dueDate → b.requestedDate ≤ A.DueDate →
      (∀ r ∈ db.requests, r.EquipmentId = e.Id → r.isActive = true → r = A) →
      (createRequest db b).2 = CreateResponse.allUnitsBooked ∧
      ∃ row : BorrowRequest, row.Status = Status.PENDING ∧
        (createRequest (setStatus db A.Id Status.REJECTED notes approverId now).1 b).2 =
          CreateResponse.created row) ∧
    (∀ (db1 db2 : DB) (b : CreateBody),
      db1.equipment = db2.equipment →
      db1.requests.filter (countsTowards b) = db2.requests.filter (countsTowards b) →
      (createRequest db1 b).2.outcome = (createRequest db2 b).2.outcome) := by
  refine ⟨?_, createRequest_outcome_congr⟩
  intro db b idq e A notes approverId now hid hfind hav hq hA hAe hAact h1 h2 honly
  constructor
  · rw [createRequest_found db b idq e hid hfind hav, if_pos]
    rw [hq]
    have := specOverlapCount_pos db.requests e.Id b.requestedDate b.dueDate A hA hAe hAact h1 h2
    omega
  · have hstore := updateRequestStatus_store db RequestRoute.status A.Id
      { status := some Status.REJECTED, notes := notes, approvedBy := approverId } now
      ⟨A, hA, rfl⟩
    unfold setStatus
    rw [hstore]
    have hzero : specOverlapCount
        (db.requests.map (fun r => if r.Id = A.Id then
          applyUpdate (mkUpdateData RequestRoute.status
            { status := some Status.REJECTED, notes := notes, approvedBy := approverId } now) r
          else r)) e.Id b.requestedDate b.dueDate = 0 := by
      apply specOverlapCount_eq_zero
      intro r' hr' he'
      rw [List.mem_map] at hr'
      obtain ⟨r, hr, rfl⟩ := hr'
      by_cases hrid : r.Id = A.Id
      · simp [hrid, applyUpdate, mkUpdateData, finalStatus, BorrowRequest.isActive]
      · simp only [hrid, if_false] at he' ⊢
        cases hact : r.isActive with
        | false => rfl
        | true => exact absurd (congrArg BorrowRequest.Id (honly r hr he' hact)) hrid
    generalize List.map (fun r => if r.Id = A.Id then
          applyUpdate (mkUpdateData RequestRoute.status
            { status := some Status.REJECTED, notes := notes, approvedBy := approverId } now) r
          else r) db.requests = ledger at hzero ⊢
    rw [createRequest_found { equipment := db.equipment, requests := ledger } b idq e hid
      hfind hav, if_neg]
    · exact ⟨_, rfl, rfl⟩
    · simp only [hzero, hq]
      decide

/-- Witness of C9: the end-to-end scenario with request A on days 1 to 5 and
request B on days 3 to 4. -/
theorem inactive_rows_do_not_count_witness :
    (createRequest sampleDB bodyB).2 = CreateResponse.allUnitsBooked ∧
    ∃ row : BorrowRequest, row.Status = Status.PENDING ∧
      (createRequest (setStatus sampleDB requestA.Id Status.REJECTED none (some 2) 20).1
        bodyB).2 = CreateResponse.created row :=
  inactive_rows_do_not_count.1 sampleDB bodyB 1 projector requestA none (some 2) 20
    (by decide) (by decide) (by decide) (by decide) (by decide) (by decide) (by decide)
    (by decide) (by decide) (by decide)

/-! ## The admission invariant -/

/-- C3, as stated, fails: request A is created and rejected, request B is
admitted on overlapping days, then `setStatus` puts A back to PENDING; the
projector, of quantity 1, then has two PENDING rows with overlapping dates. -/
theorem admissionInvariant_counterexample :
    ¬ AdmissionInvariant (runOps (emptyLedger projectorOnly) reactivationTrace) := by
  intro h
  have h1 := h projector (by decide)
    (runOps (emptyLedger projectorOnly) reactivationTrace).requests
    (List.Sublist.refl _) (by decide) (by decide)
  exact absurd h1 (by decide)

/-- C3, amended: in every state reached from an empty ledger by a sequence of
`createRequest`, `setStatus` and `returnEquipment` calls, run one at a time
against a fixed catalog, in which no `setStatus` gives PENDING or APPROVED to
a REJECTED or RETURNED request, for every catalog item with quantity N ≥ 0,
every set of PENDING or APPROVED rows of the item whose date ranges pairwise
overlap has at most N members. -/
theorem admission_bound_without_reactivation (catalog : List Equipment) (ops : List LedgerOp)
    (e : Equipment)
    (hkey : Equipment.findByPk catalog (e.Id : Rat) = some e)
    (hq : 0 ≤ e.Quantity)
    (hops : noReactivations (emptyLedger catalog) ops = true) :
    ∀ rows : List BorrowRequest,
      rows.Sublist (runOps (emptyLedger catalog) ops).requests →
      (∀ r ∈ rows, r.EquipmentId = e.Id ∧ r.isActive = true) →
      rows.Pairwise (fun r₁ r₂ => r₁.overlaps r₂ = true) →
      (rows.length : Int) ≤ e.Quantity :=
  admissionBound_runOps ops (emptyLedger catalog) e hkey hops
    (admissionBound_emptyLedger catalog e hq)


/-- Witness of the amended C3: A is created and approved, B is refused. -/
theorem admission_bound_without_reactivation_witness :
    Equipment.findByPk projectorOnly (projector.Id : Rat) = some projector ∧
    0 ≤ projector.Quantity ∧
    noReactivations (emptyLedger projectorOnly) approvalTrace = true ∧
    (((runOps (emptyLedger projectorOnly) approvalTrace).requests.length : Nat) : Int) ≤
      projector.Quantity :=
  ⟨by decide, by decide, by decide,
    admission_bound_without_reactivation projectorOnly approvalTrace projector
      (by decide) (by decide) (by decide)
      (runOps (emptyLedger projectorOnly) approvalTrace).requests
      (List.Sublist.refl _) (by decide) (by decide)⟩

/-- C4, as stated, fails: the projector, of quantity 1, is lent for days 1 to
2 and for days 4 to 5; both rows overlap the interval from day 1 to day 5. -/
theorem overlapCount_interval_counterexample :
    Equipment.findByPk projectorOnly (projector.Id : Rat) = some projector ∧
    projector.Quantity = 1 ∧
    specOverlapCount
      (runOps (emptyLedger projectorOnly)
        ([bodyEarly, bodyLate].map LedgerOp.createRequest)).requests
      projector.Id 1 5 = 2 ∧
    ¬ (specOverlapCount
      (runOps (emptyLedger projectorOnly)
        ([bodyEarly, bodyLate].map LedgerOp.createRequest)).requests
      projector.Id 1 5 : Int) ≤ projector.Quantity := by
  decide

/-- C4, amended: in every state reached from an empty ledger by `createRequest`
calls alone, for every catalog item with quantity N ≥ 0 and every single date,
the number of PENDING or APPROVED rows of the item whose date range contains
that date is at most N. -/
theorem overlapCount_single_date (catalog : List Equipment) (bodies : List CreateBody)
    (e : Equipment) (day : Date)
    (hkey : Equipment.findByPk catalog (e.Id : Rat) = some e)
    (hq : 0 ≤ e.Quantity) :
    (specOverlapCount
      (runOps (emptyLedger catalog) (bodies.map LedgerOp.createRequest)).requests
      e.Id day day : Int) ≤ e.Quantity := by
  have hinv := admissionBound_runOps (bodies.map LedgerOp.createRequest) (emptyLedger catalog) e
    hkey (noReactivations_creates bodies _) (admissionBound_emptyLedger catalog e hq)
  unfold specOverlapCount
  apply hinv _ (List.filter_sublist _)
  · intro r hr
    have := (List.mem_filter.mp hr).2
    simp only [decide_eq_true_eq] at this
    exact ⟨this.1, (isActive_iff r).mpr this.2.1⟩
  · apply List.pairwise_of_forall_mem_list
    intro r₁ h₁ r₂ h₂
    have a₁ := (List.mem_filter.mp h₁).2
    have a₂ := (List.mem_filter.mp h₂).2
    simp only [decide_eq_true_eq] at a₁ a₂
    simp only [BorrowRequest.overlaps, Bool.and_eq_true, decide_eq_true_eq]
    exact ⟨le_trans a₁.2.2.1 a₂.2.2.2, le_trans a₂.2.2.1 a₁.2.2.2⟩

/-- Witness of the amended C4: on day 4 one row holds the projector. -/
theorem overlapCount_single_date_witness :
    Equipment.findByPk projectorOnly (projector.Id : Rat) = some projector ∧
    0 ≤ projector.Quantity ∧
    (specOverlapCount
      (runOps (emptyLedger projectorOnly)
        ([bodyEarly, bodyLate].map LedgerOp.createRequest)).requests
      projector.Id 4 4 : Int) ≤ projector.Quantity :=
  ⟨by decide, by decide,
    overlapCount_single_date projectorOnly [bodyEarly, bodyLate] projector 4
      (by decide) (by decide)⟩

/-! ## Validation of `equipmentId` -/

/-- C6, as stated, fails: the string "1abc" is not the decimal representation
of an integer, yet `createRequest` does not answer InvalidInput: the request is
admitted for equipment 1. The number 1.5 is not an integer either, and the
answer is not InvalidInput. -/
theorem createRequest_invalidInput_counterexample :
    specIntegerId bodyTrailing.equipmentId = false ∧
    createRequest emptyLedgerDB bodyTrailing =
      ({ emptyLedgerDB with requests := [newRow [] bodyTrailing 1] },
        CreateResponse.created (newRow [] bodyTrailing 1)) ∧
    (createRequest emptyLedgerDB bodyTrailing).2.outcome ≠ CreateOutcome.InvalidInput ∧
    specIntegerId bodyFraction.equipmentId = false ∧
    (createRequest emptyLedgerDB bodyFraction).2.outcome ≠ CreateOutcome.InvalidInput := by
  decide

/-- C6, amended: `createRequest` answers InvalidInput exactly when
`equipmentId` is neither a number nor a string that, once trimmed, starts with
an optional sign and a decimal digit; the answer then depends on neither the
catalog nor the ledger, and the store is unchanged. Every integer id in the
sense of the claim passes the check. A non-integer number passes it too and is
answered "not found". -/
theorem createRequest_invalidInput_iff (b : CreateBody) :
    (∀ db : DB, (createRequest db b).2.outcome = CreateOutcome.InvalidInput ↔
      passesIdCheck b.equipmentId = false) ∧
    (passesIdCheck b.equipmentId = false →
      ∃ resp : CreateResponse, ∀ db : DB, createRequest db b = (db, resp)) ∧
    (specIntegerId b.equipmentId = true → passesIdCheck b.equipmentId = true) ∧
    (∀ q : Rat, b.equipmentId = JsValue.number q → q.isInt = false →
      ∀ db : DB, createRequest db b = (db, CreateResponse.equipmentNotFound)) := by
  refine ⟨?_, ?_, ?_, ?_⟩
  · intro db
    constructor
    · intro hout
      by_contra hp
      rw [Bool.not_eq_false] at hp
      obtain ⟨idq, hid⟩ := (passesIdCheck_iff _).mp hp
      exact createRequest_of_num db b idq hid hout
    · intro hp
      rcases equipmentIdInt_of_not_passes _ hp with h | h
      · rw [createRequest_of_none db b h]; rfl
      · rw [createRequest_of_nan db b h]; rfl
  · intro hp
    rcases equipmentIdInt_of_not_passes _ hp with h | h
    · exact ⟨_, fun db => createRequest_of_none db b h⟩
    · exact ⟨_, fun db => createRequest_of_nan db b h⟩
  · intro hs
    cases hv : b.equipmentId with
    | string s =>
      rw [hv] at hs
      exact isSignedDigits_startsWith _ hs
    | number q => rfl
    | undefined => simp [hv, specIntegerId] at hs
    | null => simp [hv, specIntegerId] at hs
    | bool _ => simp [hv, specIntegerId] at hs
    | object => simp [hv, specIntegerId] at hs
  · intro q hv hq db
    have hfind : Equipment.findByPk db.equipment q = none := by
      unfold Equipment.findByPk
      rw [List.find?_eq_none]
      intro e _ he
      have he' : (e.Id : Rat) = q := by simpa using he
      rw [← he'] at hq
      simp [Rat.isInt] at hq
    simp [createRequest, equipmentIdInt, hv, hfind]

/-- Witness of the amended C6: "abc" is refused as InvalidInput, the number
1.5 as "not found". -/
theorem createRequest_invalidInput_iff_witness :
    passesIdCheck bodyLetters.equipmentId = false ∧
    (createRequest sampleDB bodyLetters).2.outcome = CreateOutcome.InvalidInput ∧
    bodyFraction.equipmentId = JsValue.number oneAndHalf ∧ oneAndHalf.isInt = false ∧
    createRequest sampleDB bodyFraction = (sampleDB, CreateResponse.equipmentNotFound) :=
  ⟨by decide,
   ((createRequest_invalidInput_iff bodyLetters).1 sampleDB).mpr (by decide),
   rfl, by decide,
   (createRequest_invalidInput_iff bodyFraction).2.2.2 oneAndHalf rfl (by decide) sampleDB⟩

/-! ## Status transitions (`updateRequestStatus`) -/

/-- C10: when `requestId` is the key of no ledger row, `updateRequestStatus`
on either route, hence `setStatus` and `returnEquipment`, answers "request not
found" and leaves the store unchanged. -/
theorem updateRequestStatus_notFound (db : DB) (requestId : Int)
    (hno : ∀ r ∈ db.requests, r.Id ≠ requestId) :
    (∀ (route : RequestRoute) (b : StatusBody) (now : Date),
      updateRequestStatus db route requestId b now = (db, UpdateResponse.requestNotFound)) ∧
    (∀ (newStatus : Status) (notes : Option String) (approverId : Option Int) (now : Date),
      setStatus db requestId newStatus notes approverId now =
        (db, UpdateResponse.requestNotFound)) ∧
    (∀ now : Date, returnEquipment db requestId now = (db, UpdateResponse.requestNotFound)) := by
  have hfind : BorrowRequest.findByPk db.requests requestId = none := by
    unfold BorrowRequest.findByPk
    rw [List.find?_eq_none]
    intro r hr
    simpa using hno r hr
  have key : ∀ (route : RequestRoute) (b : StatusBody) (now : Date),
      updateRequestStatus db route requestId b now = (db, UpdateResponse.requestNotFound) := by
    intro route b now
    simp [updateRequestStatus, hfind]
  exact ⟨key, fun _ _ _ _ => key _ _ _, fun _ => key _ _ _⟩

/-- Witness of C10: no request has key 42. -/
theorem updateRequestStatus_notFound_witness :
    (∀ r ∈ sampleDB.requests, r.Id ≠ 42) ∧
    setStatus sampleDB 42 Status.APPROVED none (some 2) 20 =
      (sampleDB, UpdateResponse.requestNotFound) ∧
    returnEquipment sampleDB 42 20 = (sampleDB, UpdateResponse.requestNotFound) :=
  have h := updateRequestStatus_notFound sampleDB 42 (by decide)
  ⟨by decide, h.2.1 _ _ _ _, h.2.2 _⟩

/-! ## Status transitions on an existing request -/

/-- The outcome of `updateRequestStatus` on an existing request when the update
carries a value. -/
theorem updateRequestStatus_existing (db : DB) (route : RequestRoute) (id : Int) (b : StatusBody)
    (now : Date) (h : ∃ r ∈ db.requests, r.Id = id)
    (hne : (mkUpdateData route b now).isEmpty = false) :
    ∃ r₀, BorrowRequest.findByPk db.requests id = some r₀ ∧ r₀ ∈ db.requests ∧ r₀.Id = id ∧
      updateRequestStatus db route id b now =
        ({ equipment := db.equipment
           requests := db.requests.map
             (fun r => if r.Id = id then applyUpdate (mkUpdateData route b now) r else r) },
         UpdateResponse.updated (some (applyUpdate (mkUpdateData route b now) r₀))) := by
  obtain ⟨r₀, hr₀⟩ := findByPk_request_isSome h
  have hmem : r₀ ∈ db.requests := List.mem_of_find?_eq_some hr₀
  have hid : r₀.Id = id := by
    have := List.find?_some hr₀
    simpa using this
  refine ⟨r₀, hr₀, hmem, hid, ?_⟩
  have hcount : (db.requests.filter (fun r => decide (r.Id = id))).length ≠ 0 := by
    rw [Ne, List.length_eq_zero, List.filter_eq_nil_iff]
    intro hall
    exact hall r₀ hmem (by simpa using hid)
  have hread : BorrowRequest.findByPk
      (db.requests.map
        (fun r => if r.Id = id then applyUpdate (mkUpdateData route b now) r else r)) id =
      some (applyUpdate (mkUpdateData route b now) r₀) := by
    unfold BorrowRequest.findByPk at hr₀ ⊢
    rw [List.find?_map]
    have hcomp : ((fun r : BorrowRequest => decide (r.Id = id)) ∘
        fun r => if r.Id = id then applyUpdate (mkUpdateData route b now) r else r) =
        fun r => decide (r.Id = id) := by
      funext r
      simp only [Function.comp]
      split
      · rename_i h'
        simp [applyUpdate, h']
      · rfl
    rw [hcomp, hr₀]
    simp [hid]
  simp only [updateRequestStatus, hr₀, BorrowRequest.update, hne, hcount, if_false, hread,
    Bool.false_eq_true]

theorem mem_map_update {ledger : List BorrowRequest} {id : Int} {u : UpdateData}
    {x : BorrowRequest}
    (hx : x ∈ ledger.map (fun r => if r.Id = id then applyUpdate u r else r))
    (hid : x.Id = id) : ∃ r ∈ ledger, r.Id = id ∧ x = applyUpdate u r := by
  obtain ⟨r, hr, rfl⟩ := List.mem_map.mp hx
  by_cases h : r.Id = id
  · exact ⟨r, hr, h, by rw [if_pos h]⟩
  · rw [if_neg h] at hid
    exact absurd hid h

theorem map_update_keys (ledger : List BorrowRequest) (id : Int) (u : UpdateData) :
    (ledger.map (fun r => if r.Id = id then applyUpdate u r else r)).map (fun x => x.Id) =
      ledger.map (fun x => x.Id) := by
  rw [List.map_map]
  apply List.map_congr_left
  intro r _
  simp only [Function.comp]
  split <;> rfl

/-- C11: `setStatus` validates no transition. For every existing request,
whatever its current status, and every new status `t`, `setStatus` answers 200
with the row read back carrying status `t`; the ledger keeps the same keys and
every row with the key has status `t` afterwards. -/
theorem setStatus_any_transition (db : DB) (r : BorrowRequest) (t : Status)
    (notes : Option String) (approverId : Option Int) (now : Date) (hr : r ∈ db.requests) :
    (∃ r', (setStatus db r.Id t notes approverId now).2 = UpdateResponse.updated (some r') ∧
      r'.Id = r.Id ∧ r'.Status = t) ∧
    (setStatus db r.Id t notes approverId now).1.requests.map (fun x => x.Id) =
      db.requests.map (fun x => x.Id) ∧
    (∀ x ∈ (setStatus db r.Id t notes approverId now).1.requests, x.Id = r.Id → x.Status = t) := by
  obtain ⟨r₀, _, _, hid, heq⟩ := updateRequestStatus_existing db RequestRoute.status r.Id
    { status := some t, notes := notes, approvedBy := approverId } now ⟨r, hr, rfl⟩ rfl
  unfold setStatus
  rw [heq]
  refine ⟨⟨_, rfl, hid, rfl⟩, map_update_keys _ _ _, ?_⟩
  intro x hx hxid
  obtain ⟨r₁, _, _, rfl⟩ := mem_map_update hx hxid
  rfl

/-- C15: for every existing request, whatever its status, `returnEquipment`
with no status in the body answers 200 and leaves the request with status
RETURNED and the returned-date set to the current date. -/
theorem returnEquipment_always_returns (db : DB) (r : BorrowRequest) (now : Date)
    (hr : r ∈ db.requests) :
    (∃ r', (returnEquipment db r.Id now).2 = UpdateResponse.updated (some r') ∧
      r'.Id = r.Id ∧ r'.Status = Status.RETURNED ∧ r'.ReturnedDate = some now) ∧
    (returnEquipment db r.Id now).1.requests.map (fun x => x.Id) =
      db.requests.map (fun x => x.Id) ∧
    (∀ x ∈ (returnEquipment db r.Id now).1.requests, x.Id = r.Id →
      x.Status = Status.RETURNED ∧ x.ReturnedDate = some now) := by
  obtain ⟨r₀, _, _, hid, heq⟩ := updateRequestStatus_existing db RequestRoute.returnEquipment
    r.Id { status := none, notes := none, approvedBy := none } now ⟨r, hr, rfl⟩ rfl
  unfold returnEquipment
  rw [heq]
  refine ⟨⟨_, rfl, hid, rfl, rfl⟩, map_update_keys _ _ _, ?_⟩
  intro x hx hxid
  obtain ⟨r₁, _, _, rfl⟩ := mem_map_update hx hxid
  exact ⟨rfl, rfl⟩

/-- The ledger after `setStatus`, row by row. -/
theorem setStatus_requests (db : DB) (id : Int) (t : Status)
    (notes : Option String) (approverId : Option Int) (now : Date) :
    (setStatus db id t notes approverId now).1.equipment = db.equipment ∧
    (setStatus db id t notes approverId now).1.requests =
      db.requests.map (fun x => if x.Id = id then
        applyUpdate (mkUpdateData RequestRoute.status
          { status := some t, notes := notes, approvedBy := approverId } now) x else x) := by
  unfold setStatus
  by_cases h : ∃ r ∈ db.requests, r.Id = id
  · rw [updateRequestStatus_store db _ id _ now h]
    exact ⟨rfl, rfl⟩
  · rw [updateRequestStatus_of_missing db _ id _ now h]
    refine ⟨rfl, ?_⟩
    symm
    conv_rhs => rw [← List.map_id db.requests]
    apply List.map_congr_left
    intro x hx
    rw [if_neg (fun hid => h ⟨x, hx, hid⟩)]
    rfl

/-- C13: for every existing request `setStatus` succeeds, and afterwards the
returned-date of a row is the current date when the row is the targeted one
and the new status is RETURNED; in every other case it keeps its value. -/
theorem setStatus_returnedDate (db : DB) (r : BorrowRequest) (t : Status)
    (notes : Option String) (approverId : Option Int) (now : Date) (hr : r ∈ db.requests) :
    (∃ r', (setStatus db r.Id t notes approverId now).2 = UpdateResponse.updated (some r')) ∧
    (setStatus db r.Id t notes approverId now).1.requests.map (fun x => (x.Id, x.ReturnedDate)) =
      db.requests.map (fun x =>
        (x.Id, if x.Id = r.Id ∧ t = Status.RETURNED then some now else x.ReturnedDate)) := by
  constructor
  · obtain ⟨r₀, _, _, _, heq⟩ := updateRequestStatus_existing db RequestRoute.status r.Id
      { status := some t, notes := notes, approvedBy := approverId } now ⟨r, hr, rfl⟩ rfl
    unfold setStatus
    rw [heq]
    exact ⟨_, rfl⟩
  · rw [(setStatus_requests db r.Id t notes approverId now).2, List.map_map]
    apply List.map_congr_left
    intro x _
    simp only [Function.comp]
    by_cases hid : x.Id = r.Id
    · by_cases ht : t = Status.RETURNED
      · simp [hid, ht, applyUpdate, mkUpdateData, finalStatus]
      · simp [hid, ht, applyUpdate, mkUpdateData, finalStatus]
    · simp [hid]

/-- C14, as stated, fails: notes are supplied as the empty string (a rejection
with an empty reason) and the row keeps its notes "late". -/
theorem setStatus_notes_counterexample :
    returnedLoan ∈ historyDB.requests ∧ returnedLoan.Notes = some "late" ∧
    (setStatus historyDB returnedLoan.Id Status.REJECTED (some "") (some 2) 9).1.requests.map
      (fun x => x.Notes) = [some "late"] := by
  decide

/-- C14, amended: `setStatus` changes only the rows with the targeted key and
only their status, notes, approver and returned-date. Notes become the supplied
notes when these are a non-empty string and are otherwise unchanged; the
approver becomes the supplied id when it is non-zero and is otherwise
unchanged; requester, equipment, purpose and dates of the row, every other
ledger row and the catalog are unchanged, and no row is removed. -/
theorem setStatus_frame (db : DB) (id : Int) (t : Status)
    (notes : Option String) (approverId : Option Int) (now : Date) :
    (setStatus db id t notes approverId now).1.equipment = db.equipment ∧
    (setStatus db id t notes approverId now).1.requests =
      db.requests.map (fun x => if x.Id = id then
        { x with
          Status := t
          Notes := match notes with
            | some n => if n = "" then x.Notes else some n
            | none => x.Notes
          ApprovedBy := match approverId with
            | some a => if a = 0 then x.ApprovedBy else some a
            | none => x.ApprovedBy
          ReturnedDate := if t = Status.RETURNED then some now else x.ReturnedDate }
        else x) := by
  refine ⟨(setStatus_requests db id t notes approverId now).1, ?_⟩
  rw [(setStatus_requests db id t notes approverId now).2]
  apply List.map_congr_left
  intro x _
  by_cases hid : x.Id = id
  · rw [if_pos hid, if_pos hid]
    cases notes with
    | none =>
      cases approverId with
      | none => by_cases ht : t = Status.RETURNED <;> simp [applyUpdate, mkUpdateData, finalStatus, ht]
      | some a =>
        by_cases ha : a = 0 <;> by_cases ht : t = Status.RETURNED <;>
          simp [applyUpdate, mkUpdateData, finalStatus, ht, ha]
    | some n =>
      cases approverId with
      | none =>
        by_cases hn : n = "" <;> by_cases ht : t = Status.RETURNED <;>
          simp [applyUpdate, mkUpdateData, finalStatus, ht, hn]
      | some a =>
        by_cases hn : n = "" <;> by_cases ha : a = 0 <;> by_cases ht : t = Status.RETURNED <;>
          simp [applyUpdate, mkUpdateData, finalStatus, ht, ha, hn]
  · rw [if_neg hid, if_neg hid]

/-- Witness of C11: the edge RETURNED to PENDING. -/
theorem setStatus_any_transition_witness :
    returnedLoan ∈ historyDB.requests ∧ returnedLoan.Status = Status.RETURNED ∧
    (∃ r', (setStatus historyDB returnedLoan.Id Status.PENDING none none 9).2 =
        UpdateResponse.updated (some r') ∧
      r'.Id = returnedLoan.Id ∧ r'.Status = Status.PENDING) :=
  ⟨by decide, by decide,
    (setStatus_any_transition historyDB returnedLoan Status.PENDING none none 9
      (by decide)).1⟩

/-- Witness of C15: request A, still PENDING, is returned on day 9. -/
theorem returnEquipment_always_returns_witness :
    requestA ∈ sampleDB.requests ∧ requestA.Status = Status.PENDING ∧
    (∃ r', (returnEquipment sampleDB requestA.Id 9).2 = UpdateResponse.updated (some r') ∧
      r'.Id = requestA.Id ∧ r'.Status = Status.RETURNED ∧ r'.ReturnedDate = some 9) :=
  ⟨by decide, by decide, (returnEquipment_always_returns sampleDB requestA 9 (by decide)).1⟩

/-- Witness of C13: approving request A on day 9 leaves its returned-date
empty. -/
theorem setStatus_returnedDate_witness :
    requestA ∈ sampleDB.requests ∧
    (setStatus sampleDB requestA.Id Status.APPROVED none (some 2) 9).1.requests.map
        (fun x => (x.Id, x.ReturnedDate)) =
      sampleDB.requests.map (fun x =>
        (x.Id, if x.Id = requestA.Id ∧ Status.APPROVED = Status.RETURNED then some 9
          else x.ReturnedDate)) :=
  ⟨by decide,
    (setStatus_returnedDate sampleDB requestA Status.APPROVED none (some 2) 9 (by decide)).2⟩

/-! ## Deletion guard (`deleteEquipment`) -/

theorem findOne_eq_none_iff (ledger : List BorrowRequest) (wh : BorrowRequest → Bool) :
    BorrowRequest.findOne ledger wh = none ↔ ∀ r ∈ ledger, wh r = false := by
  unfold BorrowRequest.findOne
  rw [List.find?_eq_none]
  constructor
  · intro h r hr
    cases hw : wh r with
    | false => rfl
    | true => exact absurd hw (h r hr)
  · intro h r hr hw
    rw [h r hr] at hw
    cases hw

/-- The branches of `deleteEquipment`. -/
theorem deleteEquipment_cases (db : DB) (id : Int) :
    ((∃ r ∈ db.requests, r.EquipmentId = id ∧ r.isActive = true) ∧
      deleteEquipment db id = (db, DeleteResponse.activeBorrows)) ∨
    ((∃ r ∈ db.requests, r.EquipmentId = id) ∧
      (∀ r ∈ db.requests, r.EquipmentId = id → r.isActive = false) ∧
      deleteEquipment db id = (db, DeleteResponse.borrowingHistory)) ∨
    ((∀ r ∈ db.requests, r.EquipmentId ≠ id) ∧ (∀ e ∈ db.equipment, e.Id ≠ id) ∧
      deleteEquipment db id = (db, DeleteResponse.equipmentNotFound)) ∨
    ((∀ r ∈ db.requests, r.EquipmentId ≠ id) ∧ (∃ e ∈ db.equipment, e.Id = id) ∧
      deleteEquipment db id =
        ({ equipment := db.equipment.filter (fun e => !decide (e.Id = id))
           requests := db.requests }, DeleteResponse.deleted)) := by
  cases h1 : BorrowRequest.findOne db.requests (fun r => decide (r.EquipmentId = id)) with
  | some r1 =>
    have hr1 : r1 ∈ db.requests := List.mem_of_find?_eq_some h1
    have hid1 : r1.EquipmentId = id := by
      have := List.find?_some h1
      simpa using this
    cases h2 : BorrowRequest.findOne db.requests (fun r =>
        decide (r.EquipmentId = id) &&
          (r.Status == Status.PENDING || r.Status == Status.APPROVED)) with
    | some r2 =>
      left
      have hr2 : r2 ∈ db.requests := List.mem_of_find?_eq_some h2
      have hp := List.find?_some h2
      simp only [Bool.and_eq_true, decide_eq_true_eq] at hp
      exact ⟨⟨r2, hr2, hp.1, hp.2⟩, by simp only [deleteEquipment, h1, h2]⟩
    | none =>
      right; left
      refine ⟨⟨r1, hr1, hid1⟩, ?_, by simp only [deleteEquipment, h1, h2]⟩
      intro r hr hid
      have := (findOne_eq_none_iff _ _).mp h2 r hr
      simp only [hid, decide_True, Bool.true_and] at this
      exact this
  | none =>
    right; right
    have hno : ∀ r ∈ db.requests, r.EquipmentId ≠ id := by
      intro r hr
      have := (findOne_eq_none_iff _ _).mp h1 r hr
      simpa using this
    by_cases hcat : ∃ e ∈ db.equipment, e.Id = id
    · right
      refine ⟨hno, hcat, ?_⟩
      have hcount : (db.equipment.filter (fun e => decide (e.Id = id))).length ≠ 0 := by
        rw [Ne, List.length_eq_zero, List.filter_eq_nil_iff]
        intro hall
        obtain ⟨e, he, heid⟩ := hcat
        exact hall e he (by simpa using heid)
      simp only [deleteEquipment, h1, Equipment.destroy, hcount, if_false]
    · left
      have hall : ∀ e ∈ db.equipment, e.Id ≠ id := fun e he heid => hcat ⟨e, he, heid⟩
      refine ⟨hno, hall, ?_⟩
      have hcount : (db.equipment.filter (fun e => decide (e.Id = id))).length = 0 := by
        rw [List.length_eq_zero, List.filter_eq_nil_iff]
        intro e he
        simpa using hall e he
      have hsame : db.equipment.filter (fun e => !decide (e.Id = id)) = db.equipment := by
        rw [List.filter_eq_self]
        intro e he
        simpa using hall e he
      simp only [deleteEquipment, h1, Equipment.destroy, hcount, if_true, hsame]

theorem isActive_false_iff (r : BorrowRequest) :
    r.isActive = false ↔ (r.Status = Status.REJECTED ∨ r.Status = Status.RETURNED) := by
  unfold BorrowRequest.isActive
  cases r.Status <;> simp

/-- C17: for an existing equipment item the answer of `deleteEquipment` is
decided by the ledger rows referencing it. One PENDING or APPROVED row gives
the "active" refusal, whatever other rows exist; rows that are all REJECTED or
RETURNED give the "history" refusal; no row gives a successful deletion. -/
theorem deleteEquipment_outcome (db : DB) (e : Equipment) (he : e ∈ db.equipment) :
    ((∃ r ∈ db.requests, r.EquipmentId = e.Id ∧
        (r.Status = Status.PENDING ∨ r.Status = Status.APPROVED)) →
      (deleteEquipment db e.Id).2 = DeleteResponse.activeBorrows) ∧
    ((∃ r ∈ db.requests, r.EquipmentId = e.Id) →
      (∀ r ∈ db.requests, r.EquipmentId = e.Id →
        (r.Status = Status.REJECTED ∨ r.Status = Status.RETURNED)) →
      (deleteEquipment db e.Id).2 = DeleteResponse.borrowingHistory) ∧
    ((∀ r ∈ db.requests, r.EquipmentId ≠ e.Id) →
      (deleteEquipment db e.Id).2 = DeleteResponse.deleted) := by
  rcases deleteEquipment_cases db e.Id with
    ⟨⟨a, ha, haid, hact⟩, heq⟩ | ⟨⟨a, ha, haid⟩, hall, heq⟩ | ⟨hno, hcat, heq⟩ | ⟨hno, _, heq⟩
  · refine ⟨fun _ => by rw [heq], ?_, ?_⟩
    · intro _ hhist
      have := (isActive_false_iff a).mpr (hhist a ha haid)
      rw [hact] at this
      cases this
    · intro hnone
      exact absurd haid (hnone a ha)
  · refine ⟨?_, fun _ _ => by rw [heq], ?_⟩
    · rintro ⟨r, hr, hrid, hst⟩
      have := hall r hr hrid
      rw [← Bool.not_eq_true, isActive_iff] at this
      exact absurd hst this
    · intro hnone
      exact absurd haid (hnone a ha)
  · exact absurd rfl (hcat e he)
  · refine ⟨?_, ?_, fun _ => by rw [heq]⟩
    · rintro ⟨r, hr, hrid, _⟩
      exact absurd hrid (hno r hr)
    · rintro ⟨r, hr, hrid⟩
      exact absurd hrid (hno r hr)

/-- Witness of C17: the projector has an active and a returned request, the
microscope a returned one only; with an empty ledger the projector is
deleted. -/
theorem deleteEquipment_outcome_witness :
    projector ∈ mixedDB.equipment ∧ microscope ∈ mixedDB.equipment ∧
    (deleteEquipment mixedDB projector.Id).2 = DeleteResponse.activeBorrows ∧
    (deleteEquipment mixedDB microscope.Id).2 = DeleteResponse.borrowingHistory ∧
    (deleteEquipment emptyLedgerDB projector.Id).2 = DeleteResponse.deleted :=
  ⟨by decide, by decide,
    (deleteEquipment_outcome mixedDB projector (by decide)).1
      ⟨requestA, by decide, by decide, Or.inl (by decide)⟩,
    (deleteEquipment_outcome mixedDB microscope (by decide)).2.1
      ⟨{ returnedLoan with Id := 4, EquipmentId := 2 }, by decide, by decide⟩ (by decide),
    (deleteEquipment_outcome emptyLedgerDB projector (by decide)).2.2 (by decide)⟩

/-- C18: `deleteEquipment` removes a catalog row only when no ledger row
references the key. A successful deletion removes the catalog rows with the
key, keeps every other catalog row and the whole ledger; every other answer
leaves the store unchanged. -/
theorem deleteEquipment_frame (db : DB) (id : Int) :
    ((deleteEquipment db id).2 = DeleteResponse.deleted →
      (∀ r ∈ db.requests, r.EquipmentId ≠ id) ∧
      (∃ e ∈ db.equipment, e.Id = id) ∧
      (deleteEquipment db id).1.requests = db.requests ∧
      (deleteEquipment db id).1.equipment =
        db.equipment.filter (fun e => decide (e.Id ≠ id))) ∧
    ((deleteEquipment db id).2 ≠ DeleteResponse.deleted → (deleteEquipment db id).1 = db) := by
  rcases deleteEquipment_cases db id with
    ⟨_, heq⟩ | ⟨_, _, heq⟩ | ⟨_, _, heq⟩ | ⟨hno, hcat, heq⟩
  · rw [heq]; exact ⟨fun h => (by cases h), fun _ => rfl⟩
  · rw [heq]; exact ⟨fun h => (by cases h), fun _ => rfl⟩
  · rw [heq]; exact ⟨fun h => (by cases h), fun _ => rfl⟩
  · rw [heq]
    refine ⟨fun _ => ⟨hno, hcat, rfl, ?_⟩, fun h => absurd rfl h⟩
    apply List.filter_congr
    intro e _
    simp

/-- Witness of C18: deleting the projector from a store with an empty ledger
leaves the microscope; deleting it while request A is active changes
nothing. -/
theorem deleteEquipment_frame_witness :
    (deleteEquipment emptyLedgerDB 1).2 = DeleteResponse.deleted ∧
    (deleteEquipment emptyLedgerDB 1).1.requests = emptyLedgerDB.requests ∧
    (deleteEquipment emptyLedgerDB 1).1.equipment =
      emptyLedgerDB.equipment.filter (fun e => decide (e.Id ≠ 1)) ∧
    (deleteEquipment sampleDB 1).2 ≠ DeleteResponse.deleted ∧
    (deleteEquipment sampleDB 1).1 = sampleDB :=
  have h := (deleteEquipment_frame emptyLedgerDB 1).1 (by decide)
  ⟨by decide, h.2.2.1, h.2.2.2, by decide,
    (deleteEquipment_frame sampleDB 1).2 (by decide)⟩

theorem referentialIntegrity_update (db : DB) (route : RequestRoute) (id : Int)
    (b : StatusBody) (now : Date) (h : ReferentialIntegrity db) :
    ReferentialIntegrity (updateRequestStatus db route id b now).1 := by
  by_cases hex : ∃ r ∈ db.requests, r.Id = id
  · rw [updateRequestStatus_store db route id b now hex]
    intro x hx
    obtain ⟨r, hr, rfl⟩ := List.mem_map.mp hx
    obtain ⟨e, he, heid⟩ := h r hr
    refine ⟨e, he, ?_⟩
    rw [heid]
    split <;> rfl
  · rw [updateRequestStatus_of_missing db route id b now hex]; exact h

theorem referentialIntegrity_run (db : DB) (op : SystemOp) (h : ReferentialIntegrity db) :
    ReferentialIntegrity (op.run db) := by
  cases op with
  | ledger lop =>
    cases lop with
    | createRequest b =>
      show ReferentialIntegrity (createRequest db b).1
      rcases createRequest_cases db b with ⟨hdb, _⟩ | ⟨e, hkey, _, _, _, heq⟩
      · rw [hdb]; exact h
      · rw [heq]
        intro r hr
        rcases List.mem_append.mp hr with hr | hr
        · exact h r hr
        · rw [List.mem_singleton] at hr
          subst hr
          exact ⟨e, findByPk_mem hkey, rfl⟩
    | setStatus requestId newStatus notes approverId now =>
      exact referentialIntegrity_update db _ requestId _ now h
    | returnEquipment requestId now =>
      exact referentialIntegrity_update db _ requestId _ now h
  | deleteEquipment id =>
    show ReferentialIntegrity (deleteEquipment db id).1
    rcases deleteEquipment_cases db id with
      ⟨_, heq⟩ | ⟨_, _, heq⟩ | ⟨_, _, heq⟩ | ⟨hno, _, heq⟩
    · rw [heq]; exact h
    · rw [heq]; exact h
    · rw [heq]; exact h
    · rw [heq]
      intro r hr
      obtain ⟨e, he, heid⟩ := h r hr
      refine ⟨e, ?_, heid⟩
      rw [List.mem_filter]
      refine ⟨he, ?_⟩
      have : e.Id ≠ id := by rw [heid]; exact hno r hr
      simpa using this

/-- C19: referential integrity of the audit trail. From any store in which the
equipment key of every ledger row is the key of a catalog item, every sequence
of `createRequest`, `setStatus`, `returnEquipment` and `deleteEquipment`
calls, run one at a time, leads to a store with the same property. -/
theorem referentialIntegrity_runSystem (db : DB) (ops : List SystemOp)
    (h : ReferentialIntegrity db) : ReferentialIntegrity (runSystem db ops) := by
  induction ops generalizing db with
  | nil => exact h
  | cons op ops ih => exact ih (op.run db) (referentialIntegrity_run db op h)

/-- Witness of C19: a refused deletion, a return, a second refused deletion
and a new request. -/
theorem referentialIntegrity_runSystem_witness :
    ReferentialIntegrity mixedDB ∧ ReferentialIntegrity (runSystem mixedDB auditTrace) :=
  have h : ReferentialIntegrity mixedDB := by
    unfold ReferentialIntegrity
    decide
  ⟨h, referentialIntegrity_runSystem mixedDB auditTrace h⟩

/-- C12, as stated, fails: request A is created and returned, and a later
`setStatus` puts it back to PENDING. -/
theorem terminal_status_counterexample :
    (runSystem (emptyLedger projectorOnly) (reopenTrace.take 2)).requests.map
        (fun r => (r.Id, r.Status)) = [(1, Status.RETURNED)] ∧
    (runSystem (emptyLedger projectorOnly) reopenTrace).requests.map
        (fun r => (r.Id, r.Status)) = [(1, Status.PENDING)] := by
  decide

/-- C12, amended: `createRequest` and `deleteEquipment` change no existing
ledger row, hence no status, and `returnEquipment` leaves a RETURNED request
RETURNED: it writes RETURNED on the rows with the key and keeps every other
status. -/
theorem status_kept_by_create_and_delete (db : DB) :
    (∀ b : CreateBody, ∃ added : List BorrowRequest,
      (createRequest db b).1.requests = db.requests ++ added) ∧
    (∀ id : Int, (deleteEquipment db id).1.requests = db.requests) ∧
    (∀ (id : Int) (now : Date),
      (returnEquipment db id now).1.requests.map (fun x => (x.Id, x.Status)) =
        db.requests.map
          (fun x => (x.Id, if x.Id = id then Status.RETURNED else x.Status))) := by
  refine ⟨?_, ?_, ?_⟩
  · intro b
    rcases createRequest_cases db b with ⟨hdb, _⟩ | ⟨e, _, _, _, _, heq⟩
    · exact ⟨[], by rw [hdb, List.append_nil]⟩
    · exact ⟨[newRow db.requests b e.Id], by rw [heq]⟩
  · intro id
    rcases deleteEquipment_cases db id with
      ⟨_, heq⟩ | ⟨_, _, heq⟩ | ⟨_, _, heq⟩ | ⟨_, _, heq⟩ <;> rw [heq]
  · intro id now
    unfold returnEquipment
    by_cases hex : ∃ r ∈ db.requests, r.Id = id
    · rw [updateRequestStatus_store db _ id _ now hex, List.map_map]
      apply List.map_congr_left
      intro x _
      simp only [Function.comp]
      by_cases hid : x.Id = id
      · simp [hid, applyUpdate, mkUpdateData, finalStatus]
      · simp [hid]
    · rw [updateRequestStatus_of_missing db _ id _ now hex]
      apply List.map_congr_left
      intro x hx
      rw [if_neg (fun hid => hex ⟨x, hx, hid⟩)]

/-! ## Role gate and response bodies -/

/-- C16, evaluated: a student sends `PUT /1/return` with status APPROVED in
the body; request A, PENDING before, is APPROVED afterwards. The same body on
`PUT /1/status` is stopped by the role gate. -/
theorem student_sets_approved_via_return :
    requestA ∈ sampleDB.requests ∧ requestA.Status = Status.PENDING ∧
    (requestRouter Role.student sampleDB 9 approveViaReturn).requests.map
      (fun r => (r.Id, r.Status)) = [(1, Status.APPROVED)] ∧
    requestRouter Role.student sampleDB 9
      (RequestCall.putStatus 1
        { status := some Status.APPROVED, notes := none, approvedBy := none }) = sampleDB := by
  decide

/-- C20, evaluated: the 200 body of `PUT /1/return` carries the stored hash of
the requester in `updatedRequest.User.Password`, and changes when the stored
hashes are replaced; the requester read by `getRequests` does not. -/
theorem status_update_body_exposes_hash :
    (updatedRequestBody sampleUsers sampleDB RequestRoute.returnEquipment 1 emptyStatusBody
        9).map (fun body => body.User.map (fun u => u.Password)) =
      some (some "$2a$10$storedhash") ∧
    updatedRequestBody (replaceHashes "other" sampleUsers) sampleDB
        RequestRoute.returnEquipment 1 emptyStatusBody 9 ≠
      updatedRequestBody sampleUsers sampleDB RequestRoute.returnEquipment 1 emptyStatusBody
        9 ∧
    includeUserSummary (replaceHashes "other" sampleUsers) requestA =
      includeUserSummary sampleUsers requestA := by
  decide

/-! ## Admission: dates, precedence and monotonicity -/

/-- C24: the order of the two dates is not checked at admission. For an
existing available item and a body whose requested date is after its due date,
`createRequest` inserts a PENDING row with those dates whenever the overlap
count for those dates is below the item's quantity. -/
theorem createRequest_inverted_dates (db : DB) (b : CreateBody) (idq : Rat) (e : Equipment)
    (hid : equipmentIdInt b.equipmentId = some (JsNumber.num idq))
    (hfind : Equipment.findByPk db.equipment idq = some e)
    (hav : e.Availability = true)
    (hdates : b.requestedDate > b.dueDate)
    (hcount : (specOverlapCount db.requests e.Id b.requestedDate b.dueDate : Int) < e.Quantity) :
    ∃ row : BorrowRequest,
      createRequest db b =
        ({ db with requests := db.requests ++ [row] }, CreateResponse.created row) ∧
      row.Status = Status.PENDING ∧ row.EquipmentId = e.Id ∧
      row.RequestedDate = b.requestedDate ∧ row.DueDate = b.dueDate ∧
      row.RequestedDate > row.DueDate := by
  refine ⟨newRow db.requests b e.Id, ?_, rfl, rfl, rfl, rfl, hdates⟩
  rw [createRequest_found db b idq e hid hfind hav, if_neg (not_le_of_lt hcount)]

/-- Witness of C24: the projector asked for from day 9 to day 3. -/
theorem createRequest_inverted_dates_witness :
    bodyInverted.requestedDate > bodyInverted.dueDate ∧
    ∃ row : BorrowRequest,
      createRequest sampleDB bodyInverted =
        ({ sampleDB with requests := sampleDB.requests ++ [row] },
          CreateResponse.created row) ∧
      row.Status = Status.PENDING ∧ row.EquipmentId = projector.Id ∧
      row.RequestedDate = bodyInverted.requestedDate ∧ row.DueDate = bodyInverted.dueDate ∧
      row.RequestedDate > row.DueDate :=
  ⟨by decide,
    createRequest_inverted_dates sampleDB bodyInverted 1 projector
      (by decide) (by decide) (by decide) (by decide) (by decide)⟩

/-- C25: `createRequest` preserves the admission invariant. If in a store every
set of PENDING or APPROVED rows of an item with pairwise overlapping date
ranges has at most `Quantity` members, for every catalog item, then the same
holds in the store after any `createRequest` call, successful or not. -/
theorem admissionInvariant_createRequest (db : DB) (b : CreateBody)
    (hinv : AdmissionInvariant db) : AdmissionInvariant (createRequest db b).1 := by
  intro e hkey
  rw [createRequest_equipment] at hkey
  exact admissionBound_createRequest db b e hkey (hinv e hkey)

/-- Witness of C25: request B against the store holding request A. -/
theorem admissionInvariant_createRequest_witness :
    AdmissionInvariant sampleDB ∧ AdmissionInvariant (createRequest sampleDB bodyFree).1 :=
  have h : AdmissionInvariant sampleDB := by
    intro e hkey rows hsub _ _
    have hlen : rows.length ≤ 1 := hsub.length_le
    have hq : 1 ≤ e.Quantity := by
      have hmem := findByPk_mem hkey
      simp only [sampleDB, List.mem_cons, List.mem_singleton, List.not_mem_nil, or_false]
        at hmem
      rcases hmem with rfl | rfl <;> decide
    have hlen' : (rows.length : Int) ≤ 1 := by exact_mod_cast hlen
    exact le_trans hlen' hq
  ⟨h, admissionInvariant_createRequest sampleDB bodyFree h⟩

theorem specOverlapCount_mono (ledger : List BorrowRequest) (n : Int) (r d r' d' : Date)
    (hr : r ≤ r') (hd : d' ≤ d) :
    specOverlapCount ledger n r' d' ≤ specOverlapCount ledger n r d := by
  unfold specOverlapCount
  apply List.Sublist.length_le
  apply List.monotone_filter_right
  intro x h
  simp only [decide_eq_true_eq] at h ⊢
  exact ⟨h.1, h.2.1, le_trans h.2.2.1 hd, le_trans hr h.2.2.2⟩

/-- C28: admission is monotone in the requested interval. If `createRequest`
for dates [r, d] is not refused with "all units booked", then in the same
store the request for the same equipment and any dates [r', d'] with r ≤ r'
and d' ≤ d is not refused with "all units booked" either. -/
theorem admission_monotone (db : DB) (b b' : CreateBody)
    (hsame : b'.equipmentId = b.equipmentId)
    (hr : b.requestedDate ≤ b'.requestedDate) (hd : b'.dueDate ≤ b.dueDate)
    (hok : (createRequest db b).2.outcome ≠ CreateOutcome.CapacityExceeded) :
    (createRequest db b').2.outcome ≠ CreateOutcome.CapacityExceeded := by
  cases hid : equipmentIdInt b.equipmentId with
  | none =>
    rw [createRequest_of_none db b' (by rw [hsame]; exact hid)]
    simp [CreateResponse.outcome]
  | some v =>
    cases v with
    | nan =>
      rw [createRequest_of_nan db b' (by rw [hsame]; exact hid)]
      simp [CreateResponse.outcome]
    | num idq =>
      have hid' : equipmentIdInt b'.equipmentId = some (JsNumber.num idq) := by
        rw [hsame]; exact hid
      cases hfind : Equipment.findByPk db.equipment idq with
      | none => simp [createRequest, hid', hfind, CreateResponse.outcome]
      | some e =>
        cases hav : e.Availability with
        | false => simp [createRequest, hid', hfind, hav, CreateResponse.outcome]
        | true =>
          rw [createRequest_found db b idq e hid hfind hav] at hok
          rw [createRequest_found db b' idq e hid' hfind hav]
          have hmono := specOverlapCount_mono db.requests e.Id b.requestedDate b.dueDate
            b'.requestedDate b'.dueDate hr hd
          by_cases hc : e.Quantity ≤
              (specOverlapCount db.requests e.Id b.requestedDate b.dueDate : Int)
          · rw [if_pos hc] at hok
            exact absurd rfl hok
          · rw [if_neg]
            · simp [CreateResponse.outcome]
            · intro hc'
              apply hc
              have : (specOverlapCount db.requests e.Id b'.requestedDate b'.dueDate : Int) ≤
                  (specOverlapCount db.requests e.Id b.requestedDate b.dueDate : Int) := by
                exact_mod_cast hmono
              exact le_trans hc' this

/-- Witness of C28: days 6 to 7 inside days 6 to 9, both free. -/
theorem admission_monotone_witness :
    bodyFreeInside.equipmentId = bodyFree.equipmentId ∧
    bodyFree.requestedDate ≤ bodyFreeInside.requestedDate ∧
    bodyFreeInside.dueDate ≤ bodyFree.dueDate ∧
    (createRequest sampleDB bodyFree).2.outcome ≠ CreateOutcome.CapacityExceeded ∧
    (createRequest sampleDB bodyFreeInside).2.outcome ≠ CreateOutcome.CapacityExceeded :=
  ⟨by decide, by decide, by decide, by decide,
    admission_monotone sampleDB bodyFree bodyFreeInside
      (by decide) (by decide) (by decide) (by decide)⟩

/-- C29: the outcome of `createRequest` is fixed by its input and the store, with
the failures tested in the order InvalidInput, NotFound, Unavailable,
CapacityExceeded: an `equipmentId` that does not pass the check gives
InvalidInput whatever the store; one that names no item gives NotFound; an
item with availability false gives Unavailable whatever the overlap count; an
available item gives CapacityExceeded when the overlap count reaches its
quantity and success otherwise. -/
theorem createRequest_precedence (db : DB) (b : CreateBody) :
    (passesIdCheck b.equipmentId = false →
      (createRequest db b).2.outcome = CreateOutcome.InvalidInput) ∧
    (∀ idq : Rat, equipmentIdInt b.equipmentId = some (JsNumber.num idq) →
      Equipment.findByPk db.equipment idq = none →
      (createRequest db b).2.outcome = CreateOutcome.NotFound) ∧
    (∀ (idq : Rat) (e : Equipment), equipmentIdInt b.equipmentId = some (JsNumber.num idq) →
      Equipment.findByPk db.equipment idq = some e → e.Availability = false →
      (createRequest db b).2.outcome = CreateOutcome.Unavailable) ∧
    (∀ (idq : Rat) (e : Equipment), equipmentIdInt b.equipmentId = some (JsNumber.num idq) →
      Equipment.findByPk db.equipment idq = some e → e.Availability = true →
      e.Quantity ≤ (specOverlapCount db.requests e.Id b.requestedDate b.dueDate : Int) →
      (createRequest db b).2.outcome = CreateOutcome.CapacityExceeded) ∧
    (∀ (idq : Rat) (e : Equipment), equipmentIdInt b.equipmentId = some (JsNumber.num idq) →
      Equipment.findByPk db.equipment idq = some e → e.Availability = true →
      (specOverlapCount db.requests e.Id b.requestedDate b.dueDate : Int) < e.Quantity →
      (createRequest db b).2.outcome = CreateOutcome.Success) := by
  refine ⟨?_, ?_, ?_, ?_, ?_⟩
  · intro hp
    rcases equipmentIdInt_of_not_passes _ hp with h | h
    · rw [createRequest_of_none db b h]; rfl
    · rw [createRequest_of_nan db b h]; rfl
  · intro idq hid hfind
    simp [createRequest, hid, hfind, CreateResponse.outcome]
  · intro idq e hid hfind hav
    simp [createRequest, hid, hfind, hav, CreateResponse.outcome]
  · intro idq e hid hfind hav hc
    rw [createRequest_found db b idq e hid hfind hav, if_pos hc]
    rfl
  · intro idq e hid hfind hav hc
    rw [createRequest_found db b idq e hid hfind hav, if_neg (not_le_of_lt hc)]
    rfl

/-- Witness of C29: the lens is withdrawn and owns no unit, so that its overlap
count reaches its quantity; the answer is Unavailable. -/
theorem createRequest_precedence_witness :
    equipmentIdInt bodyLens.equipmentId = some (JsNumber.num 5) ∧
    Equipment.findByPk lensDB.equipment 5 = some brokenLens ∧
    brokenLens.Availability = false ∧
    brokenLens.Quantity ≤
      (specOverlapCount lensDB.requests brokenLens.Id bodyLens.requestedDate
        bodyLens.dueDate : Int) ∧
    (createRequest lensDB bodyLens).2.outcome = CreateOutcome.Unavailable :=
  ⟨by decide, by decide, by decide, by decide,
    (createRequest_precedence lensDB bodyLens).2.2.1 5 brokenLens
      (by decide) (by decide) (by decide)⟩

/-! ## Pagination and the overdue list -/

theorem ceilDiv_spec (n L : Nat) (hL : 1 ≤ L) :
    n ≤ ceilDiv n L * L ∧ ceilDiv n L * L < n + L := by
  unfold ceilDiv
  have h1 := Nat.div_add_mod (n + L - 1) L
  have h2 := Nat.mod_lt (n + L - 1) (Nat.lt_of_lt_of_le Nat.zero_lt_one hL)
  rw [Nat.mul_comm] at h1
  constructor <;> omega

theorem flatten_chunks {α : Type} (L : Nat) : ∀ (k : Nat) (l : List α),
    l.length ≤ k * L →
    ((List.range k).map (fun i => (l.drop (i * L)).take L)).flatten = l := by
  intro k
  induction k with
  | zero =>
    intro l hl
    have : l = [] := List.length_eq_zero.mp (by omega)
    subst this
    rfl
  | succ k ih =>
    intro l hl
    rw [List.range_succ_eq_map, List.map_cons, List.flatten_cons, List.map_map]
    have hfun : ((fun i => (l.drop (i * L)).take L) ∘ Nat.succ) =
        fun i => ((l.drop L).drop (i * L)).take L := by
      funext i
      simp only [Function.comp, List.drop_drop]
      congr 2
      rw [Nat.succ_mul, Nat.add_comm]
    rw [hfun, ih (l.drop L) (by rw [List.length_drop, Nat.succ_mul] at *; omega)]
    simp

theorem findAndCountAll_rows_length {α : Type} (table : List α) (wh : α → Bool)
    (order : α → α → Bool) (limit offset : Nat) :
    (findAndCountAll table wh order limit offset).rows.length =
      min limit ((table.filter wh).length - offset) := by
  simp [findAndCountAll, List.length_insertionSort]

/-- C21: pagination arithmetic of `getRequests` and `getEquipment`. For page
p ≥ 1, limit L ≥ 1 and n rows matching the filter, the answer holds the rows at
positions (p − 1)·L + 1 and following, at most L of them, of the matching rows
in the order of the endpoint, that is min(L, n − (p − 1)·L) rows (the
difference being 0 when negative); it reports `totalCount` n, `currentPage` p
and `totalPages` the least k with n ≤ k·L. -/
theorem pagination_arithmetic (users : List User) (c : Collation) (db : DB) (p L : Nat)
    (_hp : 1 ≤ p) (hL : 1 ≤ L) :
    (∀ q : RequestsQuery, q.page = some p → q.limit = some L →
      (getRequests users db q).items.length =
        min L ((db.requests.filter (requestsWhere q)).length - (p - 1) * L) ∧
      (getRequests users db q).items.map (fun x => x.request) =
        ((((db.requests.filter (requestsWhere q)).insertionSort
          (fun a b => byIdDesc a b = true)).drop ((p - 1) * L)).take L) ∧
      (getRequests users db q).totalCount = (db.requests.filter (requestsWhere q)).length ∧
      (getRequests users db q).currentPage = p ∧
      (db.requests.filter (requestsWhere q)).length ≤ (getRequests users db q).totalPages * L ∧
      (getRequests users db q).totalPages * L <
        (db.requests.filter (requestsWhere q)).length + L) ∧
    (∀ q : EquipmentQuery, q.page = some p → q.limit = some L →
      (getEquipment c db q).items.length =
        min L ((db.equipment.filter (equipmentFilter c q)).length - (p - 1) * L) ∧
      (getEquipment c db q).items =
        ((((db.equipment.filter (equipmentFilter c q)).insertionSort
          (fun a b => c.le a.Name b.Name = true)).drop ((p - 1) * L)).take L) ∧
      (getEquipment c db q).totalCount = (db.equipment.filter (equipmentFilter c q)).length ∧
      (getEquipment c db q).currentPage = p ∧
      (db.equipment.filter (equipmentFilter c q)).length ≤ (getEquipment c db q).totalPages * L ∧
      (getEquipment c db q).totalPages * L <
        (db.equipment.filter (equipmentFilter c q)).length + L) := by
  constructor
  · intro q hqp hql
    have hc := ceilDiv_spec (db.requests.filter (requestsWhere q)).length L hL
    refine ⟨?_, ?_, ?_, ?_, ?_, ?_⟩
    · simp only [getRequests, hqp, hql, Option.getD_some, List.length_map,
        findAndCountAll_rows_length]
    · simp only [getRequests, hqp, hql, Option.getD_some, List.map_map]
      have : ((fun x : RequestWithSummary => x.request) ∘
          includeEquipmentAndSummary users db.equipment) = id := by
        funext r
        rfl
      rw [this, List.map_id]
      rfl
    · simp only [getRequests, hqp, hql, Option.getD_some]; rfl
    · simp only [getRequests, hqp, Option.getD_some]
    · simp only [getRequests, hqp, hql, Option.getD_some]; exact hc.1
    · simp only [getRequests, hqp, hql, Option.getD_some]; exact hc.2
  · intro q hqp hql
    have hc := ceilDiv_spec (db.equipment.filter (equipmentFilter c q)).length L hL
    refine ⟨?_, ?_, ?_, ?_, ?_, ?_⟩
    · simp only [getEquipment, hqp, hql, Option.getD_some, findAndCountAll_rows_length]
    · simp only [getEquipment, hqp, hql, Option.getD_some]; rfl
    · simp only [getEquipment, hqp, hql, Option.getD_some]; rfl
    · simp only [getEquipment, hqp, Option.getD_some]
    · simp only [getEquipment, hqp, hql, Option.getD_some]; exact hc.1
    · simp only [getEquipment, hqp, hql, Option.getD_some]; exact hc.2

/-- Witness of C21: page 2 with limit 10 over 15 rows holds 5 rows, of 2
pages. -/
theorem pagination_arithmetic_witness :
    (fifteenDB.requests.filter (requestsWhere pageTwoOfTen)).length = 15 ∧
    (getRequests sampleUsers fifteenDB pageTwoOfTen).items.length =
      min 10 ((fifteenDB.requests.filter (requestsWhere pageTwoOfTen)).length - (2 - 1) * 10) ∧
    (getRequests sampleUsers fifteenDB pageTwoOfTen).items.length = 5 ∧
    (getRequests sampleUsers fifteenDB pageTwoOfTen).totalPages = 2 :=
  ⟨by decide,
    ((pagination_arithmetic sampleUsers
        { eq := fun a b => a == b, containsPattern := fun _ _ => true, le := fun a b => a ≤ b }
        fifteenDB 2 10 (by decide) (by decide)).1 pageTwoOfTen rfl rfl).1,
    by decide, by decide⟩

theorem byIdDesc_sorted (l : List BorrowRequest) :
    (l.insertionSort (fun a b => byIdDesc a b = true)).Pairwise (fun a b => a.Id ≥ b.Id) := by
  haveI : IsTotal BorrowRequest (fun a b => byIdDesc a b = true) :=
    ⟨fun a b => by
      simp only [byIdDesc, decide_eq_true_eq]
      exact le_total b.Id a.Id⟩
  haveI : IsTrans BorrowRequest (fun a b => byIdDesc a b = true) :=
    ⟨fun a b c hab hbc => by
      simp only [byIdDesc, decide_eq_true_eq] at *
      exact le_trans hbc hab⟩
  have h := List.sorted_insertionSort (fun a b : BorrowRequest => byIdDesc a b = true) l
  refine List.Pairwise.imp ?_ h
  intro a b hab
  simpa [byIdDesc] using hab

/-- C30: the pages of `getRequests` partition the result. For a limit L ≥ 1 and
n matching rows, the pages 1 to ⌈n / L⌉ put end to end are the matching rows
in the order of the endpoint, which holds every matching row exactly once, by
descending `Id`; every later page is empty. -/
theorem pages_partition (users : List User) (db : DB) (q : RequestsQuery) (L : Nat)
    (hL : 1 ≤ L) :
    ((List.range (ceilDiv (db.requests.filter (requestsWhere q)).length L)).map
        (fun i => (getRequests users db
          { q with page := some (i + 1), limit := some L }).items)).flatten =
      ((db.requests.filter (requestsWhere q)).insertionSort
        (fun a b => byIdDesc a b = true)).map (includeEquipmentAndSummary users db.equipment) ∧
    ((db.requests.filter (requestsWhere q)).insertionSort
        (fun a b => byIdDesc a b = true)).Perm (db.requests.filter (requestsWhere q)) ∧
    ((db.requests.filter (requestsWhere q)).insertionSort
        (fun a b => byIdDesc a b = true)).Pairwise (fun a b => a.Id ≥ b.Id) ∧
    (∀ p : Nat, ceilDiv (db.requests.filter (requestsWhere q)).length L < p →
      (getRequests users db { q with page := some p, limit := some L }).items = []) := by
  have hc := ceilDiv_spec (db.requests.filter (requestsWhere q)).length L hL
  have hlen := List.length_insertionSort (fun a b => byIdDesc a b = true)
    (db.requests.filter (requestsWhere q))
  have hitems : ∀ p : Nat,
      (getRequests users db { q with page := some p, limit := some L }).items =
        ((((db.requests.filter (requestsWhere q)).insertionSort
          (fun a b => byIdDesc a b = true)).drop ((p - 1) * L)).take L).map
          (includeEquipmentAndSummary users db.equipment) := by
    intro p
    rfl
  refine ⟨?_, List.perm_insertionSort _ _, byIdDesc_sorted _, ?_⟩
  · have hfun : (fun i => (getRequests users db
          { q with page := some (i + 1), limit := some L }).items) =
        fun i => (((((db.requests.filter (requestsWhere q)).insertionSort
          (fun a b => byIdDesc a b = true)).map
            (includeEquipmentAndSummary users db.equipment)).drop (i * L)).take L) := by
      funext i
      rw [hitems (i + 1), Nat.add_sub_cancel, List.map_take, List.map_drop]
    rw [hfun]
    apply flatten_chunks
    rw [List.length_map, hlen]
    exact hc.1
  · intro p hp
    rw [hitems p]
    have hdrop : ((db.requests.filter (requestsWhere q)).insertionSort
        (fun a b => byIdDesc a b = true)).drop ((p - 1) * L) = [] := by
      apply List.drop_eq_nil_of_le
      rw [hlen]
      have h1 : ceilDiv (db.requests.filter (requestsWhere q)).length L ≤ p - 1 := by omega
      exact le_trans hc.1 (Nat.mul_le_mul_right L h1)
    rw [hdrop, List.take_nil, List.map_nil]

/-- Witness of C30: fifteen rows in pages of ten. -/
theorem pages_partition_witness :
    ceilDiv (fifteenDB.requests.filter (requestsWhere pageTwoOfTen)).length 10 = 2 ∧
    ((List.range (ceilDiv (fifteenDB.requests.filter (requestsWhere pageTwoOfTen)).length
        10)).map
        (fun i => (getRequests sampleUsers fifteenDB
          { pageTwoOfTen with page := some (i + 1), limit := some 10 }).items)).flatten =
      ((fifteenDB.requests.filter (requestsWhere pageTwoOfTen)).insertionSort
        (fun a b => byIdDesc a b = true)).map
        (includeEquipmentAndSummary sampleUsers fifteenDB.equipment) ∧
    (getRequests sampleUsers fifteenDB
      { pageTwoOfTen with page := some 3, limit := some 10 }).items = [] :=
  have h := pages_partition sampleUsers fifteenDB pageTwoOfTen 10 (by decide)
  ⟨by decide, h.1, h.2.2.2 3 (by decide)⟩

/-- C22: at every instant the overdue list holds exactly the ledger rows whose
status is APPROVED and whose due date is strictly before the date of that
instant, in ledger order: no PENDING, REJECTED or RETURNED row is listed, no
such APPROVED row is left out, and the time of day plays no part. -/
theorem overdue_exact (users : List User) (db : DB) (now : Timestamp) :
    (getOverdueRequests users db now).map (fun x => x.request) =
      db.requests.filter (fun r => decide (r.Status = Status.APPROVED ∧ r.DueDate < now.day)) ∧
    (∀ r : BorrowRequest, r ∈ (getOverdueRequests users db now).map (fun x => x.request) ↔
      (r ∈ db.requests ∧ r.Status = Status.APPROVED ∧ r.DueDate < now.day)) ∧
    (∀ ms : Nat, getOverdueRequests users db { day := now.day, msOfDay := ms } =
      getOverdueRequests users db now) := by
  have hlist : (getOverdueRequests users db now).map (fun x => x.request) =
      db.requests.filter
        (fun r => decide (r.Status = Status.APPROVED ∧ r.DueDate < now.day)) := by
    unfold getOverdueRequests
    rw [List.map_map]
    have : ((fun x : RequestWithUser => x.request) ∘
        includeEquipmentAndUser users db.equipment) = id := by
      funext r
      rfl
    rw [this, List.map_id]
    apply List.filter_congr
    intro r _
    rw [Bool.eq_iff_iff]
    simp [dateBefore]
  refine ⟨hlist, ?_, fun ms => rfl⟩
  intro r
  rw [hlist, List.mem_filter]
  simp

/-- An example of the overdue list: request A once approved (due on day 5) is
not listed on day 5, whatever the time of day, and is listed on day 6. -/
theorem overdue_on_due_day_example :
    getOverdueRequests sampleUsers (setStatus sampleDB 1 Status.APPROVED none (some 2) 2).1
        { day := 5, msOfDay := 43200000 } = [] ∧
    ((getOverdueRequests sampleUsers (setStatus sampleDB 1 Status.APPROVED none (some 2) 2).1
        { day := 6, msOfDay := 0 }).map (fun x => x.request.Id)) = [1] ∧
    getOverdueRequests sampleUsers sampleDB { day := 9, msOfDay := 0 } = [] := by
  decide

/-! ## Actions offered by the request list -/

theorem updateRequestStatus_sets_status (db : DB) (route : RequestRoute) (id : Int)
    (b : StatusBody) (now : Date) (t : Status) (ht : b.status = some t) :
    ∀ x ∈ (updateRequestStatus db route id b now).1.requests, x.Id = id → x.Status = t := by
  intro x hx hid
  by_cases hex : ∃ r ∈ db.requests, r.Id = id
  · rw [updateRequestStatus_store db route id b now hex] at hx
    obtain ⟨r, _, _, rfl⟩ := mem_map_update hx hid
    have hfs : finalStatus route b.status = some t := by
      unfold finalStatus
      rw [ht, if_neg]
      rintro ⟨_, h⟩
      cases h
    simp only [applyUpdate, mkUpdateData, hfs, Option.getD_some]
  · rw [updateRequestStatus_of_missing db route id b now hex] at hx
    exact absurd ⟨x, hx, hid⟩ hex

/-- C27, as stated, fails: the list shows the rows as they were when it was
fetched. Request A is shown as PENDING to a member of staff, so Approve is
offered; in the store another call has rejected it meanwhile. The action
issued from the card turns the stored status from REJECTED to APPROVED. -/
theorem ui_stale_card_counterexample :
    UiAction.approve.offered Role.staff requestA = true ∧
    (setStatus sampleDB 1 Status.REJECTED none (some 3) 2).1.requests.map
      (fun x => (x.Id, x.Status)) = [(requestA.Id, Status.REJECTED)] ∧
    (requestRouter Role.staff (setStatus sampleDB 1 Status.REJECTED none (some 3) 2).1 2
      (UiAction.approve.call 2 requestA)).requests.map
      (fun x => (x.Id, x.Status)) = [(requestA.Id, Status.APPROVED)] := by
  decide

/-- C27, amended: the request list offers Approve and Reject exactly for a
PENDING request shown to an admin or a member of staff, and Mark as Returned
exactly for an APPROVED request; a REJECTED or RETURNED request is offered
nothing. When an offered action is issued for a request that is stored as it
is displayed, the request is stored afterwards with the status sent, and the
change is one of PENDING to APPROVED, PENDING to REJECTED, APPROVED to
RETURNED. -/
theorem ui_offers_intended_transitions (role : Role) (request : BorrowRequest) :
    (UiAction.approve.offered role request = true ↔
      (request.Status = Status.PENDING ∧ (role = Role.admin ∨ role = Role.staff))) ∧
    (∀ reason : Option String, (UiAction.reject reason).offered role request = true ↔
      (request.Status = Status.PENDING ∧ (role = Role.admin ∨ role = Role.staff))) ∧
    (UiAction.markReturned.offered role request = true ↔ request.Status = Status.APPROVED) ∧
    (UiAction.approve.sends = Status.APPROVED ∧
      (∀ reason : Option String, (UiAction.reject reason).sends = Status.REJECTED) ∧
      UiAction.markReturned.sends = Status.RETURNED) ∧
    ((request.Status = Status.REJECTED ∨ request.Status = Status.RETURNED) →
      ∀ action : UiAction, action.offered role request = false) ∧
    (∀ (action : UiAction) (userId : Int) (db : DB) (now : Date),
      request ∈ db.requests → action.offered role request = true →
      ((request.Status = Status.PENDING ∧ action.sends = Status.APPROVED) ∨
        (request.Status = Status.PENDING ∧ action.sends = Status.REJECTED) ∨
        (request.Status = Status.APPROVED ∧ action.sends = Status.RETURNED)) ∧
      (requestRouter role db now (action.call userId request)).requests.map (fun x => x.Id) =
        db.requests.map (fun x => x.Id) ∧
      (∀ x ∈ (requestRouter role db now (action.call userId request)).requests,
        x.Id = request.Id → x.Status = action.sends)) := by
  have hgate : ∀ st : Status,
      ((role == Role.admin || role == Role.staff) && request.Status == st) = true ↔
        (request.Status = st ∧ (role = Role.admin ∨ role = Role.staff)) := by
    intro st
    simp only [Bool.and_eq_true, Bool.or_eq_true, beq_iff_eq]
    exact and_comm
  refine ⟨hgate _, fun _ => hgate _, ?_, ⟨rfl, fun _ => rfl, rfl⟩, ?_, ?_⟩
  · simp [UiAction.offered]
  · intro hst action
    cases action with
    | approve =>
      rw [← Bool.not_eq_true]
      intro h
      have := ((hgate Status.PENDING).mp h).1
      rcases hst with h' | h' <;> rw [h'] at this <;> cases this
    | reject reason =>
      rw [← Bool.not_eq_true]
      intro h
      have := ((hgate Status.PENDING).mp h).1
      rcases hst with h' | h' <;> rw [h'] at this <;> cases this
    | markReturned =>
      rcases hst with h' | h' <;> simp [UiAction.offered, h']
  · intro action userId db now hmem hoff
    have hkeys : ∀ (route : RequestRoute) (b : StatusBody),
        (updateRequestStatus db route request.Id b now).1.requests.map (fun x => x.Id) =
          db.requests.map (fun x => x.Id) := by
      intro route b
      rw [updateRequestStatus_store db route request.Id b now ⟨request, hmem, rfl⟩]
      exact map_update_keys _ _ _
    cases action with
    | approve =>
      have hg := (hgate Status.PENDING).mp hoff
      have hauth : authorizeRoles [Role.admin, Role.staff] role = true := by
        rcases hg.2 with h | h <;> rw [h] <;> decide
      refine ⟨Or.inl ⟨hg.1, rfl⟩, ?_, ?_⟩
      · simp only [UiAction.call, requestRouter, hauth, if_true]
        exact hkeys _ _
      · simp only [UiAction.call, requestRouter, hauth, if_true]
        exact updateRequestStatus_sets_status db _ _ _ now Status.APPROVED rfl
    | reject reason =>
      have hg := (hgate Status.PENDING).mp hoff
      have hauth : authorizeRoles [Role.admin, Role.staff] role = true := by
        rcases hg.2 with h | h <;> rw [h] <;> decide
      refine ⟨Or.inr (Or.inl ⟨hg.1, rfl⟩), ?_, ?_⟩
      · simp only [UiAction.call, requestRouter, hauth, if_true]
        exact hkeys _ _
      · simp only [UiAction.call, requestRouter, hauth, if_true]
        exact updateRequestStatus_sets_status db _ _ _ now Status.REJECTED rfl
    | markReturned =>
      have hst : request.Status = Status.APPROVED := by
        simpa [UiAction.offered] using hoff
      refine ⟨Or.inr (Or.inr ⟨hst, rfl⟩), ?_, ?_⟩
      · simp only [UiAction.call, requestRouter]
        exact hkeys _ _
      · simp only [UiAction.call, requestRouter]
        exact updateRequestStatus_sets_status db _ _ _ now Status.RETURNED rfl

/-- Witness of the amended C27: a member of staff rejects request A, shown as
PENDING and stored so. -/
theorem ui_offers_intended_transitions_witness :
    requestA ∈ sampleDB.requests ∧
    (UiAction.reject (some "no stock")).offered Role.staff requestA = true ∧
    (∀ x ∈ (requestRouter Role.staff sampleDB 9
        ((UiAction.reject (some "no stock")).call 2 requestA)).requests,
      x.Id = requestA.Id → x.Status = (UiAction.reject (some "no stock")).sends) ∧
    (∀ action : UiAction, action.offered Role.admin returnedLoan = false) :=
  have h := ui_offers_intended_transitions Role.staff requestA
  ⟨by decide, by decide,
    (h.2.2.2.2.2 (UiAction.reject (some "no stock")) 2 sampleDB 9 (by decide) (by decide)).2.2,
    (ui_offers_intended_transitions Role.admin returnedLoan).2.2.2.2.1 (Or.inr (by decide))⟩

/-! ## Catalog calls (`addEquipment`, `updateEquipment`) -/

theorem JsonBody.get_some_mem {d : JsonBody} {k : String} {v : BodyValue}
    (h : d.get k = some v) : ∃ kv ∈ d, kv.1 = k ∧ kv.2 = v := by
  unfold JsonBody.get at h
  cases hf : d.find? (fun kv => kv.1 == k) with
  | none => rw [hf] at h; cases h
  | some kv =>
    rw [hf] at h
    have hv : kv.2 = v := by simpa using h
    have hk := List.find?_some hf
    exact ⟨kv, List.mem_of_find?_eq_some hf, by simpa using hk, hv⟩

theorem JsonBody.get_none_mem {d : JsonBody} {k : String}
    (h : d.get k = none) : ∀ kv ∈ d, kv.1 ≠ k := by
  unfold JsonBody.get at h
  cases hf : d.find? (fun kv => kv.1 == k) with
  | some kv => rw [hf] at h; cases h
  | none =>
    rw [List.find?_eq_none] at hf
    intro kv hkv hk
    exact hf kv hkv (by simpa using hk)

theorem JsonBody.mem_delete {d : JsonBody} {k : String} {kv : String × BodyValue}
    (h : kv ∈ d.delete k) : kv ∈ d ∧ kv.1 ≠ k := by
  unfold JsonBody.delete at h
  rw [List.mem_filter] at h
  exact ⟨h.1, by simpa using h.2⟩

theorem JsonBody.mem_set {d : JsonBody} {k : String} {v : BodyValue}
    {kv : String × BodyValue} (h : kv ∈ d.set k v) :
    (kv.1 = k ∧ kv.2 = v ∧ ∃ w, (k, w) ∈ d) ∨ (kv.1 ≠ k ∧ kv ∈ d) := by
  unfold JsonBody.set at h
  obtain ⟨x, hx, rfl⟩ := List.mem_map.mp h
  by_cases hk : x.1 = k
  · left
    rw [if_pos hk]
    refine ⟨hk, rfl, x.2, ?_⟩
    rw [← hk]
    exact hx
  · right
    rw [if_neg hk]
    exact ⟨hk, hx⟩

theorem mem_stripTimestamps {body : JsonBody} {kv : String × BodyValue}
    (h : kv ∈ stripTimestamps body) :
    kv ∈ body ∧ kv.1 ≠ "CreatedAt" ∧ kv.1 ≠ "UpdatedAt" ∧ kv.1 ≠ "createdAt" ∧
      kv.1 ≠ "updatedAt" := by
  unfold stripTimestamps at h
  have h4 := JsonBody.mem_delete h
  have h3 := JsonBody.mem_delete h4.1
  have h2 := JsonBody.mem_delete h3.1
  have h1 := JsonBody.mem_delete h2.1
  exact ⟨h1.1, h1.2, h2.2, h3.2, h4.2⟩

theorem mem_coerceAvailability {d : JsonBody} {kv : String × BodyValue}
    (h : kv ∈ coerceAvailability d) :
    (kv.1 = "Availability" ∧ ∃ v, d.get "Availability" = some v ∧
      kv.2 = BodyValue.bool (decide (v = BodyValue.bool true ∨ v = BodyValue.text "true" ∨
        v = BodyValue.int 1))) ∨
    (kv.1 ≠ "Availability" ∧ kv ∈ d) := by
  unfold coerceAvailability at h
  cases hg : d.get "Availability" with
  | none =>
    rw [hg] at h
    right
    exact ⟨JsonBody.get_none_mem hg kv h, h⟩
  | some v =>
    rw [hg] at h
    rcases JsonBody.mem_set h with ⟨hk, hv, _⟩ | ⟨hk, hm⟩
    · left; exact ⟨hk, v, rfl, hv⟩
    · right; exact ⟨hk, hm⟩

theorem mem_coerceQuantity {d : JsonBody} {kv : String × BodyValue}
    (h : kv ∈ coerceQuantity d) :
    (kv.1 = "Quantity" ∧ ∃ v, d.get "Quantity" = some v ∧ kv.2 = parseIntValue v) ∨
    (kv.1 ≠ "Quantity" ∧ kv ∈ d) := by
  unfold coerceQuantity at h
  cases hg : d.get "Quantity" with
  | none =>
    rw [hg] at h
    right
    exact ⟨JsonBody.get_none_mem hg kv h, h⟩
  | some v =>
    rw [hg] at h
    rcases JsonBody.mem_set h with ⟨hk, hv, _⟩ | ⟨hk, hm⟩
    · left; exact ⟨hk, v, rfl, hv⟩
    · right; exact ⟨hk, hm⟩

theorem mem_removeEmpty {d : JsonBody} {kv : String × BodyValue} (h : kv ∈ removeEmpty d) :
    kv ∈ d ∧ kv.2 ≠ BodyValue.text "" ∧ kv.2 ≠ BodyValue.null ∧
      kv.2 ≠ BodyValue.text "undefined" := by
  unfold removeEmpty at h
  rw [List.mem_filter] at h
  refine ⟨h.1, ?_⟩
  have h2 := h.2
  simp only [Bool.not_eq_true', decide_eq_false_iff_not, not_or] at h2
  exact h2

/-- Where the entries of the `SET` list come from. -/
theorem mem_equipmentUpdateData {body : JsonBody} {kv : String × BodyValue}
    (h : kv ∈ equipmentUpdateData body) :
    (kv.1 ≠ "CreatedAt" ∧ kv.1 ≠ "UpdatedAt" ∧ kv.1 ≠ "createdAt" ∧ kv.1 ≠ "updatedAt") ∧
    (kv.2 ≠ BodyValue.text "" ∧ kv.2 ≠ BodyValue.null ∧ kv.2 ≠ BodyValue.text "undefined") ∧
    ((kv.1 = "Quantity" ∧ ∃ w ∈ body, w.1 = "Quantity" ∧ kv.2 = parseIntValue w.2) ∨
      (kv.1 = "Availability" ∧ ∃ w ∈ body, w.1 = "Availability" ∧
        kv.2 = BodyValue.bool (decide (w.2 = BodyValue.bool true ∨
          w.2 = BodyValue.text "true" ∨ w.2 = BodyValue.int 1))) ∨
      (kv.1 ≠ "Quantity" ∧ kv.1 ≠ "Availability" ∧ kv ∈ body)) := by
  unfold equipmentUpdateData at h
  have h1 := mem_removeEmpty h
  refine ⟨?_, h1.2, ?_⟩
  · rcases mem_coerceQuantity h1.1 with ⟨hk, _⟩ | ⟨_, hm⟩
    · rw [hk]; decide
    · rcases mem_coerceAvailability hm with ⟨hk, _⟩ | ⟨_, hm'⟩
      · rw [hk]; decide
      · exact (mem_stripTimestamps hm').2
  · rcases mem_coerceQuantity h1.1 with ⟨hk, v, hg, hv⟩ | ⟨hk, hm⟩
    · left
      obtain ⟨w, hw, hwk, hwv⟩ := JsonBody.get_some_mem hg
      rcases mem_coerceAvailability hw with ⟨hk', _⟩ | ⟨_, hm'⟩
      · rw [hwk] at hk'
        exact absurd hk' (by decide)
      · exact ⟨hk, w, (mem_stripTimestamps hm').1, hwk, by rw [hv, hwv]⟩
    · rcases mem_coerceAvailability hm with ⟨hk', v, hg, hv⟩ | ⟨hk', hm'⟩
      · right; left
        obtain ⟨w, hw, hwk, hwv⟩ := JsonBody.get_some_mem hg
        exact ⟨hk', w, (mem_stripTimestamps hw).1, hwk, by rw [hv, hwv]⟩
      · right; right
        exact ⟨hk, hk', (mem_stripTimestamps hm').1⟩

/-- A body of column and timestamp fields gives a `SET` list of columns. -/
theorem columnsOnly_updateData {body : JsonBody} (h : body.columnsOnly = true) :
    (equipmentUpdateData body).all (fun kv => isColumnName kv.1) = true := by
  rw [List.all_eq_true]
  intro kv hkv
  have hfacts := mem_equipmentUpdateData hkv
  rcases hfacts.2.2 with ⟨hq, _⟩ | ⟨ha, _⟩ | ⟨_, _, hm⟩
  · rw [hq]
    decide
  · rw [ha]
    decide
  · unfold JsonBody.columnsOnly at h
    rw [List.all_eq_true] at h
    have hkey := h kv hm
    rw [Bool.or_eq_true, decide_eq_true_eq] at hkey
    rcases hkey with hkey | hkey | hkey | hkey | hkey
    · exact hkey
    · exact absurd hkey hfacts.1.1
    · exact absurd hkey hfacts.1.2.1
    · exact absurd hkey hfacts.1.2.2.1
    · exact absurd hkey hfacts.1.2.2.2

/-- On a body of column and timestamp fields the database parameter is not
consulted. -/
theorem updateEquipment_columnsOnly (engine : SqlEngine) (db : DB) (id : Int) (body : JsonBody)
    (h : body.columnsOnly = true) :
    updateEquipment engine db id body =
      if (equipmentUpdateData body).all (fun kv => columnAccepts kv.1 kv.2) then
        ({ equipment := db.equipment.map
            (fun e => if e.Id = id then applySet e (equipmentUpdateData body) else e)
           requests := db.requests },
          UpdateEquipmentResponse.updated (Equipment.findByPk
            (db.equipment.map
              (fun e => if e.Id = id then applySet e (equipmentUpdateData body) else e))
            (id : Rat)))
      else (db, UpdateEquipmentResponse.serverError) := by
  unfold updateEquipment
  simp only [columnsOnly_updateData h, if_true]

theorem setColumn_quantity (e : Equipment) (key : String) (v : BodyValue)
    (hv : key = "Quantity" → ∃ n, v = BodyValue.int n ∧ 1 ≤ n) (he : 1 ≤ e.Quantity) :
    1 ≤ (setColumn e key v).Quantity := by
  unfold setColumn
  split_ifs with h1 h2 h3 h4 h5
  · exact he
  · exact he
  · exact he
  · obtain ⟨n, rfl, hn⟩ := hv h4
    exact hn
  · split <;> exact he
  · exact he

theorem applySet_quantity (d : JsonBody) : ∀ e : Equipment,
    (∀ kv ∈ d, kv.1 = "Quantity" → ∃ n, kv.2 = BodyValue.int n ∧ 1 ≤ n) →
    1 ≤ e.Quantity → 1 ≤ (applySet e d).Quantity := by
  induction d with
  | nil => intro e _ he; exact he
  | cons kv d ih =>
    intro e hd he
    show 1 ≤ (applySet (setColumn e kv.1 kv.2) d).Quantity
    apply ih
    · intro x hx
      exact hd x (List.mem_cons_of_mem _ hx)
    · exact setColumn_quantity e kv.1 kv.2 (hd kv (List.mem_cons_self _ _)) he

theorem quantity_run (engine : SqlEngine) (db : DB) (op : CatalogOp)
    (hdb : ∀ e ∈ db.equipment, 1 ≤ e.Quantity) (hop : op.quantityAtLeastOne = true)
    (hcols : op.columnsOnly = true) :
    ∀ e ∈ (op.run engine db).equipment, 1 ≤ e.Quantity := by
  cases op with
  | addEquipment b =>
    intro e he
    simp only [CatalogOp.run, addEquipment, List.mem_append, List.mem_singleton] at he
    rcases he with he | rfl
    · exact hdb e he
    · simp only [CatalogOp.quantityAtLeastOne] at hop
      cases hq : b.Quantity with
      | none => simp
      | some q =>
        rw [hq] at hop
        simpa using hop
  | updateEquipment id body =>
    intro e he
    have hbody : body.columnsOnly = true := hcols
    simp only [CatalogOp.run, updateEquipment_columnsOnly engine db id body hbody] at he
    split at he
    · obtain ⟨x, hx, rfl⟩ := List.mem_map.mp he
      split
      · apply applySet_quantity _ _ _ (hdb x hx)
        intro kv hkv hk
        rcases (mem_equipmentUpdateData hkv).2.2 with ⟨_, w, hw, hwk, hv⟩ | ⟨hk', _⟩ | ⟨hk', _⟩
        · simp only [CatalogOp.quantityAtLeastOne, List.all_eq_true, Bool.or_eq_true,
            decide_eq_true_eq] at hop
          rcases hop w hw with h | h
          · exact absurd hwk h
          · rw [hv]
            cases hp : parseIntValue w.2 with
            | int n =>
              rw [hp] at h
              exact ⟨n, rfl, by simpa using h⟩
            | null => rw [hp] at h; cases h
            | bool _ => rw [hp] at h; cases h
            | text _ => rw [hp] at h; cases h
            | nan => rw [hp] at h; cases h
        · rw [hk] at hk'
          exact absurd hk' (by decide)
        · exact absurd hk hk'
      · exact hdb x hx
    · exact hdb e he

/-- C23, as stated, fails: `addEquipment` stores the quantity 0 it is given, and
`updateEquipment` stores the quantity −3 parsed from the body. Both bodies
carry column fields only, so the database parameter is not consulted. -/
theorem quantity_invariant_counterexample :
    (runCatalog refusingEngine emptyStore [CatalogOp.addEquipment tripodZero]).equipment.map
        (fun e => e.Quantity) = [0] ∧
    (runCatalog refusingEngine emptyStore
        [CatalogOp.addEquipment tripodDefault,
         CatalogOp.updateEquipment 1 [("Quantity", BodyValue.text "-3")]]).equipment.map
        (fun e => e.Quantity) = [-3] := by
  decide

/-- C23, amended: whatever the database does with a key that is not a column,
in every state reached from a catalog whose quantities are at least 1, the
empty catalog in particular, by `addEquipment` and `updateEquipment` calls
whose bodies carry column and timestamp fields only and supply no quantity or
an integer quantity that is at least 1, every catalog row has a quantity that
is at least 1; an `addEquipment` call that supplies none stores 1. -/
theorem quantity_at_least_one (engine : SqlEngine) (db : DB) (ops : List CatalogOp)
    (hdb : ∀ e ∈ db.equipment, 1 ≤ e.Quantity)
    (hops : ∀ op ∈ ops, op.columnsOnly = true ∧ op.quantityAtLeastOne = true) :
    (∀ e ∈ (runCatalog engine db ops).equipment, 1 ≤ e.Quantity) ∧
    (∀ b : AddEquipmentBody, b.Quantity = none → (addEquipment db b).2.Quantity = 1) := by
  constructor
  · induction ops generalizing db with
    | nil => exact hdb
    | cons op ops ih =>
      show ∀ e ∈ (runCatalog engine (op.run engine db) ops).equipment, 1 ≤ e.Quantity
      apply ih
      · exact quantity_run engine db op hdb (hops op (List.mem_cons_self _ _)).2
          (hops op (List.mem_cons_self _ _)).1
      · intro o ho
        exact hops o (List.mem_cons_of_mem _ ho)
  · intro b hb
    simp [addEquipment, hb]

/-- Witness of the amended C23: a tripod entered with no quantity, then given
the quantity "4". -/
theorem quantity_at_least_one_witness :
    (∀ e ∈ emptyStore.equipment, 1 ≤ e.Quantity) ∧
    (∀ op ∈ [CatalogOp.addEquipment tripodDefault,
        CatalogOp.updateEquipment 1 [("Quantity", BodyValue.text "4")]],
      op.columnsOnly = true ∧ op.quantityAtLeastOne = true) ∧
    (runCatalog refusingEngine emptyStore [CatalogOp.addEquipment tripodDefault,
        CatalogOp.updateEquipment 1 [("Quantity", BodyValue.text "4")]]).equipment.map
      (fun e => e.Quantity) = [4] ∧
    (∀ e ∈ (runCatalog refusingEngine emptyStore [CatalogOp.addEquipment tripodDefault,
        CatalogOp.updateEquipment 1 [("Quantity", BodyValue.text "4")]]).equipment,
      1 ≤ e.Quantity) :=
  ⟨by decide, by decide, by decide,
    (quantity_at_least_one refusingEngine emptyStore [CatalogOp.addEquipment tripodDefault,
        CatalogOp.updateEquipment 1 [("Quantity", BodyValue.text "4")]]
      (by decide) (by decide)).1⟩

theorem JsonBody.get_delete_ne (d : JsonBody) (k k' : String) (h : k ≠ k') :
    (d.delete k').get k = d.get k := by
  unfold JsonBody.get JsonBody.delete
  induction d with
  | nil => rfl
  | cons x xs ih =>
    simp only [List.filter_cons]
    by_cases hx : x.1 = k'
    · have hxk : ¬ x.1 = k := fun hk => h (hk.symm.trans hx)
      simp only [hx, bne_self_eq_false, Bool.false_eq_true, if_false, List.find?_cons]
      have : (k' == k) = false := by simpa using fun hk : k' = k => h hk.symm
      rw [this]
      exact ih
    · have hne : (x.1 != k') = true := by simpa using hx
      simp only [hne, if_true, List.find?_cons]
      cases hk : (x.1 == k) with
      | true => rfl
      | false => exact ih

theorem get_stripTimestamps (body : JsonBody) (k : String)
    (hk : k ≠ "CreatedAt" ∧ k ≠ "UpdatedAt" ∧ k ≠ "createdAt" ∧ k ≠ "updatedAt") :
    (stripTimestamps body).get k = body.get k := by
  unfold stripTimestamps
  rw [JsonBody.get_delete_ne _ _ _ hk.2.2.2, JsonBody.get_delete_ne _ _ _ hk.2.2.1,
    JsonBody.get_delete_ne _ _ _ hk.2.1, JsonBody.get_delete_ne _ _ _ hk.1]

theorem JsonBody.get_isSome_of_mem {d : JsonBody} {k : String} {w : String × BodyValue}
    (hw : w ∈ d) (hk : w.1 = k) : ∃ v, d.get k = some v := by
  cases hg : d.get k with
  | some v => exact ⟨v, rfl⟩
  | none => exact absurd hk (JsonBody.get_none_mem hg w hw)

theorem mem_stripTimestamps_of_mem {body : JsonBody} {w : String × BodyValue} (hw : w ∈ body)
    (hk : w.1 ≠ "CreatedAt" ∧ w.1 ≠ "UpdatedAt" ∧ w.1 ≠ "createdAt" ∧ w.1 ≠ "updatedAt") :
    w ∈ stripTimestamps body := by
  unfold stripTimestamps JsonBody.delete
  simp only [List.mem_filter, bne_iff_ne, ne_eq]
  exact ⟨⟨⟨⟨hw, hk.1⟩, hk.2.1⟩, hk.2.2.1⟩, hk.2.2.2⟩

theorem JsonBody.get_set_ne (d : JsonBody) (k k' : String) (v : BodyValue) (h : k ≠ k') :
    (d.set k' v).get k = d.get k := by
  unfold JsonBody.get JsonBody.set
  induction d with
  | nil => rfl
  | cons x xs ih =>
    simp only [List.map_cons, List.find?_cons]
    by_cases hx : x.1 = k'
    · have hxk : (x.1 == k) = false := by
        simpa using fun hk : x.1 = k => h (hk.symm.trans hx)
      simp only [hx, if_true]
      have hk' : (k' == k) = false := by simpa using fun hk : k' = k => h hk.symm
      rw [hk']
      rw [hx] at hxk
      simp only [hxk]
      exact ih
    · simp only [hx, if_false]
      cases hk : (x.1 == k) with
      | true => rfl
      | false => exact ih

theorem JsonBody.mem_set_of_mem {d : JsonBody} {w : String × BodyValue} (hw : w ∈ d)
    (k : String) (v : BodyValue) :
    (w.1 = k → (w.1, v) ∈ d.set k v) ∧ (w.1 ≠ k → w ∈ d.set k v) := by
  unfold JsonBody.set
  constructor
  · intro hk
    rw [List.mem_map]
    exact ⟨w, hw, by rw [if_pos hk]⟩
  · intro hk
    rw [List.mem_map]
    exact ⟨w, hw, by rw [if_neg hk]⟩

theorem parseIntValue_cases (v : BodyValue) :
    (∃ n, parseIntValue v = BodyValue.int n) ∨ parseIntValue v = BodyValue.nan := by
  cases v with
  | int n => exact Or.inl ⟨n, rfl⟩
  | text s =>
    cases hp : parseIntNoRadix s.toList with
    | some n => exact Or.inl ⟨n, by simp only [parseIntValue, hp]⟩
    | none => exact Or.inr (by simp only [parseIntValue, hp])
  | null => exact Or.inr rfl
  | bool b => exact Or.inr rfl
  | nan => exact Or.inr rfl

theorem get_coerceAvailability (d : JsonBody) (k : String) (hk : k ≠ "Availability") :
    (coerceAvailability d).get k = d.get k := by
  unfold coerceAvailability
  split
  · exact JsonBody.get_set_ne d k "Availability" _ hk
  · rfl

theorem mem_removeEmpty_of_mem {d : JsonBody} {w : String × BodyValue} (hw : w ∈ d)
    (h : w.2 ≠ BodyValue.text "" ∧ w.2 ≠ BodyValue.null ∧ w.2 ≠ BodyValue.text "undefined") :
    w ∈ removeEmpty d := by
  unfold removeEmpty
  rw [List.mem_filter]
  refine ⟨hw, ?_⟩
  simp only [Bool.not_eq_true', decide_eq_false_iff_not, not_or]
  exact h

/-- A supplied availability reaches the `SET` list as a boolean. -/
theorem availability_in_updateData (body : JsonBody) (v : BodyValue)
    (hv : body.get "Availability" = some v) :
    (∃ kv ∈ equipmentUpdateData body, kv.1 = "Availability") ∧
    (∀ kv ∈ equipmentUpdateData body, kv.1 = "Availability" →
      kv.2 = BodyValue.bool (decide (v = BodyValue.bool true ∨ v = BodyValue.text "true" ∨
        v = BodyValue.int 1))) := by
  have hg : (stripTimestamps body).get "Availability" = some v := by
    rw [get_stripTimestamps body "Availability" (by decide)]
    exact hv
  constructor
  · obtain ⟨w, hw, hwk, _⟩ := JsonBody.get_some_mem hg
    have h1 : (w.1, BodyValue.bool (decide (v = BodyValue.bool true ∨
        v = BodyValue.text "true" ∨ v = BodyValue.int 1))) ∈
        coerceAvailability (stripTimestamps body) := by
      unfold coerceAvailability
      rw [hg]
      exact (JsonBody.mem_set_of_mem hw _ _).1 hwk
    have hne : (w.1, BodyValue.bool (decide (v = BodyValue.bool true ∨
        v = BodyValue.text "true" ∨ v = BodyValue.int 1))).1 ≠ "Quantity" := by
      show w.1 ≠ "Quantity"
      rw [hwk]
      decide
    have h2 : (w.1, BodyValue.bool (decide (v = BodyValue.bool true ∨
        v = BodyValue.text "true" ∨ v = BodyValue.int 1))) ∈
        coerceQuantity (coerceAvailability (stripTimestamps body)) := by
      unfold coerceQuantity
      split
      · exact (JsonBody.mem_set_of_mem h1 _ _).2 hne
      · exact h1
    exact ⟨(w.1, BodyValue.bool (decide (v = BodyValue.bool true ∨
        v = BodyValue.text "true" ∨ v = BodyValue.int 1))),
      mem_removeEmpty_of_mem h2 ⟨by simp, by simp, by simp⟩, hwk⟩
  · intro kv hkv hk
    unfold equipmentUpdateData at hkv
    rcases mem_coerceQuantity (mem_removeEmpty hkv).1 with ⟨hk', _⟩ | ⟨_, hm⟩
    · rw [hk] at hk'
      exact absurd hk' (by decide)
    · rcases mem_coerceAvailability hm with ⟨_, v', hg', hv'⟩ | ⟨hk', _⟩
      · rw [hg] at hg'
        cases hg'
        exact hv'
      · exact absurd hk hk'

/-- A supplied quantity reaches the `SET` list through `parseInt`. -/
theorem quantity_in_updateData (body : JsonBody) (v : BodyValue)
    (hv : body.get "Quantity" = some v) :
    (∃ kv ∈ equipmentUpdateData body, kv.1 = "Quantity") ∧
    (∀ kv ∈ equipmentUpdateData body, kv.1 = "Quantity" → kv.2 = parseIntValue v) := by
  have hg : (coerceAvailability (stripTimestamps body)).get "Quantity" = some v := by
    rw [get_coerceAvailability _ _ (by decide), get_stripTimestamps body "Quantity" (by decide)]
    exact hv
  constructor
  · obtain ⟨w, hw, hwk, _⟩ := JsonBody.get_some_mem hg
    have h1 : (w.1, parseIntValue v) ∈
        coerceQuantity (coerceAvailability (stripTimestamps body)) := by
      unfold coerceQuantity
      rw [hg]
      exact (JsonBody.mem_set_of_mem hw _ _).1 hwk
    refine ⟨(w.1, parseIntValue v), mem_removeEmpty_of_mem h1 ?_, hwk⟩
    rcases parseIntValue_cases v with ⟨n, hn⟩ | hn
    · show parseIntValue v ≠ _ ∧ parseIntValue v ≠ _ ∧ parseIntValue v ≠ _
      rw [hn]
      exact ⟨by simp, by simp, by simp⟩
    · show parseIntValue v ≠ _ ∧ parseIntValue v ≠ _ ∧ parseIntValue v ≠ _
      rw [hn]
      exact ⟨by simp, by simp, by simp⟩
  · intro kv hkv hk
    unfold equipmentUpdateData at hkv
    rcases mem_coerceQuantity (mem_removeEmpty hkv).1 with ⟨_, v', hg', hv'⟩ | ⟨hk', _⟩
    · rw [hg] at hg'
      cases hg'
      exact hv'
    · exact absurd hk hk'

theorem setColumn_column_ne (e : Equipment) (key k : String) (v : BodyValue) (h : key ≠ k) :
    (setColumn e key v).column k = e.column k := by
  unfold setColumn
  split_ifs with h1 h2 h3 h4 h5
  · subst h1
    simp only [Equipment.column, if_neg (Ne.symm h)]
  · subst h2
    have hk : ¬ k = "Category" := Ne.symm h
    simp only [Equipment.column, hk, if_false]
  · subst h3
    have hk : ¬ k = "Condition" := Ne.symm h
    simp only [Equipment.column, hk, if_false]
  · subst h4
    have hk : ¬ k = "Quantity" := Ne.symm h
    split <;> simp only [Equipment.column, hk, if_false]
  · subst h5
    have hk : ¬ k = "Availability" := Ne.symm h
    split <;> simp only [Equipment.column, hk, if_false]
  · rfl

theorem setColumn_Id (e : Equipment) (key : String) (v : BodyValue) :
    (setColumn e key v).Id = e.Id := by
  unfold setColumn
  split_ifs <;> first | rfl | (split <;> rfl)

theorem applySet_Id (d : JsonBody) : ∀ e : Equipment, (applySet e d).Id = e.Id := by
  induction d with
  | nil => intro e; rfl
  | cons kv d ih =>
    intro e
    show (applySet (setColumn e kv.1 kv.2) d).Id = e.Id
    rw [ih, setColumn_Id]

theorem applySet_column_frame (k : String) (d : JsonBody) : ∀ e : Equipment,
    (∀ kv ∈ d, kv.1 ≠ k) → (applySet e d).column k = e.column k := by
  induction d with
  | nil => intro e _; rfl
  | cons kv d ih =>
    intro e hd
    show (applySet (setColumn e kv.1 kv.2) d).column k = e.column k
    rw [ih _ (fun x hx => hd x (List.mem_cons_of_mem _ hx)),
      setColumn_column_ne e kv.1 k kv.2 (hd kv (List.mem_cons_self _ _))]

theorem applySet_column_last (k : String) (v : BodyValue)
    (hexact : ∀ e : Equipment, (setColumn e k v).column k = some v) (d : JsonBody) :
    ∀ e : Equipment, (∀ kv ∈ d, kv.1 = k → kv.2 = v) → (∃ kv ∈ d, kv.1 = k) →
      (applySet e d).column k = some v := by
  induction d with
  | nil =>
    intro e _ hex
    obtain ⟨kv, hkv, _⟩ := hex
    cases hkv
  | cons x d ih =>
    intro e hall hex
    show (applySet (setColumn e x.1 x.2) d).column k = some v
    by_cases hd : ∃ kv ∈ d, kv.1 = k
    · exact ih _ (fun kv hkv => hall kv (List.mem_cons_of_mem _ hkv)) hd
    · have hno : ∀ kv ∈ d, kv.1 ≠ k := fun kv hkv hk => hd ⟨kv, hkv, hk⟩
      rw [applySet_column_frame k d _ hno]
      obtain ⟨kv, hkv, hk⟩ := hex
      rcases List.mem_cons.mp hkv with rfl | hkv'
      · rw [hk, hall kv (List.mem_cons_self _ _) hk]
        exact hexact e
      · exact absurd hk (hno kv hkv')

/-- The store after `updateEquipment` on a body of column and timestamp fields:
unchanged when the statement is refused, otherwise the rows with the key
rewritten by the `SET` list. -/
theorem updateEquipment_store (engine : SqlEngine) (db : DB) (id : Int) (body : JsonBody)
    (hcols : body.columnsOnly = true) :
    ((updateEquipment engine db id body).2 = UpdateEquipmentResponse.serverError ∧
      (updateEquipment engine db id body).1 = db) ∨
    ((updateEquipment engine db id body).2 ≠ UpdateEquipmentResponse.serverError ∧
      (equipmentUpdateData body).all (fun kv => columnAccepts kv.1 kv.2) = true ∧
      (updateEquipment engine db id body).1 =
        { equipment := db.equipment.map
            (fun e => if e.Id = id then applySet e (equipmentUpdateData body) else e)
          requests := db.requests }) := by
  rw [updateEquipment_columnsOnly engine db id body hcols]
  split
  · right
    rename_i hacc
    exact ⟨by simp, hacc, rfl⟩
  · left
    exact ⟨rfl, rfl⟩

theorem updateEquipment_column_frame (engine : SqlEngine) (db : DB) (id : Int) (body : JsonBody)
    (hcols : body.columnsOnly = true) (k : String)
    (hk : ∀ kv ∈ equipmentUpdateData body, kv.1 ≠ k) :
    (updateEquipment engine db id body).1.equipment.map (fun e => e.column k) =
      db.equipment.map (fun e => e.column k) := by
  rcases updateEquipment_store engine db id body hcols with ⟨_, h⟩ | ⟨_, _, h⟩
  · rw [h]
  · rw [h, List.map_map]
    apply List.map_congr_left
    intro e _
    simp only [Function.comp]
    split
    · exact applySet_column_frame k _ e hk
    · rfl

/-- C26 fails on `Availability`. Line 87 drops the fields supplied as the empty
string or `null`, and the name of the projector supplied so is kept; but line
79 has turned an `Availability` supplied so into `false` before, which is not
dropped: the projector, available before the call, is stored unavailable. The
bodies carry column fields only, so this holds whatever the database does
with other keys. -/
theorem updateEquipment_writes_empty_availability (engine : SqlEngine) :
    sampleDB.equipment.map (fun e => (e.Id, e.Name, e.Availability)) =
      [(1, "Projector", true), (2, "Microscope", false)] ∧
    (updateEquipment engine sampleDB 1
        [("Name", BodyValue.null), ("Availability", BodyValue.null)]).1.equipment.map
      (fun e => (e.Id, e.Name, e.Availability)) =
      [(1, "Projector", false), (2, "Microscope", false)] ∧
    (updateEquipment engine sampleDB 1
        [("Name", BodyValue.text ""), ("Availability", BodyValue.text "")]).1.equipment.map
      (fun e => (e.Id, e.Name, e.Availability)) =
      [(1, "Projector", false), (2, "Microscope", false)] := by
  refine ⟨by decide, ?_, ?_⟩
  · rw [updateEquipment_columnsOnly engine sampleDB 1 _ (by decide)]
    decide
  · rw [updateEquipment_columnsOnly engine sampleDB 1 _ (by decide)]
    decide

/-- What `updateEquipment` keeps to on a body of column and timestamp fields.
The four timestamp keys never enter the `SET` list. A column whose key is
absent from the body keeps its stored value in every row, and so do `Name`,
`Category` and `Condition` when supplied as the empty string or `null`. A
supplied `Availability` is written as a boolean, true exactly for `true`,
`'true'` and `1`. A supplied `Quantity` is written, when the statement is
accepted, as the integer that `parseInt` reads from it. The ledger is
unchanged. -/
theorem updateEquipment_partial_update (engine : SqlEngine) (db : DB) (id : Int)
    (body : JsonBody) (hcols : body.columnsOnly = true) :
    (∀ kv ∈ equipmentUpdateData body,
      kv.1 ≠ "CreatedAt" ∧ kv.1 ≠ "UpdatedAt" ∧ kv.1 ≠ "createdAt" ∧ kv.1 ≠ "updatedAt") ∧
    (∀ k : String, (∀ kv ∈ body, kv.1 ≠ k) →
      (updateEquipment engine db id body).1.equipment.map (fun e => e.column k) =
        db.equipment.map (fun e => e.column k)) ∧
    (∀ k : String, (k = "Name" ∨ k = "Category" ∨ k = "Condition") →
      (∀ kv ∈ body, kv.1 = k → (kv.2 = BodyValue.text "" ∨ kv.2 = BodyValue.null)) →
      (updateEquipment engine db id body).1.equipment.map (fun e => e.column k) =
        db.equipment.map (fun e => e.column k)) ∧
    (∀ v : BodyValue, body.get "Availability" = some v →
      (updateEquipment engine db id body).2 ≠ UpdateEquipmentResponse.serverError →
      ∀ e ∈ (updateEquipment engine db id body).1.equipment, e.Id = id →
        e.Availability = decide (v = BodyValue.bool true ∨ v = BodyValue.text "true" ∨
          v = BodyValue.int 1)) ∧
    (∀ v : BodyValue, body.get "Quantity" = some v →
      (updateEquipment engine db id body).2 ≠ UpdateEquipmentResponse.serverError →
      ∃ n : Int, parseIntValue v = BodyValue.int n ∧
        ∀ e ∈ (updateEquipment engine db id body).1.equipment, e.Id = id → e.Quantity = n) ∧
    (updateEquipment engine db id body).1.requests = db.requests := by
  refine ⟨fun kv hkv => (mem_equipmentUpdateData hkv).1, ?_, ?_, ?_, ?_, ?_⟩
  · intro k habs
    apply updateEquipment_column_frame engine db id body hcols
    intro kv hkv hk
    rcases (mem_equipmentUpdateData hkv).2.2 with ⟨hq, w, hw, hwk, _⟩ | ⟨ha, w, hw, hwk, _⟩ |
      ⟨_, _, hm⟩
    · exact habs w hw (by rw [hwk, ← hq, hk])
    · exact habs w hw (by rw [hwk, ← ha, hk])
    · exact habs kv hm hk
  · intro k hcol hempty
    apply updateEquipment_column_frame engine db id body hcols
    intro kv hkv hk
    have hfacts := mem_equipmentUpdateData hkv
    rcases hfacts.2.2 with ⟨hq, _⟩ | ⟨ha, _⟩ | ⟨_, _, hm⟩
    · rw [hk] at hq
      rcases hcol with h | h | h <;> rw [h] at hq <;> revert hq <;> decide
    · rw [hk] at ha
      rcases hcol with h | h | h <;> rw [h] at ha <;> revert ha <;> decide
    · rcases hempty kv hm hk with h | h
      · exact hfacts.2.1.1 h
      · exact hfacts.2.1.2.1 h
  · intro v hv hok e he hid
    rcases updateEquipment_store engine db id body hcols with ⟨herr, _⟩ | ⟨_, _, h⟩
    · exact absurd herr hok
    · rw [h] at he
      obtain ⟨x, _, rfl⟩ := List.mem_map.mp he
      obtain ⟨hex, hall⟩ := availability_in_updateData body v hv
      by_cases hx : x.Id = id
      · rw [if_pos hx]
        have hcolumn := applySet_column_last "Availability"
          (BodyValue.bool (decide (v = BodyValue.bool true ∨ v = BodyValue.text "true" ∨
            v = BodyValue.int 1)))
          (fun e => by simp [setColumn, Equipment.column])
          (equipmentUpdateData body) x hall hex
        simpa [Equipment.column] using hcolumn
      · rw [if_neg hx] at hid
        exact absurd hid hx
  · intro v hv hok
    rcases updateEquipment_store engine db id body hcols with ⟨herr, _⟩ | ⟨_, hacc, h⟩
    · exact absurd herr hok
    · obtain ⟨hex, hall⟩ := quantity_in_updateData body v hv
      have hint : ∃ n, parseIntValue v = BodyValue.int n := by
        rcases parseIntValue_cases v with hn | hn
        · exact hn
        · obtain ⟨kv, hkv, hk⟩ := hex
          have hval := hall kv hkv hk
          rw [List.all_eq_true] at hacc
          have := hacc kv hkv
          rw [hk, hval, hn] at this
          have hnan : columnAccepts "Quantity" BodyValue.nan = false := by decide
          rw [hnan] at this
          cases this
      obtain ⟨n, hn⟩ := hint
      refine ⟨n, hn, ?_⟩
      intro e he hid
      rw [h] at he
      obtain ⟨x, _, rfl⟩ := List.mem_map.mp he
      by_cases hx : x.Id = id
      · rw [if_pos hx]
        rw [hn] at hall
        have hcolumn := applySet_column_last "Quantity" (BodyValue.int n)
          (fun e => by simp [setColumn, Equipment.column])
          (equipmentUpdateData body) x hall hex
        simpa [Equipment.column] using hcolumn
      · rw [if_neg hx] at hid
        exact absurd hid hx
  · rcases updateEquipment_store engine db id body hcols with ⟨_, h⟩ | ⟨_, _, h⟩ <;> rw [h]

/-- An example of the partial update: the equipment form sends a name, an empty
category, a null condition, the quantity "4", the availability "true" and a
timestamp. -/
theorem updateEquipment_partial_update_example :
    formBody.columnsOnly = true ∧
    equipmentUpdateData formBody =
      [("Name", BodyValue.text "Projector X"), ("Quantity", BodyValue.int 4),
       ("Availability", BodyValue.bool true)] ∧
    (updateEquipment refusingEngine sampleDB 1 formBody).1.equipment.map
        (fun e => e.column "Category") =
      sampleDB.equipment.map (fun e => e.column "Category") ∧
    (∃ n : Int, parseIntValue (BodyValue.text "4") = BodyValue.int n ∧
      ∀ e ∈ (updateEquipment refusingEngine sampleDB 1 formBody).1.equipment,
        e.Id = 1 → e.Quantity = n) :=
  have h := updateEquipment_partial_update refusingEngine sampleDB 1 formBody (by decide)
  ⟨by decide, by decide,
    h.2.2.1 "Category" (Or.inr (Or.inl rfl)) (by decide),
    h.2.2.2.2.1 (BodyValue.text "4") (by decide) (by decide)⟩

end Lending
